import Mathlib

/-!
Visuals: property-to-resource binding and baking (visuals2.h, visuals2.c).

Shallow embedding of the visual module: the Source and Prop tables, the data
ingestion calls, the direct-binding calls, the default bake and the update
pipeline.

Conventions of the embedding.

* A C pointer into a table (`&visual->sources[i]`) is the pair of the position
  `i` and the entry stored there; `NULL` is `none`.
* The tables `sources[]` and `props[]` together with their counters
  `source_count` and `prop_count` are lists: the counter is the length, the
  entries past the counter are never read by the code.
* The fixed tables indexed by a pipeline or group number are total maps from
  the index; every access made by the code is guarded by the table bound.
* A call either returns (`Res.ok`) or stops the process on a failed `ASSERT`
  or on an invalid memory access (`Res.abort`); an abort records the visual as
  it was in memory when the process stopped.
* `uint32_t` arithmetic that can wrap is written with an explicit `% 2 ^ 32`.
* The canvas, the GPU context, the viewport and the data coordinates are
  external collaborators and are not part of the state; uploads are recorded
  as events.
-/

namespace Visky

/-! ## Constants (visuals2.h, lines 15 to 20) -/

def VKL_MAX_GRAPHICS_PER_VISUAL : Nat := 256

def VKL_MAX_COMPUTES_PER_VISUAL : Nat := 256

def VKL_MAX_VISUAL_GROUPS : Nat := 16384

def VKL_MAX_VISUAL_SOURCES : Nat := 256

def VKL_MAX_VISUAL_RESOURCES : Nat := 256

def VKL_MAX_VISUAL_PROPS : Nat := 256

/-! ## Enumerations (visuals2.h) -/

inductive VklPipelineType where
  | GRAPHICS
  | COMPUTE
  deriving DecidableEq, Repr

inductive VklPropType where
  | NONE
  | POS
  | COLOR
  | TYPE
  deriving DecidableEq, Repr

inductive VklSourceType where
  | NONE
  | VERTEX
  | INDEX
  | UNIFORM
  | STORAGE
  | TEXTURE
  deriving DecidableEq, Repr

inductive VklSourceOrigin where
  | NONE
  | LIB
  | USER
  deriving DecidableEq, Repr

/-- Element type tag of a Prop (`VklDataType`). The enumeration and the size
table `_get_dtype_size` are declared outside the visual module; the tag is kept
as its integer code and the size table is a parameter `dtype_size` of the
functions that read it. -/
abbrev VklDataType := Nat

/-! ## The typed array -/

/-- Modelled from the spec: one of the "fixed-size items" of a Typed Array,
as its bytes. -/
abbrev Item := List Nat

/-- Modelled from the spec: the Typed Array `VklArray` of array.h, which is not
among the sources. It is "a resizable buffer of fixed-size items". `created`
is the status of its object header (`is_obj_created`), `item_size` the size of
one item in bytes, `data` the items. The item count is the number of items
held, and an array holding no item owns no buffer: its `data` pointer is null. -/
structure VklArray where
  created : Bool
  item_size : Nat
  data : List Item
  deriving DecidableEq, Repr

/-- Modelled from the spec: the field `item_count` of the array, the number of
items it holds. -/
def VklArray.item_count (a : VklArray) : Nat := a.data.length

/-- Modelled from the spec: the size in bytes of the array,
`item_count * item_size`. -/
def VklArray.byte_size (a : VklArray) : Nat := a.item_count * a.item_size

/-- Modelled from the spec: the zero-initialised array that the `{0}`
initialiser of a Prop leaves in `arr_orig` and `arr_trans`: not created, no
item. -/
def VklArray.zero : VklArray := { created := false, item_size := 0, data := [] }

/-- Modelled from the spec: `vkl_array_struct(item_count, item_size)` of array.h
builds a created array of `item_count` zeroed items of the given item size;
`declare_source` uses it for "an empty Typed Array of the given item size". -/
def vkl_array_struct (item_count item_size : Nat) : VklArray :=
  { created := true, item_size := item_size,
    data := List.replicate item_count (List.replicate item_size 0) }

/-- Modelled from the spec: `vkl_array_resize` of array.h, the "whole-array
resize". The spec fixes its semantics as "at least this large, not exactly this
large": "only item count may grow" and a smaller request "must not implicitly
shrink data". Items added by a growth are zeroed. -/
def vkl_array_resize (a : VklArray) (item_count : Nat) : VklArray :=
  if item_count ≤ a.item_count then a
  else { a with data := a.data ++
           List.replicate (item_count - a.item_count) (List.replicate a.item_size 0) }

/-- Modelled from the spec: item `k` of a write that reads `data_item_count`
items from `data`. The last item read is repeated when the write spans more
slots than items were given ("broadcast/replication semantics"). -/
def item_at (data : List Item) (data_item_count k : Nat) : Item :=
  data.getD (min k (data_item_count - 1)) []

/-- Modelled from the spec: `vkl_array_data` of array.h, the "item-range
write": it "writes item_count logical slots starting at first_item, reading
source_item_count items from data". Slots outside the array are not written. -/
def vkl_array_data (a : VklArray) (first_item item_count data_item_count : Nat)
    (data : List Item) : VklArray :=
  { a with data := a.data.mapIdx fun k old =>
      if first_item ≤ k ∧ k < first_item + item_count
      then item_at data data_item_count (k - first_item) else old }

/-- Modelled from the spec: one item of `item_size` bytes after a field of
`col_size` bytes at byte `offset` has been overwritten with the first
`col_size` bytes of `value` ("write one field within each item"). -/
def write_field (item_size offset col_size : Nat) (old value : Item) : Item :=
  (List.range item_size).map fun b =>
    if offset ≤ b ∧ b < offset + col_size then value.getD (b - offset) 0 else old.getD b 0

/-- Modelled from the spec: `vkl_array_column` of array.h, the "column-strided
write (write one field within each item of a larger stride)": it copies
`col_size`-sized values "at stride = Source item size, starting at offset, for
item_count items". -/
def vkl_array_column (a : VklArray) (offset col_size first_item item_count data_item_count : Nat)
    (data : List Item) : VklArray :=
  { a with data := a.data.mapIdx fun k old =>
      if first_item ≤ k ∧ k < first_item + item_count
      then write_field a.item_size offset col_size old
             (item_at data data_item_count (k - first_item))
      else old }

/-! ## GPU handles and Binding Sets -/

/-- Modelled from the spec: the "buffer region" descriptor `VklBufferRegions`
of vklite2.h, as far as the visual module reads it: the buffer handle (`0` is
`VK_NULL_HANDLE`), the size of the region and the number of regions. -/
structure VklBufferRegions where
  buffer : Nat
  size : Nat
  count : Nat
  deriving DecidableEq, Repr

/-- Modelled from the spec: the "texture handle" `VklTexture` of context.h, as
far as the visual module reads it: the image and sampler pointers, `0` for
`NULL`. -/
structure VklTexture where
  image : Nat
  sampler : Nat
  deriving DecidableEq, Repr

/-- Modelled from the spec: an attached "pipeline handle" (`VklGraphics` or
`VklCompute`, declared outside the visual module), with the status of its
object header. -/
structure VklPipelineObj where
  id : Nat
  created : Bool
  deriving DecidableEq, Repr

abbrev VklGraphics := VklPipelineObj

abbrev VklCompute := VklPipelineObj

structure VklSourceBuffer where
  br : VklBufferRegions
  offset : Nat
  size : Nat
  deriving DecidableEq, Repr

/-- The payload `u` of a Source: zeroed, a buffer descriptor or a texture. -/
inductive VklSourceUnion where
  | zero
  | b (buf : VklSourceBuffer)
  | t (texture : VklTexture)
  deriving DecidableEq, Repr

/-- Modelled from the spec: the status of an object header
(`VklObjectStatus`, declared outside the visual module), as far as the visual
module reads it; `NEED_UPDATE` is the dirty flag "needs-update". -/
inductive VklObjectStatus where
  | NONE
  | CREATED
  | NEED_UPDATE
  deriving DecidableEq, Repr

/-- Modelled from the spec: the resource bound at one slot of a Binding
Set. -/
inductive VklBound where
  | unbound
  | buffer (br : VklBufferRegions)
  | texture (image sampler : Nat)
  deriving DecidableEq, Repr

/-- Modelled from the spec: the Binding Set `VklBindings` of vklite2.h, which
is not among the sources: a "descriptor-binding object" that "carries a dirty
flag (needs-update) set whenever its bound resource changes". -/
structure VklBindings where
  status : VklObjectStatus
  bound : Nat → VklBound

/-- Modelled from the spec: the zeroed Binding Set of a table entry that no
attachment has constructed. -/
def VklBindings.zero : VklBindings := { status := .NONE, bound := fun _ => .unbound }

/-- Modelled from the spec: `vkl_bindings` of vklite2.h constructs the Binding
Set of an attached pipeline, with nothing bound and a clear dirty flag. -/
def vkl_bindings (_pipeline : VklPipelineObj) : VklBindings :=
  { status := .CREATED, bound := fun _ => .unbound }

/-- Modelled from the spec: `vkl_bindings_buffer` of vklite2.h binds a buffer
region at a slot and sets the dirty flag. -/
def vkl_bindings_buffer (b : VklBindings) (slot : Nat) (br : VklBufferRegions) : VklBindings :=
  { status := .NEED_UPDATE, bound := Function.update b.bound slot (.buffer br) }

/-- Modelled from the spec: `vkl_bindings_texture` of vklite2.h binds an image
and a sampler at a slot and sets the dirty flag. -/
def vkl_bindings_texture (b : VklBindings) (slot : Nat) (image sampler : Nat) : VklBindings :=
  { status := .NEED_UPDATE, bound := Function.update b.bound slot (.texture image sampler) }

/-- Modelled from the spec: `vkl_bindings_update` of vklite2.h refreshes the
descriptors "and the flag [is] cleared". -/
def vkl_bindings_update (b : VklBindings) : VklBindings :=
  { b with status := .CREATED }

/-! ## Sources, Props and the Visual (visuals2.h, lines 148 to 227) -/

structure VklSource where
  pipeline : VklPipelineType
  pipeline_idx : Nat
  source_type : VklSourceType
  source_idx : Nat
  slot_idx : Nat
  arr : VklArray
  origin : VklSourceOrigin
  u : VklSourceUnion
  deriving DecidableEq, Repr

structure VklProp where
  prop_type : VklPropType
  prop_idx : Nat
  source_type : VklSourceType
  source_idx : Nat
  field_idx : Nat
  dtype : VklDataType
  offset : Nat
  arr_orig : VklArray
  arr_trans : VklArray
  deriving DecidableEq, Repr

/-- A fill callback pointer. -/
inductive VklVisualFillCallback where
  | NULL
  | default_fill
  | custom (id : Nat)
  deriving DecidableEq, Repr

/-- A data callback pointer: null, the static `_default_visual_bake`, or a
caller-supplied function named by a number. -/
inductive VklVisualDataCallback where
  | NULL
  | default_bake
  | custom (id : Nat)
  deriving DecidableEq, Repr

structure VklVisual where
  graphics_count : Nat
  graphics : Nat → Option VklGraphics
  compute_count : Nat
  computes : Nat → Option VklCompute
  callback_fill : VklVisualFillCallback
  callback_transform : VklVisualDataCallback
  callback_bake : VklVisualDataCallback
  sources : List VklSource
  props : List VklProp
  group_count : Nat
  group_sizes : Nat → Nat
  vertex_count : Nat
  index_count : Nat
  bindings : Nat → VklBindings
  bindings_comp : Nat → VklBindings

/-- The counter `source_count`. -/
def VklVisual.source_count (v : VklVisual) : Nat := v.sources.length

/-- The counter `prop_count`. -/
def VklVisual.prop_count (v : VklVisual) : Nat := v.props.length

/-! ## Outcome of a call -/

/-- Modelled from the spec: why a call stopped the process. The `ASSERT` macro
is defined outside the visual module; by the spec a violated assertion is an
unrecoverable precondition violation that aborts the process. The fault
records the line of visuals2.c of the `ASSERT` that failed, or that a null
pointer was dereferenced, or that a table was accessed past its end. -/
inductive VklFault where
  | assert_failed (line : Nat)
  | null_deref
  | out_of_bounds
  deriving DecidableEq, Repr

/-- Outcome of a call: it returns a value, or the process stops and the visual
is left as recorded. -/
inductive Res (α : Type) where
  | ok (a : α)
  | abort (fault : VklFault) (visual : VklVisual)

/-- Sequencing: run `f` when the first call returned. -/
def Res.bind {α β : Type} (r : Res α) (f : α → Res β) : Res β :=
  match r with
  | .ok a => f a
  | .abort e w => .abort e w

/-- The call returned. -/
def Res.returned {α : Type} (r : Res α) : Bool :=
  match r with
  | .ok _ => true
  | .abort _ _ => false

/-! ## Lookup (visuals2.c, lines 454 to 487) -/

/-- The linear scan shared by both lookups: the first position whose entry
satisfies `p`, with the entry. -/
def find_entry {α : Type} (p : α → Bool) : List α → Option (Nat × α)
  | [] => none
  | x :: xs => if p x then some (0, x) else (find_entry p xs).map fun e => (e.1 + 1, e.2)

def vkl_bake_source (visual : VklVisual) (source_type : VklSourceType) (idx : Nat) :
    Option (Nat × VklSource) :=
  find_entry (fun s => decide (s.source_type = source_type ∧ s.source_idx = idx)) visual.sources

/-- The miss is logged in the source; the log is not part of the state. -/
def vkl_bake_prop (visual : VklVisual) (prop_type : VklPropType) (idx : Nat) :
    Option (Nat × VklProp) :=
  find_entry (fun p => decide (p.prop_type = prop_type ∧ p.prop_idx = idx)) visual.props

def vkl_bake_prop_source (visual : VklVisual) (prop : VklProp) : Option (Nat × VklSource) :=
  vkl_bake_source visual prop.source_type prop.source_idx

/-- Store `s` at position `i` of the Source table. -/
def VklVisual.set_source (v : VklVisual) (i : Nat) (s : VklSource) : VklVisual :=
  { v with sources := v.sources.set i s }

/-- Store `p` at position `i` of the Prop table. -/
def VklVisual.set_prop (v : VklVisual) (i : Nat) (p : VklProp) : VklVisual :=
  { v with props := v.props.set i p }

/-! ## Construction and declarations (visuals2.c, lines 122 to 247) -/

/-- The visual returned by `vkl_visual`: everything zeroed, the default fill
and bake callbacks installed. -/
def vkl_visual : VklVisual :=
  { graphics_count := 0
    graphics := fun _ => none
    compute_count := 0
    computes := fun _ => none
    callback_fill := .default_fill
    callback_transform := .NULL
    callback_bake := .default_bake
    sources := []
    props := []
    group_count := 0
    group_sizes := fun _ => 0
    vertex_count := 0
    index_count := 0
    bindings := fun _ => VklBindings.zero
    bindings_comp := fun _ => VklBindings.zero }

def vkl_visual_source (visual : VklVisual) (source : VklSourceType) (source_idx : Nat)
    (pipeline : VklPipelineType) (pipeline_idx slot_idx item_size : Nat) : Res VklVisual :=
  if ¬ visual.source_count < VKL_MAX_VISUAL_SOURCES then .abort (.assert_failed 167) visual
  else if (vkl_bake_source visual source source_idx).isSome then .abort (.assert_failed 168) visual
  else
    let src : VklSource :=
      { pipeline := pipeline
        pipeline_idx := pipeline_idx
        source_type := source
        source_idx := source_idx
        slot_idx := slot_idx
        arr := vkl_array_struct 0 item_size
        origin := .NONE
        u := .zero }
    .ok { visual with sources := visual.sources ++ [src] }

def vkl_visual_prop (visual : VklVisual) (prop : VklPropType) (prop_idx : Nat)
    (source : VklSourceType) (source_idx field_idx : Nat) (dtype : VklDataType) (offset : Nat) :
    Res VklVisual :=
  if ¬ visual.prop_count < VKL_MAX_VISUAL_PROPS then .abort (.assert_failed 201) visual
  else
    let pr : VklProp :=
      { prop_type := prop
        prop_idx := prop_idx
        source_type := source
        source_idx := source_idx
        field_idx := field_idx
        dtype := dtype
        offset := offset
        arr_orig := VklArray.zero
        arr_trans := VklArray.zero }
    .ok { visual with props := visual.props ++ [pr] }

def vkl_visual_graphics (visual : VklVisual) (graphics : Option VklGraphics) : Res VklVisual :=
  match graphics with
  | none => .abort (.assert_failed 222) visual
  | some g =>
    if ¬ g.created then .abort (.assert_failed 223) visual
    else if visual.graphics_count ≥ VKL_MAX_GRAPHICS_PER_VISUAL then .ok visual
    else
      .ok { visual with
              graphics := Function.update visual.graphics visual.graphics_count (some g)
              bindings := Function.update visual.bindings visual.graphics_count (vkl_bindings g)
              graphics_count := visual.graphics_count + 1 }

def vkl_visual_compute (visual : VklVisual) (compute : Option VklCompute) : Res VklVisual :=
  match compute with
  | none => .abort (.assert_failed 239) visual
  | some c =>
    if ¬ c.created then .abort (.assert_failed 240) visual
    else if visual.compute_count ≥ VKL_MAX_COMPUTES_PER_VISUAL then .ok visual
    else
      .ok { visual with
              computes := Function.update visual.computes visual.compute_count (some c)
              compute_count := visual.compute_count + 1 }

/-! ## User-facing functions (visuals2.c, lines 255 to 364) -/

def vkl_visual_group (visual : VklVisual) (group_idx size : Nat) : Res VklVisual :=
  if group_idx ≥ VKL_MAX_VISUAL_GROUPS then .ok visual
  else
    .ok { visual with
            group_count := max visual.group_count (group_idx + 1)
            group_sizes := Function.update visual.group_sizes group_idx size }

def vkl_visual_data_partial (visual : VklVisual) (type : VklPropType) (idx : Nat)
    (first_item item_count data_item_count : Nat) (data : List Item) : Res VklVisual :=
  let count := (first_item + item_count) % 2 ^ 32
  match vkl_bake_prop visual type idx with
  | none => .abort (.assert_failed 287) visual
  | some (pi, prop) =>
    match vkl_bake_source visual prop.source_type prop.source_idx with
    | none => .abort (.assert_failed 291) visual
    | some (si, source) =>
      let arr := vkl_array_resize prop.arr_orig count
      let arr := vkl_array_data arr first_item item_count data_item_count data
      .ok ((visual.set_prop pi { prop with arr_orig := arr }).set_source si
            { source with origin := .LIB })

def vkl_visual_data (visual : VklVisual) (type : VklPropType) (idx count : Nat)
    (data : List Item) : Res VklVisual :=
  vkl_visual_data_partial visual type idx 0 count count data

/-- The pointer `_get_bindings` returns (lines 11 to 19): the table, named by
the pipeline kind, and the position in it; the address is only computed here,
not accessed. The final `return NULL` is `none`. -/
def _get_bindings (_visual : VklVisual) (source : VklSource) :
    Option (VklPipelineType × Nat) :=
  if source.pipeline = .GRAPHICS then some (.GRAPHICS, source.pipeline_idx)
  else if source.pipeline = .COMPUTE then some (.COMPUTE, source.pipeline_idx)
  else none

/-- The Binding Set that `_get_bindings` returns for a Source is rewritten by
`f`, as `vkl_bindings_buffer` and `vkl_bindings_texture` do through the
pointer: `bindings[pipeline_idx]` for a graphics Source,
`bindings_comp[pipeline_idx]` for a compute Source. An index past the end of
the table is an invalid access. -/
def with_bindings (visual : VklVisual) (source : VklSource) (f : VklBindings → VklBindings) :
    Res VklVisual :=
  match _get_bindings visual source with
  | none => .abort .null_deref visual
  | some (.GRAPHICS, idx) =>
    if idx < VKL_MAX_GRAPHICS_PER_VISUAL then
      .ok { visual with bindings := Function.update visual.bindings idx (f (visual.bindings idx)) }
    else .abort .out_of_bounds visual
  | some (.COMPUTE, idx) =>
    if idx < VKL_MAX_COMPUTES_PER_VISUAL then
      .ok { visual with
              bindings_comp :=
                Function.update visual.bindings_comp idx (f (visual.bindings_comp idx)) }
    else .abort .out_of_bounds visual

def vkl_visual_buffer_partial (visual : VklVisual) (source : VklSourceType) (idx : Nat)
    (br : VklBufferRegions) (offset size : Nat) : Res VklVisual :=
  match vkl_bake_source visual source idx with
  | none => .ok visual
  | some (si, src) =>
    let size := if size = 0 then br.size else size
    if ¬ size > 0 then .abort (.assert_failed 329) visual
    else if br.buffer = 0 then .abort (.assert_failed 330) visual
    else
      let src : VklSource :=
        { src with u := .b { br := br, offset := offset, size := size }, origin := .USER }
      with_bindings (visual.set_source si src) src fun b => vkl_bindings_buffer b src.slot_idx br

def vkl_visual_buffer (visual : VklVisual) (source : VklSourceType) (idx : Nat)
    (br : VklBufferRegions) : Res VklVisual :=
  vkl_visual_buffer_partial visual source idx br 0 br.size

def vkl_visual_texture (visual : VklVisual) (source : VklSourceType) (idx : Nat)
    (texture : Option VklTexture) : Res VklVisual :=
  match vkl_bake_source visual source idx with
  | none => .ok visual
  | some (si, src) =>
    match texture with
    | none => .abort (.assert_failed 355) visual
    | some tex =>
      let src : VklSource := { src with u := .t tex, origin := .USER }
      let visual := visual.set_source si src
      if tex.image = 0 then .abort (.assert_failed 361) visual
      else if tex.sampler = 0 then .abort (.assert_failed 362) visual
      else with_bindings visual src fun b => vkl_bindings_texture b src.slot_idx tex.image tex.sampler

/-! ## Callback setters (visuals2.c, lines 402 to 424) -/

def vkl_visual_callback_transform (visual : VklVisual) (callback : VklVisualDataCallback) :
    Res VklVisual :=
  .ok { visual with callback_transform := callback }

def vkl_visual_callback_bake (visual : VklVisual) (callback : VklVisualDataCallback) :
    Res VklVisual :=
  .ok { visual with callback_bake := callback }

def vkl_visual_fill_callback (visual : VklVisual) (callback : VklVisualFillCallback) :
    Res VklVisual :=
  .ok { visual with callback_fill := callback }

/-! ## Baking helpers (visuals2.c, lines 491 to 564) -/

/-- The loop of `vkl_bake_max_prop_size`, from the running maximum `item_count`. -/
def max_prop_size_loop (source : VklSource) : List VklProp → Nat → Nat
  | [], item_count => item_count
  | prop :: rest, item_count =>
    if prop.source_type = source.source_type ∧ prop.source_idx = source.source_idx then
      max_prop_size_loop source rest (max item_count prop.arr_orig.item_count)
    else max_prop_size_loop source rest item_count

def vkl_bake_max_prop_size (visual : VklVisual) (source : VklSource) : Res Nat :=
  let item_count := max_prop_size_loop source visual.props 0
  if ¬ item_count > 0 then .abort (.assert_failed 509) visual else .ok item_count

def vkl_bake_prop_copy (dtype_size : VklDataType → Nat) (visual : VklVisual) (prop : VklProp)
    (_reps : Nat) : Res VklVisual :=
  match vkl_bake_source visual prop.source_type prop.source_idx with
  | none => .abort (.assert_failed 520) visual
  | some (si, source) =>
    let col_size := dtype_size prop.dtype
    if ¬ col_size > 0 then .abort (.assert_failed 523) visual
    else if prop.arr_orig.data = [] then .abort (.assert_failed 525) visual
    else if source.arr.data = [] then .abort (.assert_failed 526) visual
    else if ¬ prop.arr_orig.item_count ≤ source.arr.item_count then
      .abort (.assert_failed 527) visual
    else
      let item_count := prop.arr_orig.item_count
      .ok (visual.set_source si
            { source with
                arr := vkl_array_column source.arr prop.offset col_size 0 item_count item_count
                         prop.arr_orig.data })

def vkl_bake_source_alloc (visual : VklVisual) (si : Nat) (source : VklSource) (count : Nat) :
    Res VklVisual :=
  if ¬ source.arr.created then .abort (.assert_failed 543) visual
  else .ok (visual.set_source si { source with arr := vkl_array_resize source.arr count })

/-- The loop of `vkl_bake_source_fill` over the Prop table; the copies do not
change the Prop table, so the loop runs over the table as it was on entry. -/
def source_fill_loop (dtype_size : VklDataType → Nat) (source : VklSource) :
    List VklProp → VklVisual → Res VklVisual
  | [], visual => .ok visual
  | prop :: rest, visual =>
    if prop.source_type = source.source_type ∧ prop.source_idx = source.source_idx then
      (vkl_bake_prop_copy dtype_size visual prop 1).bind (source_fill_loop dtype_size source rest)
    else source_fill_loop dtype_size source rest visual

def vkl_bake_source_fill (dtype_size : VklDataType → Nat) (visual : VklVisual)
    (source : VklSource) : Res VklVisual :=
  source_fill_loop dtype_size source visual.props visual

/-! ## Default bake (visuals2.c, lines 63 to 114) -/

/-- The first loop of `_default_visual_bake` (lines 82 to 93) from the running
`item_count`: the final `item_count`, or `none` when the `ASSERT` of line 91
fails. -/
def bake_item_count : List VklProp → Nat → Option Nat
  | [], item_count => some item_count
  | prop :: rest, item_count =>
    if prop.source_type = .VERTEX then
      let item_count := if item_count = 0 then prop.arr_orig.item_count else item_count
      if prop.arr_orig.item_count = item_count then bake_item_count rest item_count else none
    else bake_item_count rest item_count

/-- The second loop of `_default_visual_bake` (lines 105 to 113); the copies do
not change the Prop table, so the loop runs over the table as it was on
entry. -/
def bake_copy_loop (dtype_size : VklDataType → Nat) : List VklProp → VklVisual → Res VklVisual
  | [], visual => .ok visual
  | prop :: rest, visual =>
    if prop.source_type = .VERTEX ∧ prop.source_idx = 0 then
      (vkl_bake_prop_copy dtype_size visual prop 1).bind (bake_copy_loop dtype_size rest)
    else bake_copy_loop dtype_size rest visual

def _default_visual_bake (dtype_size : VklDataType → Nat) (visual : VklVisual) : Res VklVisual :=
  match vkl_bake_source visual .VERTEX 0 with
  | none => .abort .null_deref visual
  | some (si, source) =>
    if source.origin ≠ .LIB then .ok visual
    else
      match bake_item_count visual.props 0 with
      | none => .abort (.assert_failed 91) visual
      | some item_count =>
        let visual := { visual with vertex_count := item_count }
        let visual := { visual with index_count := 0 }
        if ¬ source.arr.created then .abort (.assert_failed 101) visual
        else
          let visual :=
            visual.set_source si { source with arr := vkl_array_resize source.arr item_count }
          bake_copy_loop dtype_size visual.props visual

/-! ## Data update (visuals2.c, lines 572 to 652) -/

/-- One upload handed to the external upload primitive. -/
inductive VklUpload where
  | texture (u : VklSourceUnion) (size : Nat) (data : List Item)
  | buffers (u : VklSourceUnion) (data : List Item)
  deriving DecidableEq, Repr

/-- The upload loop (lines 615 to 643) over the Source table. -/
def upload_loop : List VklSource → List VklUpload
  | [] => []
  | source :: rest =>
    if source.source_type = .TEXTURE then
      if source.origin = .LIB then
        .texture source.u (source.arr.item_count * source.arr.item_size % 2 ^ 64) source.arr.data
          :: upload_loop rest
      else upload_loop rest
    else
      if source.origin = .LIB then .buffers source.u source.arr.data :: upload_loop rest
      else upload_loop rest

/-- One of the two refresh loops (lines 646 to 651) over a table of Binding
Sets with `count` attached pipelines. -/
def refresh_bindings (count : Nat) (bindings : Nat → VklBindings) : Nat → VklBindings :=
  fun i =>
    if i < count ∧ (bindings i).status = .NEED_UPDATE then vkl_bindings_update (bindings i)
    else bindings i

/-- The positions whose Binding Set a refresh loop passes to
`vkl_bindings_update`, in the order of the calls. -/
def refreshed (count : Nat) (bindings : Nat → VklBindings) : List Nat :=
  (List.range count).filter fun i => decide ((bindings i).status = .NEED_UPDATE)

/-- What one `vkl_visual_update` call leaves and does: the visual, the uploads
issued, and the graphics and compute Binding Sets refreshed. -/
structure VklUpdate where
  visual : VklVisual
  uploads : List VklUpload
  refreshed_graphics : List Nat
  refreshed_compute : List Nat

/-- Call a data callback: nothing for a null pointer, the default bake, or the
caller-supplied function `user` for a custom one. -/
def run_callback (dtype_size : VklDataType → Nat) (user : Nat → VklVisual → Res VklVisual)
    (callback : VklVisualDataCallback) (visual : VklVisual) : Res VklVisual :=
  match callback with
  | .NULL => .ok visual
  | .default_bake => _default_visual_bake dtype_size visual
  | .custom id => user id visual

/-- The second half of `vkl_visual_update` (lines 609 to 651): the upload loop
and the two refresh loops. -/
def upload_and_refresh (visual : VklVisual) : VklUpdate :=
  { visual :=
      { visual with
          bindings := refresh_bindings visual.graphics_count visual.bindings
          bindings_comp := refresh_bindings visual.compute_count visual.bindings_comp }
    uploads := upload_loop visual.sources
    refreshed_graphics := refreshed visual.graphics_count visual.bindings
    refreshed_compute := refreshed visual.compute_count visual.bindings_comp }

def vkl_visual_update (dtype_size : VklDataType → Nat) (user : Nat → VklVisual → Res VklVisual)
    (visual : VklVisual) : Res VklUpdate :=
  (run_callback dtype_size user visual.callback_transform visual).bind fun visual =>
  (run_callback dtype_size user visual.callback_bake visual).bind fun visual =>
  .ok (upload_and_refresh visual)

/-! ## Vocabulary of the statements -/

/-- The key `(kind, kind-index)` of a Source. -/
def VklSource.key (s : VklSource) : VklSourceType × Nat := (s.source_type, s.source_idx)

/-- The visual left in memory by a call that works on the visual. -/
def Res.state (r : Res VklVisual) : VklVisual :=
  match r with
  | .ok v => v
  | .abort _ w => w

/-- The visual left in memory by an update. -/
def update_state (r : Res VklUpdate) : VklVisual :=
  match r with
  | .ok u => u.visual
  | .abort _ w => w

/-- The Binding Set `_get_bindings` selects for a Source. -/
def selected_bindings (v : VklVisual) (s : VklSource) : VklBindings :=
  match s.pipeline with
  | .GRAPHICS => v.bindings s.pipeline_idx
  | .COMPUTE => v.bindings_comp s.pipeline_idx

/-- The upload that carries the array of a Source: a texture upload of
`item_count * item_size` bytes for a texture Source, a buffer upload otherwise. -/
def upload_of (s : VklSource) : VklUpload :=
  if s.source_type = .TEXTURE then
    .texture s.u (s.arr.item_count * s.arr.item_size % 2 ^ 64) s.arr.data
  else .buffers s.u s.arr.data

/-- The size table used in the examples: the code of an element type is its
size in bytes. -/
def example_dtype_size : VklDataType → Nat := fun d => d

/-- A caller-supplied callback that does nothing, used in the examples. -/
def example_user : Nat → VklVisual → Res VklVisual := fun _ v => .ok v

/-- The scatter visual after its declarations: one vertex Source of 16-byte
items, a position Prop (12 bytes at offset 0) and a color Prop (4 bytes at
offset 12). -/
def scatter_declared : VklVisual :=
  let v := (vkl_visual_source vkl_visual .VERTEX 0 .GRAPHICS 0 0 16).state
  let v := (vkl_visual_prop v .POS 0 .VERTEX 0 0 12 0).state
  (vkl_visual_prop v .COLOR 0 .VERTEX 0 1 4 12).state

/-- The scatter visual with two staged items in each Prop. -/
def scatter_staged : VklVisual :=
  let v := (vkl_visual_data scatter_declared .POS 0 2
    [[1, 1, 1, 1, 1, 1, 1, 1, 1, 1, 1, 1], [2, 2, 2, 2, 2, 2, 2, 2, 2, 2, 2, 2]]).state
  (vkl_visual_data v .COLOR 0 2 [[7, 7, 7, 7], [8, 8, 8, 8]]).state

/-- The staged scatter visual with one more Source, a uniform buffer that the
caller binds directly. -/
def scatter_bound : VklVisual :=
  let v := (vkl_visual_source scatter_staged .UNIFORM 1 .GRAPHICS 0 1 64).state
  (vkl_visual_buffer v .UNIFORM 1 { buffer := 7, size := 64, count := 1 }).state

/-- The staged scatter visual after the caller has bound its own vertex
buffer to the vertex Source. -/
def scatter_vertex_bound : VklVisual :=
  (vkl_visual_buffer scatter_staged .VERTEX 0 { buffer := 9, size := 32, count := 1 }).state

/-- The vertex Source of `scatter_vertex_bound`. -/
def bound_vertex_source : VklSource :=
  { pipeline := .GRAPHICS, pipeline_idx := 0, source_type := .VERTEX, source_idx := 0,
    slot_idx := 0, arr := vkl_array_struct 0 16, origin := .USER,
    u := .b { br := { buffer := 9, size := 32, count := 1 }, offset := 0, size := 32 } }

/-- A transform callback took `v` to `v'` and wrote nothing but the transformed
arrays of the Props ("This callback updates some props data_trans"). -/
def transform_only (v v' : VklVisual) : Prop :=
  v' = { v with props := v'.props } ∧
  v'.props.map (fun p => { p with arr_trans := VklArray.zero }) =
    v.props.map (fun p => { p with arr_trans := VklArray.zero })

/-- A call of the public interface, with its arguments. -/
inductive VklCall where
  | source (source : VklSourceType) (source_idx : Nat) (pipeline : VklPipelineType)
      (pipeline_idx slot_idx item_size : Nat)
  | prop (prop : VklPropType) (prop_idx : Nat) (source : VklSourceType)
      (source_idx field_idx : Nat) (dtype : VklDataType) (offset : Nat)
  | graphics (graphics : Option VklGraphics)
  | compute (compute : Option VklCompute)
  | group (group_idx size : Nat)
  | data (type : VklPropType) (idx count : Nat) (data : List Item)
  | data_part (type : VklPropType) (idx first_item item_count data_item_count : Nat)
      (data : List Item)
  | buffer (source : VklSourceType) (idx : Nat) (br : VklBufferRegions)
  | buffer_part (source : VklSourceType) (idx : Nat) (br : VklBufferRegions) (offset size : Nat)
  | texture (source : VklSourceType) (idx : Nat) (texture : Option VklTexture)
  | callback_transform (callback : VklVisualDataCallback)
  | callback_bake (callback : VklVisualDataCallback)
  | fill_callback (callback : VklVisualFillCallback)
  | update

/-- Run one call of the public interface on a visual. -/
def run_call (dtype_size : VklDataType → Nat) (user : Nat → VklVisual → Res VklVisual)
    (v : VklVisual) : VklCall → Res VklVisual
  | .source source source_idx pipeline pipeline_idx slot_idx item_size =>
    vkl_visual_source v source source_idx pipeline pipeline_idx slot_idx item_size
  | .prop prop prop_idx source source_idx field_idx dtype offset =>
    vkl_visual_prop v prop prop_idx source source_idx field_idx dtype offset
  | .graphics graphics => vkl_visual_graphics v graphics
  | .compute compute => vkl_visual_compute v compute
  | .group group_idx size => vkl_visual_group v group_idx size
  | .data type idx count data => vkl_visual_data v type idx count data
  | .data_part type idx first_item item_count data_item_count data =>
     vkl_visual_data_partial v type idx first_item item_count data_item_count data
  | .buffer source idx br => vkl_visual_buffer v source idx br
  | .buffer_part source idx br offset size =>
     vkl_visual_buffer_partial v source idx br offset size
  | .texture source idx texture => vkl_visual_texture v source idx texture
  | .callback_transform callback => vkl_visual_callback_transform v callback
  | .callback_bake callback => vkl_visual_callback_bake v callback
  | .fill_callback callback => vkl_visual_fill_callback v callback
  | .update =>
    match vkl_visual_update dtype_size user v with
    | .ok u => .ok u.visual
    | .abort fault w => .abort fault w

/-- The visuals reachable from a freshly constructed visual by calls of the
public interface that return, where an update is run with the default bake
installed. -/
inductive Reachable (dtype_size : VklDataType → Nat) (user : Nat → VklVisual → Res VklVisual) :
    VklVisual → Prop where
  | init : Reachable dtype_size user vkl_visual
  | step (v v' : VklVisual) (c : VklCall) :
      Reachable dtype_size user v →
      (c = .update → v.callback_bake = .default_bake) →
      run_call dtype_size user v c = .ok v' →
      Reachable dtype_size user v'

/-- The scatter visual with two staged positions and three staged colors. -/
def scatter_mismatch : VklVisual :=
  let v := (vkl_visual_data scatter_declared .POS 0 2
    [[1, 1, 1, 1, 1, 1, 1, 1, 1, 1, 1, 1], [2, 2, 2, 2, 2, 2, 2, 2, 2, 2, 2, 2]]).state
  (vkl_visual_data v .COLOR 0 3 [[7, 7, 7, 7], [8, 8, 8, 8], [9, 9, 9, 9]]).state

/-- The scatter visual with two staged colors and no staged position: the
Prop without data is declared first. -/
def scatter_color_only : VklVisual :=
  (vkl_visual_data scatter_declared .COLOR 0 2 [[7, 7, 7, 7], [8, 8, 8, 8]]).state

/-- A visual with one declared Prop whose Source was never declared. -/
def orphan_prop_visual : VklVisual :=
  (vkl_visual_prop vkl_visual .POS 0 .VERTEX 0 0 12 0).state

/-- The scatter visual with ten staged colors. -/
def scatter_ten_colors : VklVisual :=
  (vkl_visual_data scatter_declared .COLOR 0 10
    [[0], [1], [2], [3], [4], [5], [6], [7], [8], [9]]).state

/-- Byte `b` of item `i` of an array (0 outside the array). -/
def VklArray.byte (a : VklArray) (i b : Nat) : Nat := (a.data.getD i []).getD b 0

/-- The Prop feeds the vertex Source (VERTEX, 0). -/
@[reducible]
def VklProp.feeds_vertex (p : VklProp) : Prop := p.source_type = .VERTEX ∧ p.source_idx = 0

/-- The byte ranges of the fields of two Props do not overlap. -/
@[reducible]
def fields_disjoint (dtype_size : VklDataType → Nat) (p q : VklProp) : Prop :=
  p.offset + dtype_size p.dtype ≤ q.offset ∨ q.offset + dtype_size q.dtype ≤ p.offset

/-- The array the copy loop of the default bake builds from the array `a` of
the vertex Source: one column write per Prop that feeds (VERTEX, 0), in table
order. -/
def copy_columns (dtype_size : VklDataType → Nat) : List VklProp → VklArray → VklArray
  | [], a => a
  | p :: ps, a =>
    if p.source_type = .VERTEX ∧ p.source_idx = 0 then
      copy_columns dtype_size ps
        (vkl_array_column a p.offset (dtype_size p.dtype) 0 p.arr_orig.item_count
          p.arr_orig.item_count p.arr_orig.data)
    else copy_columns dtype_size ps a

/-- A visual with two vertex Sources: the scatter Source (VERTEX, 0) fed by a
position and a color Prop with two staged items each, and a second Source
(VERTEX, 1) fed by one Prop with three staged items. -/
def two_vertex_buffers : VklVisual :=
  let v := (vkl_visual_source scatter_declared .VERTEX 1 .GRAPHICS 0 0 4).state
  let v := (vkl_visual_prop v .TYPE 0 .VERTEX 1 0 4 0).state
  let v := (vkl_visual_data v .POS 0 2
    [[1, 1, 1, 1, 1, 1, 1, 1, 1, 1, 1, 1], [2, 2, 2, 2, 2, 2, 2, 2, 2, 2, 2, 2]]).state
  let v := (vkl_visual_data v .COLOR 0 2 [[7, 7, 7, 7], [8, 8, 8, 8]]).state
  (vkl_visual_data v .TYPE 0 3 [[1, 0, 0, 0], [2, 0, 0, 0], [3, 0, 0, 0]]).state

/-- The scatter visual with one more declared Prop, which feeds a second
vertex Source (VERTEX, 1) and is given no data. -/
def scatter_extra_prop : VklVisual :=
  (vkl_visual_prop scatter_declared .TYPE 0 .VERTEX 1 0 4 0).state

/-- The scatter visual declared with a color Prop of element type 0, whose
size is 0, before the position Prop; both Props hold two staged items. -/
def scatter_zero_size : VklVisual :=
  let v := (vkl_visual_source vkl_visual .VERTEX 0 .GRAPHICS 0 0 16).state
  let v := (vkl_visual_prop v .COLOR 0 .VERTEX 0 1 0 12).state
  let v := (vkl_visual_prop v .POS 0 .VERTEX 0 0 12 0).state
  let v := (vkl_visual_data v .POS 0 2
    [[1, 1, 1, 1, 1, 1, 1, 1, 1, 1, 1, 1], [2, 2, 2, 2, 2, 2, 2, 2, 2, 2, 2, 2]]).state
  (vkl_visual_data v .COLOR 0 2 [[], []]).state

/-- The staged scatter visual after `vkl_bake_source_alloc` has given three
items to the array of the vertex Source. -/
def scatter_preallocated : VklVisual :=
  (vkl_bake_source_alloc scatter_staged 0
    { pipeline := .GRAPHICS, pipeline_idx := 0, source_type := .VERTEX, source_idx := 0,
      slot_idx := 0, arr := vkl_array_struct 0 16, origin := .LIB, u := .zero } 3).state

/-- A visual with one Source declared for the graphics pipeline number 256,
one past the end of the table of graphics Binding Sets. -/
def far_pipeline_visual : VklVisual :=
  (vkl_visual_source vkl_visual .UNIFORM 0 .GRAPHICS 256 0 16).state

/-- The visual after `n` more Sources (UNIFORM, 0) to (UNIFORM, n - 1) have
been declared. -/
def declare_sources : Nat → VklVisual → VklVisual
  | 0, v => v
  | n + 1, v => (vkl_visual_source (declare_sources n v) .UNIFORM n .GRAPHICS 0 n 16).state

/-- The visual after `n` more Props (POS, 0) to (POS, n - 1) have been
declared. -/
def declare_props : Nat → VklVisual → VklVisual
  | 0, v => v
  | n + 1, v => (vkl_visual_prop (declare_props n v) .POS n .UNIFORM n 0 4 0).state

/-- The visual after `n` more graphics and `n` more compute pipelines have
been attached. -/
def attach_pipelines : Nat → VklVisual → VklVisual
  | 0, v => v
  | n + 1, v =>
    (vkl_visual_compute
      (vkl_visual_graphics (attach_pipelines n v) (some { id := n, created := true })).state
      (some { id := n, created := true })).state

/-- A visual whose tables are full: 256 Sources, 256 Props, 256 graphics and
256 compute pipelines. -/
def full_visual : VklVisual :=
  attach_pipelines 256 (declare_props 256 (declare_sources 256 vkl_visual))

/-- The staged scatter visual with two graphics pipelines attached and one
more Source, a uniform buffer of the first pipeline that the caller has
bound: the Binding Set of the first pipeline is dirty, the one of the second
is not. -/
def scatter_attached : VklVisual :=
  let v := (vkl_visual_graphics scatter_staged (some { id := 1, created := true })).state
  let v := (vkl_visual_graphics v (some { id := 2, created := true })).state
  let v := (vkl_visual_source v .UNIFORM 1 .GRAPHICS 0 1 64).state
  (vkl_visual_buffer v .UNIFORM 1 { buffer := 7, size := 64, count := 1 }).state

/-- An item transformer of the copy loop: it leaves the item as it is, or it
rebuilds the item of `item_size` bytes taking each byte from a written field
(`sel b` is the byte written last at `b`) or from the old item. -/
def field_writer (item_size : Nat) (f : Item → Item) : Prop :=
  f = id ∨ ∃ sel : Nat → Option Nat,
    f = fun x => (List.range item_size).map fun b => (sel b).getD (x.getD b 0)

/-- What the declaration of a Source fixes: its kind, kind-index, pipeline
kind, pipeline index, slot and the item size of its array. -/
def VklSource.decl (s : VklSource) :
    VklSourceType × Nat × VklPipelineType × Nat × Nat × Nat :=
  (s.source_type, s.source_idx, s.pipeline, s.pipeline_idx, s.slot_idx, s.arr.item_size)

/-- What the declaration of a Prop fixes: its kind, index, source kind, source
index, field index, element type and offset. -/
def VklProp.decl (p : VklProp) :
    VklPropType × Nat × VklSourceType × Nat × Nat × VklDataType × Nat :=
  (p.prop_type, p.prop_idx, p.source_type, p.source_idx, p.field_idx, p.dtype, p.offset)

/-- The visual `v'` is left by a sequence of calls of the public interface
that return, started on `v`, where an update is run with the default bake
installed. -/
inductive Steps (dtype_size : VklDataType → Nat) (user : Nat → VklVisual → Res VklVisual) :
    VklVisual → VklVisual → Prop where
  | refl (v : VklVisual) : Steps dtype_size user v v
  | step (v v' v'' : VklVisual) (c : VklCall) :
      Steps dtype_size user v v' →
      (c = .update → v'.callback_bake = .default_bake) →
      run_call dtype_size user v' c = .ok v'' →
      Steps dtype_size user v v''

/-- The staged item counts of the Props of source kind VERTEX, whatever their
source index, in table order. -/
def vertex_counts (ps : List VklProp) : List Nat :=
  (ps.filter fun p => decide (p.source_type = .VERTEX)).map fun p => p.arr_orig.item_count

/-- The staged item counts of the Props of source kind VERTEX from the first
non-zero one onward. -/
def counts_from_first_data (ps : List VklProp) : List Nat :=
  (vertex_counts ps).dropWhile fun c => decide (c = 0)

/-- The outcome `r` with the Prop table of the visual it carries replaced. -/
def Res.with_props (r : Res VklVisual) (props : List VklProp) : Res VklVisual :=
  match r with
  | .ok x => .ok { x with props := props }
  | .abort f x => .abort f { x with props := props }

/-- A caller-supplied transform callback used in the examples: it writes the
staged array of every Prop into its transformed array. -/
def stage_to_trans_user : Nat → VklVisual → Res VklVisual :=
  fun _ v => .ok { v with props := v.props.map fun p => { p with arr_trans := p.arr_orig } }

/-- The staged scatter visual with a custom transform callback installed. -/
def scatter_with_transform : VklVisual :=
  (vkl_visual_callback_transform scatter_staged (.custom 0)).state

/-- The staged scatter visual after the transform callback of the examples
has run. -/
def scatter_transformed : VklVisual :=
  { scatter_with_transform with
      props := scatter_with_transform.props.map fun p => { p with arr_trans := p.arr_orig } }

/-! ## The linear scan -/

theorem find_entry_some {α : Type} (p : α → Bool) :
    ∀ (l : List α) (i : Nat) (x : α), find_entry p l = some (i, x) →
      l[i]? = some x ∧ p x = true ∧ ∀ j y, j < i → l[j]? = some y → p y = false
  | [], i, x, h => by simp [find_entry] at h
  | a :: l, i, x, h => by
    by_cases ha : p a = true
    · simp [find_entry, ha] at h
      obtain ⟨rfl, rfl⟩ := h
      simp [ha]
    · simp only [find_entry, ha, Bool.false_eq_true, if_false, Option.map_eq_some'] at h
      obtain ⟨⟨i', x'⟩, he, hx⟩ := h
      simp only [Prod.mk.injEq] at hx
      obtain ⟨rfl, rfl⟩ := hx
      obtain ⟨h1, h2, h3⟩ := find_entry_some p l i' x' he
      refine ⟨by simpa using h1, h2, ?_⟩
      intro j y hj hy
      cases j with
      | zero =>
        simp at hy
        subst hy
        simpa using ha
      | succ j => exact h3 j y (by omega) (by simpa using hy)

theorem find_entry_none {α : Type} (p : α → Bool) :
    ∀ (l : List α), find_entry p l = none ↔ ∀ x ∈ l, p x = false
  | [] => by simp [find_entry]
  | a :: l => by
    by_cases ha : p a = true
    · simp [find_entry, ha]
    · have ih := find_entry_none p l
      simp only [find_entry, ha, Bool.false_eq_true, if_false, Option.map_eq_none', ih]
      simp at ha
      simp [ha]

theorem find_entry_isSome {α : Type} (p : α → Bool) (l : List α) (x : α) (hx : x ∈ l)
    (hp : p x = true) : (find_entry p l).isSome = true := by
  cases h : find_entry p l with
  | some e => rfl
  | none =>
    have := (find_entry_none p l).mp h x hx
    simp [hp] at this

/-- Overwriting the entry a scan found with another entry that satisfies the
predicate does not move the hit. -/
theorem find_entry_set_hit {α : Type} (p : α → Bool) :
    ∀ (l : List α) (i : Nat) (x x' : α), find_entry p l = some (i, x) → p x' = true →
      find_entry p (l.set i x') = some (i, x')
  | [], i, x, x', h, _ => by simp [find_entry] at h
  | a :: l, i, x, x', h, hx' => by
    by_cases ha : p a = true
    · simp [find_entry, ha] at h
      obtain ⟨rfl, rfl⟩ := h
      simp [find_entry, hx']
    · simp only [find_entry, ha, Bool.false_eq_true, if_false, Option.map_eq_some'] at h
      obtain ⟨⟨i', y⟩, he, hy⟩ := h
      simp only [Prod.mk.injEq] at hy
      obtain ⟨rfl, rfl⟩ := hy
      have ih := find_entry_set_hit p l i' y x' he hx'
      simp [find_entry, ha, ih]

/-- Overwriting an entry by one on which the predicate has the same value
keeps the position a scan returns, and the entry unless it is the one
overwritten. -/
theorem find_entry_set {α : Type} (p : α → Bool) :
    ∀ (l : List α) (i : Nat) (x x' : α), l[i]? = some x → p x' = p x →
      find_entry p (l.set i x') =
        (find_entry p l).map fun e => if e.1 = i then (i, x') else e
  | [], i, x, x', h, _ => by simp at h
  | a :: l, 0, x, x', h, hp => by
    simp at h
    subst h
    by_cases ha : p a = true
    · simp [find_entry, ha, hp]
    · simp only [List.set_cons_zero, find_entry, hp, ha, Bool.false_eq_true, if_false,
        Option.map_map]
      congr 1
  | a :: l, i + 1, x, x', h, hp => by
    have ih := find_entry_set p l i x x' (by simpa using h) hp
    by_cases ha : p a = true
    · simp [find_entry, ha]
    · simp only [List.set_cons_succ, find_entry, ha, Bool.false_eq_true, if_false, ih,
        Option.map_map]
      congr 1
      funext e
      by_cases he : e.1 = i <;> simp [he]

theorem set_same_key (l : List VklSource) (i : Nat) (x x' : VklSource) (h : l[i]? = some x)
    (hk : x'.key = x.key) : (l.set i x').map VklSource.key = l.map VklSource.key := by
  apply List.ext_getElem?
  intro j
  simp only [List.getElem?_map, List.getElem?_set]
  by_cases hij : i = j
  · subst hij
    have hlt : i < l.length := by
      rcases Nat.lt_or_ge i l.length with h' | h'
      · exact h'
      · simp [List.getElem?_eq_none h'] at h
    simp [hlt, h, hk]
  · simp [hij]

/-! ## Declaring a Source twice -/

/-- C9. Uniqueness on declaration: when the visual already holds a Source with
the key `(source, source_idx)`, `vkl_visual_source` called with that key and
any other arguments is rejected by an assertion (line 168, or line 167 when
the table is also full) and the visual, hence the whole Source table with the
first declaration in it, is left exactly as it was. -/
theorem declare_source_duplicate_rejected (v : VklVisual) (source : VklSourceType)
    (source_idx : Nat) (pipeline : VklPipelineType) (pipeline_idx slot_idx item_size : Nat)
    (s : VklSource) (hs : s ∈ v.sources)
    (hk : s.source_type = source ∧ s.source_idx = source_idx) :
    vkl_visual_source v source source_idx pipeline pipeline_idx slot_idx item_size =
      .abort (.assert_failed (if v.source_count < VKL_MAX_VISUAL_SOURCES then 168 else 167)) v := by
  have hfound : (vkl_bake_source v source source_idx).isSome = true :=
    find_entry_isSome _ v.sources s hs (by simp [hk.1, hk.2])
  unfold vkl_visual_source
  by_cases hc : v.source_count < VKL_MAX_VISUAL_SOURCES
  · simp [hc, hfound]
  · simp [hc]

theorem declare_source_duplicate_rejected_witness :
    scatter_declared.sources.length = 1 ∧
    vkl_visual_source scatter_declared .VERTEX 0 .COMPUTE 3 2 32 =
      .abort (.assert_failed 168) scatter_declared :=
  ⟨by decide,
   declare_source_duplicate_rejected scatter_declared .VERTEX 0 .COMPUTE 3 2 32
     { pipeline := .GRAPHICS, pipeline_idx := 0, source_type := .VERTEX, source_idx := 0,
       slot_idx := 0, arr := vkl_array_struct 0 16, origin := .NONE, u := .zero }
     (by decide) ⟨rfl, rfl⟩⟩

/-! ## Data ingestion and the origin of a Source -/

theorem data_partial_eq (v : VklVisual) (type : VklPropType) (idx : Nat)
    (first_item item_count data_item_count : Nat) (data : List Item)
    (pi : Nat) (prop : VklProp) (si : Nat) (source : VklSource)
    (hp : vkl_bake_prop v type idx = some (pi, prop))
    (hs : vkl_bake_source v prop.source_type prop.source_idx = some (si, source)) :
     vkl_visual_data_partial v type idx first_item item_count data_item_count data =
      .ok ((v.set_prop pi
              { prop with
                  arr_orig := vkl_array_data
                    (vkl_array_resize prop.arr_orig ((first_item + item_count) % 2 ^ 32))
                    first_item item_count data_item_count data }).set_source si
            { source with origin := .LIB }) := by
  simp [ vkl_visual_data_partial, hp, hs]

/-- C5. Origin transition on data ingestion: for a declared Prop (the lookup
of `(type, idx)` finds it) whose Source is declared, `vkl_visual_data` and
 `vkl_visual_data_partial` return, and afterwards the Source of the Prop is the
entry it was with origin `LIB`, whatever its origin was before; the Source
table keeps its length and every other entry of it is unchanged. -/
theorem set_data_origin (v : VklVisual) (type : VklPropType) (idx : Nat)
    (first_item item_count data_item_count count : Nat) (data : List Item)
    (pi : Nat) (prop : VklProp) (si : Nat) (source : VklSource)
    (hp : vkl_bake_prop v type idx = some (pi, prop))
    (hs : vkl_bake_source v prop.source_type prop.source_idx = some (si, source)) :
    ∀ r, (r = vkl_visual_data_partial v type idx first_item item_count data_item_count data ∨
          r = vkl_visual_data v type idx count data) →
      ∃ v', r = .ok v' ∧
        vkl_bake_source v' prop.source_type prop.source_idx =
          some (si, { source with origin := .LIB }) ∧
        v'.sources.length = v.sources.length ∧
        ∀ j, j ≠ si → v'.sources[j]? = v.sources[j]? := by
  have key : ∀ f n dn,
      ∃ v', vkl_visual_data_partial v type idx f n dn data = .ok v' ∧
        vkl_bake_source v' prop.source_type prop.source_idx =
          some (si, { source with origin := .LIB }) ∧
        v'.sources.length = v.sources.length ∧
        ∀ j, j ≠ si → v'.sources[j]? = v.sources[j]? := by
    intro f n dn
    refine ⟨_, data_partial_eq v type idx f n dn data pi prop si source hp hs, ?_, ?_, ?_⟩
    · have hfind := find_entry_some _ _ _ _ hs
      simp only [vkl_bake_source, VklVisual.set_source, VklVisual.set_prop]
      exact find_entry_set_hit _ _ si source _ hs (by simpa using hfind.2.1)
    · simp [VklVisual.set_source, VklVisual.set_prop]
    · intro j hj
      simp [VklVisual.set_source, VklVisual.set_prop, List.getElem?_set, Ne.symm hj]
  intro r hr
  rcases hr with rfl | rfl
  · exact key first_item item_count data_item_count
  · exact key 0 count count

theorem set_data_origin_witness :
    vkl_bake_prop scatter_declared .COLOR 0 =
      some (1, { prop_type := .COLOR, prop_idx := 0, source_type := .VERTEX, source_idx := 0,
                 field_idx := 1, dtype := 4, offset := 12,
                 arr_orig := VklArray.zero, arr_trans := VklArray.zero }) ∧
    ∃ v', vkl_visual_data scatter_declared .COLOR 0 2 [[1, 2, 3, 4], [5, 6, 7, 8]] = .ok v' ∧
      vkl_bake_source v' .VERTEX 0 =
        some (0, { pipeline := .GRAPHICS, pipeline_idx := 0, source_type := .VERTEX,
                   source_idx := 0, slot_idx := 0, arr := vkl_array_struct 0 16,
                   origin := .LIB, u := .zero }) ∧
      v'.sources.length = scatter_declared.sources.length ∧
      ∀ j, j ≠ 0 → v'.sources[j]? = scatter_declared.sources[j]? :=
  ⟨by decide,
   set_data_origin scatter_declared .COLOR 0 0 2 2 2 [[1, 2, 3, 4], [5, 6, 7, 8]] 1
     { prop_type := .COLOR, prop_idx := 0, source_type := .VERTEX, source_idx := 0,
       field_idx := 1, dtype := 4, offset := 12,
       arr_orig := VklArray.zero, arr_trans := VklArray.zero }
     0
     { pipeline := .GRAPHICS, pipeline_idx := 0, source_type := .VERTEX, source_idx := 0,
       slot_idx := 0, arr := vkl_array_struct 0 16, origin := .NONE, u := .zero }
     (by decide) (by decide) _ (Or.inr rfl)⟩

/-! ## Direct binding -/

theorem with_bindings_eq (v : VklVisual) (s : VklSource) (f : VklBindings → VklBindings)
    (hidx : s.pipeline_idx < 256) :
    ∃ v', with_bindings v s f = .ok v' ∧ v'.sources = v.sources ∧ v'.props = v.props ∧
      v'.vertex_count = v.vertex_count ∧ v'.index_count = v.index_count ∧
      selected_bindings v' s = f (selected_bindings v s) ∧
      (∀ i, i ≠ s.pipeline_idx → v'.bindings i = v.bindings i) ∧
      (∀ i, i ≠ s.pipeline_idx → v'.bindings_comp i = v.bindings_comp i) ∧
      (s.pipeline = .GRAPHICS → v'.bindings_comp = v.bindings_comp) ∧
      (s.pipeline = .COMPUTE → v'.bindings = v.bindings) := by
  cases hp : s.pipeline
  · have h : with_bindings v s f = .ok { v with
        bindings := Function.update v.bindings s.pipeline_idx (f (v.bindings s.pipeline_idx)) } := by
      simp [with_bindings, _get_bindings, hp, VKL_MAX_GRAPHICS_PER_VISUAL, hidx]
    refine ⟨_, h, rfl, rfl, rfl, rfl, ?_, ?_, ?_, ?_, ?_⟩
    · simp [selected_bindings, hp]
    · intro i hi
      simp [Function.update_noteq hi]
    · intro i _
      rfl
    · intro _
      rfl
    · intro h
      cases h
  · have h : with_bindings v s f = .ok { v with
        bindings_comp :=
          Function.update v.bindings_comp s.pipeline_idx (f (v.bindings_comp s.pipeline_idx)) } := by
      simp [with_bindings, _get_bindings, hp, VKL_MAX_COMPUTES_PER_VISUAL, hidx]
    refine ⟨_, h, rfl, rfl, rfl, rfl, ?_, ?_, ?_, ?_, ?_⟩
    · simp [selected_bindings, hp]
    · intro i _
      rfl
    · intro i hi
      simp [Function.update_noteq hi]
    · intro h
      cases h
    · intro _
      rfl

/-- C6 (amended). Direct binding: for a declared Source (the lookup finds it
at position `si`) whose pipeline index is inside the Binding Set tables,
`vkl_visual_buffer_partial` with a non-null buffer handle and a non-zero
resulting size (the size given, or the size of the region when 0 is given)
and `vkl_visual_texture` with a texture that has an image and a sampler
return; they store the resource in the Source, set its origin to `USER`, leave
its array and every other Source as they were, bind the resource at the slot
of the Source in the Binding Set selected by the pipeline kind and index of
the Source, and mark that Binding Set `NEED_UPDATE`. `vkl_visual_buffer` is the
call with offset 0 and the size of the region. -/
theorem direct_binding_effect (v : VklVisual) (source : VklSourceType) (idx si : Nat)
    (src : VklSource) (h : vkl_bake_source v source idx = some (si, src))
    (hidx : src.pipeline_idx < 256) :
    (∀ (br : VklBufferRegions) (offset size : Nat), br.buffer ≠ 0 →
        0 < (if size = 0 then br.size else size) →
        ∃ v', vkl_visual_buffer_partial v source idx br offset size = .ok v' ∧
          v'.sources = v.sources.set si
            { src with
                u := .b { br := br, offset := offset, size := if size = 0 then br.size else size }
                origin := .USER } ∧
          (selected_bindings v' src).status = .NEED_UPDATE ∧
          (selected_bindings v' src).bound src.slot_idx = .buffer br) ∧
    (∀ (br : VklBufferRegions),
        vkl_visual_buffer v source idx br = vkl_visual_buffer_partial v source idx br 0 br.size) ∧
    (∀ (tex : VklTexture), tex.image ≠ 0 → tex.sampler ≠ 0 →
        ∃ v', vkl_visual_texture v source idx (some tex) = .ok v' ∧
          v'.sources = v.sources.set si { src with u := .t tex, origin := .USER } ∧
          (selected_bindings v' src).status = .NEED_UPDATE ∧
          (selected_bindings v' src).bound src.slot_idx = .texture tex.image tex.sampler) := by
  refine ⟨?_, fun _ => rfl, ?_⟩
  · intro br offset size hbuf hsize
    obtain ⟨v', hv', hsrc, -, -, -, hsel, -⟩ :=
      with_bindings_eq
        (v.set_source si
          { src with
              u := .b { br := br, offset := offset, size := if size = 0 then br.size else size }
              origin := .USER })
        { src with
            u := .b { br := br, offset := offset, size := if size = 0 then br.size else size }
            origin := .USER }
        (fun b => vkl_bindings_buffer b src.slot_idx br) hidx
    refine ⟨v', ?_, ?_, ?_, ?_⟩
    · simp only [ vkl_visual_buffer_partial, h]
      simp only [gt_iff_lt, hsize, not_true_eq_false, if_false, hbuf]
      exact hv'
    · simpa [VklVisual.set_source] using hsrc
    · have : selected_bindings v' src = _ := hsel
      rw [this]
      rfl
    · have : selected_bindings v' src = _ := hsel
      rw [this]
      simp [vkl_bindings_buffer]
  · intro tex himg hsmp
    obtain ⟨v', hv', hsrc, -, -, -, hsel, -⟩ :=
      with_bindings_eq (v.set_source si { src with u := .t tex, origin := .USER })
        { src with u := .t tex, origin := .USER }
        (fun b => vkl_bindings_texture b src.slot_idx tex.image tex.sampler) hidx
    refine ⟨v', ?_, ?_, ?_, ?_⟩
    · simp only [vkl_visual_texture, h, himg, hsmp, if_false]
      exact hv'
    · simpa [VklVisual.set_source] using hsrc
    · have : selected_bindings v' src = _ := hsel
      rw [this]
      rfl
    · have : selected_bindings v' src = _ := hsel
      rw [this]
      simp [vkl_bindings_texture]

theorem direct_binding_effect_witness :
    (∃ v', vkl_visual_buffer_partial scatter_declared .VERTEX 0
              { buffer := 7, size := 64, count := 1 } 0 0 = .ok v' ∧
        v'.sources = scatter_declared.sources.set 0
          { pipeline := .GRAPHICS, pipeline_idx := 0, source_type := .VERTEX, source_idx := 0,
            slot_idx := 0, arr := vkl_array_struct 0 16, origin := .USER,
            u := .b { br := { buffer := 7, size := 64, count := 1 }, offset := 0, size := 64 } } ∧
        (v'.bindings 0).status = .NEED_UPDATE ∧
        (v'.bindings 0).bound 0 = .buffer { buffer := 7, size := 64, count := 1 }) ∧
    (∃ v', vkl_visual_texture scatter_declared .VERTEX 0 (some { image := 3, sampler := 4 }) =
              .ok v' ∧
        v'.sources = scatter_declared.sources.set 0
          { pipeline := .GRAPHICS, pipeline_idx := 0, source_type := .VERTEX, source_idx := 0,
            slot_idx := 0, arr := vkl_array_struct 0 16, origin := .USER,
            u := .t { image := 3, sampler := 4 } } ∧
        (v'.bindings 0).status = .NEED_UPDATE ∧
        (v'.bindings 0).bound 0 = .texture 3 4) :=
  have h := direct_binding_effect scatter_declared .VERTEX 0 0
    { pipeline := .GRAPHICS, pipeline_idx := 0, source_type := .VERTEX, source_idx := 0,
      slot_idx := 0, arr := vkl_array_struct 0 16, origin := .NONE, u := .zero }
    (by decide) (by decide)
  ⟨h.1 { buffer := 7, size := 64, count := 1 } 0 0 (by decide) (by decide),
   h.2.2 { image := 3, sampler := 4 } (by decide) (by decide)⟩

/-- C6, as stated, fails. A buffer region with a non-null handle and size 0,
bound with size 0 ("the region's size"), stops at the `ASSERT(size > 0)` of
line 329; nothing is stored and the origin of the Source stays unset. A
texture without an image stops at the assertion of line 361 with no Binding
Set marked. For a Source declared with pipeline index 256 the Binding Set
`bindings[256]` does not exist: the access is past the end of the table. -/
theorem bind_buffer_empty_region_aborts :
    ((({ buffer := 7, size := 0, count := 1 } : VklBufferRegions).buffer ≠ 0) ∧
      vkl_visual_buffer_partial scatter_declared .VERTEX 0
          { buffer := 7, size := 0, count := 1 } 0 0
        = .abort (.assert_failed 329) scatter_declared ∧
      vkl_visual_buffer scatter_declared .VERTEX 0 { buffer := 7, size := 0, count := 1 }
        = .abort (.assert_failed 329) scatter_declared ∧
      scatter_declared.sources.map (fun s => s.origin) = [.NONE]) ∧
    (∃ w', vkl_visual_texture scatter_declared .VERTEX 0 (some { image := 0, sampler := 4 }) =
        .abort (.assert_failed 361) w' ∧
      (w'.bindings 0).status = .NONE) ∧
    (far_pipeline_visual.sources.map (fun s => (s.source_type, s.source_idx, s.pipeline_idx)) =
        [(.UNIFORM, 0, 256)] ∧
      ∃ w', vkl_visual_buffer far_pipeline_visual .UNIFORM 0
          { buffer := 7, size := 64, count := 1 } = .abort .out_of_bounds w') :=
  ⟨⟨by decide, rfl, rfl, by decide⟩, ⟨_, rfl, by decide⟩, ⟨by decide, ⟨_, rfl⟩⟩⟩

/-! ## Uploads -/

theorem upload_loop_eq (l : List VklSource) :
    upload_loop l = (l.filter fun s => decide (s.origin = .LIB)).map upload_of := by
  induction l with
  | nil => rfl
  | cons s l ih =>
    by_cases ht : s.source_type = .TEXTURE <;> by_cases ho : s.origin = .LIB <;>
      simp [upload_loop, upload_of, ht, ho, ih]

/-- C8. Origin-aware upload: when an update returns, the uploads it issued
are, in table order, exactly one per Source whose origin is `LIB`, each
carrying the array of that Source (a texture upload of
`item_count * item_size` bytes, computed in 64 bits, for a texture Source, a
buffer upload otherwise); so every upload comes from a Source of origin `LIB`
and none from a Source of origin `USER`. An update that stops does so before
the upload loop and issues no upload. -/
theorem update_uploads (dtype_size : VklDataType → Nat) (user : Nat → VklVisual → Res VklVisual)
    (v : VklVisual) (u : VklUpdate) (h : vkl_visual_update dtype_size user v = .ok u) :
    u.uploads = (u.visual.sources.filter fun s => decide (s.origin = .LIB)).map upload_of ∧
    u.uploads.length = (u.visual.sources.filter fun s => decide (s.origin = .LIB)).length ∧
    (∀ e ∈ u.uploads, ∃ s ∈ u.visual.sources, s.origin = .LIB ∧ s.origin ≠ .USER ∧
      e = upload_of s) ∧
    ∀ s : VklSource, s.arr.item_count * s.arr.item_size < 2 ^ 64 →
      upload_of s =
        if s.source_type = .TEXTURE then
          .texture s.u (s.arr.item_count * s.arr.item_size) s.arr.data
        else .buffers s.u s.arr.data := by
  have hup : u.uploads =
      (u.visual.sources.filter fun s => decide (s.origin = .LIB)).map upload_of := by
    unfold vkl_visual_update at h
    cases h1 : run_callback dtype_size user v.callback_transform v with
    | abort f w => simp [h1, Res.bind] at h
    | ok v1 =>
      cases h2 : run_callback dtype_size user v1.callback_bake v1 with
      | abort f w => simp [h1, h2, Res.bind] at h
      | ok v2 =>
        simp only [h1, h2, Res.bind, Res.ok.injEq] at h
        subst h
        exact upload_loop_eq v2.sources
  refine ⟨hup, by rw [hup, List.length_map], ?_, ?_⟩
  · intro e he
    rw [hup, List.mem_map] at he
    obtain ⟨s, hs, rfl⟩ := he
    rw [List.mem_filter] at hs
    have ho : s.origin = .LIB := by simpa using hs.2
    exact ⟨s, hs.1, ho, by simp [ho], rfl⟩
  · intro s hs
    unfold upload_of
    rw [Nat.mod_eq_of_lt hs]

theorem update_uploads_witness :
    ∃ u, vkl_visual_update example_dtype_size example_user scatter_bound = .ok u ∧
      u.visual.sources.map (fun s => s.origin) = [.LIB, .USER] ∧
      u.uploads = [.buffers .zero
        [[1, 1, 1, 1, 1, 1, 1, 1, 1, 1, 1, 1, 7, 7, 7, 7],
         [2, 2, 2, 2, 2, 2, 2, 2, 2, 2, 2, 2, 8, 8, 8, 8]]] ∧
      u.uploads = (u.visual.sources.filter fun s => decide (s.origin = .LIB)).map upload_of :=
  ⟨_, rfl, by decide, by decide,
    (update_uploads example_dtype_size example_user scatter_bound _ rfl).1⟩

/-! ## What the default bake can change -/

theorem set_get_self {α : Type} (l : List α) (i : Nat) (x : α) (h : l[i]? = some x) :
    l.set i x = l := by
  apply List.ext_getElem?
  intro j
  rw [List.getElem?_set]
  by_cases hij : i = j
  · subst hij
    have hlt : i < l.length := by
      rcases Nat.lt_or_ge i l.length with h' | h'
      · exact h'
      · simp [List.getElem?_eq_none h'] at h
    simp [hlt, h]
  · simp [hij]

theorem state_bind (r : Res VklVisual) (f : VklVisual → Res VklVisual) :
    (r.bind f).state = match r with
      | .ok a => (f a).state
      | .abort _ w => w := by
  cases r <;> rfl

/-- One copy leaves the visual as it was, or replaces the array of the Source
found for the Prop. -/
theorem bake_prop_copy_state (dtype_size : VklDataType → Nat) (v : VklVisual) (prop : VklProp)
    (reps si : Nat) (src : VklSource)
    (h : vkl_bake_source v prop.source_type prop.source_idx = some (si, src)) :
    ∃ a, (vkl_bake_prop_copy dtype_size v prop reps).state =
      v.set_source si { src with arr := a } := by
  have hself : v.set_source si { src with arr := src.arr } = v := by
    have := set_get_self v.sources si src (find_entry_some _ _ _ _ h).1
    simp [VklVisual.set_source, this]
  unfold vkl_bake_prop_copy
  simp only [h]
  split_ifs <;> first
    | exact ⟨_, rfl⟩
    | exact ⟨src.arr, hself.symm⟩

theorem bake_source_set (v : VklVisual) (t : VklSourceType) (idx si : Nat) (src : VklSource)
    (a : VklArray) (h : vkl_bake_source v t idx = some (si, src)) :
    vkl_bake_source (v.set_source si { src with arr := a }) t idx =
      some (si, { src with arr := a }) := by
  have hp := (find_entry_some _ _ _ _ h).2.1
  exact find_entry_set_hit _ _ si src _ h (by simpa using hp)

theorem set_source_set_source (v : VklVisual) (si : Nat) (s s' : VklSource) :
    (v.set_source si s).set_source si s' = v.set_source si s' := by
  simp [VklVisual.set_source]

/-- The copy loop of the default bake leaves the visual as it was except for
the array of the vertex Source, whether it completes or stops on an
assertion. -/
theorem bake_copy_loop_state (dtype_size : VklDataType → Nat) :
    ∀ (ps : List VklProp) (v : VklVisual) (si : Nat) (src : VklSource),
      vkl_bake_source v .VERTEX 0 = some (si, src) →
      ∃ a, (bake_copy_loop dtype_size ps v).state = v.set_source si { src with arr := a }
  | [], v, si, src, h => by
    refine ⟨src.arr, ?_⟩
    have := set_get_self v.sources si src (find_entry_some _ _ _ _ h).1
    simp [bake_copy_loop, Res.state, VklVisual.set_source, this]
  | p :: ps, v, si, src, h => by
    unfold bake_copy_loop
    by_cases hp : p.source_type = .VERTEX ∧ p.source_idx = 0
    · simp only [hp, and_self, if_true]
      have hsrc : vkl_bake_source v p.source_type p.source_idx = some (si, src) := by
        rw [hp.1, hp.2]; exact h
      obtain ⟨a, ha⟩ := bake_prop_copy_state dtype_size v p 1 si src hsrc
      rw [state_bind]
      cases hr : vkl_bake_prop_copy dtype_size v p 1 with
      | abort f w =>
        rw [hr] at ha
        exact ⟨a, ha⟩
      | ok v1 =>
        rw [hr] at ha
        simp only [Res.state] at ha
        subst ha
        obtain ⟨a', ha'⟩ := bake_copy_loop_state dtype_size ps _ si _
          (bake_source_set v .VERTEX 0 si src a h)
        exact ⟨a', by simpa [set_source_set_source] using ha'⟩
    · simp only [hp, if_false]
      exact bake_copy_loop_state dtype_size ps v si src h

/-- The default bake leaves the visual as it was except for the vertex count,
the index count and the array of the vertex Source (VERTEX, 0), whether it
completes or stops; it returns at once with the visual untouched when the
origin of that Source is not `LIB`. -/
theorem default_bake_state (dtype_size : VklDataType → Nat) (w : VklVisual) (si : Nat)
    (src : VklSource) (h : vkl_bake_source w .VERTEX 0 = some (si, src)) :
    (src.origin ≠ .LIB → _default_visual_bake dtype_size w = .ok w) ∧
    ∃ a vc ic, (_default_visual_bake dtype_size w).state =
      { w with vertex_count := vc, index_count := ic,
               sources := w.sources.set si { src with arr := a } } := by
  have hself : w.sources.set si src = w.sources :=
    set_get_self w.sources si src (find_entry_some _ _ _ _ h).1
  have hsame : ∃ a vc ic, w =
      { w with vertex_count := vc, index_count := ic,
               sources := w.sources.set si { src with arr := a } } :=
    ⟨src.arr, w.vertex_count, w.index_count, by simp [hself]⟩
  constructor
  · intro ho
    simp [_default_visual_bake, h, ho]
  · unfold _default_visual_bake
    simp only [h]
    by_cases ho : src.origin = .LIB
    · rw [if_neg (by simp [ho])]
      cases hc : bake_item_count w.props 0 with
      | none => simpa [Res.state] using hsame
      | some n =>
        simp only
        by_cases hcr : src.arr.created = true
        · rw [if_neg (by simp [hcr])]
          have hfound : vkl_bake_source
              (VklVisual.set_source { w with vertex_count := n, index_count := 0 } si
                { src with arr := vkl_array_resize src.arr n }) .VERTEX 0 =
              some (si, { src with arr := vkl_array_resize src.arr n }) :=
            bake_source_set { w with vertex_count := n, index_count := 0 } .VERTEX 0 si src _ h
          obtain ⟨a, ha⟩ := bake_copy_loop_state dtype_size
            (VklVisual.set_source { w with vertex_count := n, index_count := 0 } si
                { src with arr := vkl_array_resize src.arr n }).props _ si _ hfound
          refine ⟨a, n, 0, Eq.trans ha ?_⟩
          simp [VklVisual.set_source]
        · rw [if_pos (by simp [hcr])]
          exact ⟨src.arr, n, 0, by simp [Res.state, hself]⟩
    · rw [if_pos (by simp [ho])]
      simpa [Res.state] using hsame


/-! ## The update with the default bake -/

/-- An update whose transform stage leaves `w` and whose bake callback is the
default bake is the default bake on `w` followed by the uploads and the
refresh. -/
theorem update_default_eq (dtype_size : VklDataType → Nat)
    (user : Nat → VklVisual → Res VklVisual) (v w : VklVisual)
    (htr : run_callback dtype_size user v.callback_transform v = .ok w)
    (hbake : w.callback_bake = .default_bake) :
    vkl_visual_update dtype_size user v =
      (_default_visual_bake dtype_size w).bind fun visual => .ok (upload_and_refresh visual) := by
  unfold vkl_visual_update
  rw [htr]
  simp only [Res.bind, hbake, run_callback]

theorem update_state_bind (r : Res VklVisual) :
    update_state (r.bind fun visual => .ok (upload_and_refresh visual)) =
      { r.state with
          bindings := refresh_bindings r.state.graphics_count r.state.bindings
          bindings_comp := refresh_bindings r.state.compute_count r.state.bindings_comp } ∨
    update_state (r.bind fun visual => .ok (upload_and_refresh visual)) = r.state := by
  cases r with
  | ok a => left; rfl
  | abort f w => right; rfl

theorem update_state_sources (r : Res VklVisual) :
    (update_state (r.bind fun visual => .ok (upload_and_refresh visual))).sources =
      r.state.sources := by
  cases r <;> rfl

/-- C7. Caller-owned Sources are never overwritten: let `w` be the visual the
bake stage receives (`v` itself when no transform callback is installed) and
let the bake be the default bake. Every Source entry of `w` whose origin is
 `USER` is, entry and array, exactly the same in the visual the update leaves,
whether the update returns or stops. When that Source is the vertex Source
(VERTEX, 0) the bake is skipped: the update returns, and the Source table,
the Prop table, the vertex count and the index count are those of `w`. -/
theorem caller_owned_untouched (dtype_size : VklDataType → Nat)
    (user : Nat → VklVisual → Res VklVisual) (v w : VklVisual) (i : Nat) (s : VklSource)
    (htr : run_callback dtype_size user v.callback_transform v = .ok w)
    (hbake : w.callback_bake = .default_bake)
    (hi : w.sources[i]? = some s) (ho : s.origin = .USER) :
    (update_state (vkl_visual_update dtype_size user v)).sources[i]? = some s ∧
    (vkl_bake_source w .VERTEX 0 = some (i, s) →
      ∃ u, vkl_visual_update dtype_size user v = .ok u ∧ u.visual.sources = w.sources ∧
        u.visual.props = w.props ∧ u.visual.vertex_count = w.vertex_count ∧
        u.visual.index_count = w.index_count) := by
  rw [update_default_eq dtype_size user v w htr hbake]
  constructor
  · rw [update_state_sources]
    cases hl : vkl_bake_source w .VERTEX 0 with
    | none =>
      simp [_default_visual_bake, hl, Res.state, hi]
    | some e =>
      obtain ⟨si, src⟩ := e
      obtain ⟨hskip, a, vc, ic, hst⟩ := default_bake_state dtype_size w si src hl
      by_cases hsi : si = i
      · subst hsi
        have hsrc : src = s := by
          have := (find_entry_some _ _ _ _ hl).1
          rw [hi] at this
          exact (Option.some.inj this).symm
        subst hsrc
        rw [hskip (by simp [ho])]
        simpa [Res.state] using hi
      · rw [hst]
        simp [List.getElem?_set, hsi, hi]
  · intro hl
    obtain ⟨hskip, -⟩ := default_bake_state dtype_size w i s hl
    rw [hskip (by simp [ho])]
    exact ⟨_, rfl, rfl, rfl, rfl, rfl⟩

theorem caller_owned_untouched_witness :
    scatter_vertex_bound.sources[0]? = some bound_vertex_source ∧
    (update_state (vkl_visual_update example_dtype_size example_user
      scatter_vertex_bound)).sources[0]? = some bound_vertex_source ∧
    ∃ u, vkl_visual_update example_dtype_size example_user scatter_vertex_bound = .ok u ∧
      u.visual.sources = scatter_vertex_bound.sources ∧
      u.visual.props = scatter_vertex_bound.props ∧
      u.visual.vertex_count = scatter_vertex_bound.vertex_count ∧
      u.visual.index_count = scatter_vertex_bound.index_count :=
  have h := caller_owned_untouched example_dtype_size example_user scatter_vertex_bound
    scatter_vertex_bound 0 bound_vertex_source rfl rfl (by decide) rfl
  ⟨by decide, h.1, h.2 (by decide)⟩

/-! ## Uniqueness of the Source keys -/

theorem with_bindings_sources (v v' : VklVisual) (s : VklSource)
    (f : VklBindings → VklBindings) (h : with_bindings v s f = .ok v') :
    v'.sources = v.sources := by
  unfold with_bindings _get_bindings at h
  cases hp : s.pipeline <;> simp only [hp, if_true, if_false, reduceCtorEq] at h <;>
    split_ifs at h <;>
    · cases h
      rfl

theorem default_bake_ok_keys (dtype_size : VklDataType → Nat) (w v2 : VklVisual)
    (h : _default_visual_bake dtype_size w = .ok v2) :
    v2.sources.map VklSource.key = w.sources.map VklSource.key ∧
    v2.callback_bake = w.callback_bake := by
  cases hl : vkl_bake_source w .VERTEX 0 with
  | none => simp [_default_visual_bake, hl] at h
  | some e =>
    obtain ⟨si, src⟩ := e
    obtain ⟨-, a, vc, ic, hst⟩ := default_bake_state dtype_size w si src hl
    rw [h] at hst
    simp only [Res.state] at hst
    subst hst
    exact ⟨set_same_key _ si src _ (find_entry_some _ _ _ _ hl).1 rfl, rfl⟩

theorem run_callback_ok_keys (dtype_size : VklDataType → Nat)
    (user : Nat → VklVisual → Res VklVisual)
    (huser : ∀ id v v', user id v = .ok v' → transform_only v v')
    (cb : VklVisualDataCallback) (v w : VklVisual)
    (h : run_callback dtype_size user cb v = .ok w) :
    w.sources.map VklSource.key = v.sources.map VklSource.key ∧
    w.callback_bake = v.callback_bake := by
  cases cb with
  | NULL =>
    simp only [run_callback, Res.ok.injEq] at h
    subst h
    exact ⟨rfl, rfl⟩
  | default_bake => exact default_bake_ok_keys dtype_size v w h
  | custom id =>
    have := (huser id v w h).1
    rw [this]
    exact ⟨rfl, rfl⟩

theorem run_call_keys (dtype_size : VklDataType → Nat)
    (user : Nat → VklVisual → Res VklVisual)
    (huser : ∀ id v v', user id v = .ok v' → transform_only v v')
    (v v' : VklVisual) (c : VklCall)
    (hc : c = .update → v.callback_bake = .default_bake)
    (h : run_call dtype_size user v c = .ok v') :
    v'.sources.map VklSource.key = v.sources.map VklSource.key ∨
    ∃ s, v'.sources = v.sources ++ [s] ∧ s.key ∉ v.sources.map VklSource.key := by
  cases c with
  | source source source_idx pipeline pipeline_idx slot_idx item_size =>
    right
    simp only [run_call, vkl_visual_source] at h
    split_ifs at h with h1 h2
    simp only [Res.ok.injEq] at h
    subst h
    refine ⟨_, rfl, ?_⟩
    have hnone : vkl_bake_source v source source_idx = none := by
      cases hq : vkl_bake_source v source source_idx with
      | none => rfl
      | some e => simp [hq] at h2
    have hall := (find_entry_none _ _).mp hnone
    intro hmem
    rw [List.mem_map] at hmem
    obtain ⟨x, hx, hkey⟩ := hmem
    have := hall x hx
    simp only [VklSource.key, Prod.mk.injEq] at hkey
    simp [hkey.1, hkey.2] at this
  | prop prop prop_idx source source_idx field_idx dtype offset =>
    left
    simp only [run_call, vkl_visual_prop] at h
    split_ifs at h
    cases h
    rfl
  | graphics graphics =>
    left
    simp only [run_call, vkl_visual_graphics] at h
    cases graphics with
    | none => simp at h
    | some g =>
      simp only at h
      split_ifs at h <;>
        · cases h
          rfl
  | compute compute =>
    left
    simp only [run_call, vkl_visual_compute] at h
    cases compute with
    | none => simp at h
    | some g =>
      simp only at h
      split_ifs at h <;>
        · cases h
          rfl
  | group group_idx size =>
    left
    simp only [run_call, vkl_visual_group] at h
    split_ifs at h <;>
      · cases h
        rfl
  | data type idx count data =>
    left
    simp only [run_call, vkl_visual_data, vkl_visual_data_partial] at h
    cases hp : vkl_bake_prop v type idx with
    | none => simp [hp] at h
    | some e =>
      obtain ⟨pi, prop⟩ := e
      cases hs : vkl_bake_source v prop.source_type prop.source_idx with
      | none => simp [hp, hs] at h
      | some e2 =>
        obtain ⟨si, source⟩ := e2
        simp only [hp, hs, Res.ok.injEq] at h
        subst h
        exact set_same_key _ si source _ (find_entry_some _ _ _ _ hs).1 rfl
  | data_part type idx first_item item_count data_item_count data =>
    left
    simp only [run_call, vkl_visual_data_partial] at h
    cases hp : vkl_bake_prop v type idx with
    | none => simp [hp] at h
    | some e =>
      obtain ⟨pi, prop⟩ := e
      cases hs : vkl_bake_source v prop.source_type prop.source_idx with
      | none => simp [hp, hs] at h
      | some e2 =>
        obtain ⟨si, source⟩ := e2
        simp only [hp, hs, Res.ok.injEq] at h
        subst h
        exact set_same_key _ si source _ (find_entry_some _ _ _ _ hs).1 rfl
  | buffer source idx br =>
    left
    simp only [run_call, vkl_visual_buffer, vkl_visual_buffer_partial] at h
    cases hs : vkl_bake_source v source idx with
    | none =>
      simp only [hs, Res.ok.injEq] at h
      subst h
      rfl
    | some e =>
      obtain ⟨si, src⟩ := e
      simp only [hs] at h
      split_ifs at h <;>
        · rw [with_bindings_sources _ _ _ _ h]
          exact set_same_key _ si src _ (find_entry_some _ _ _ _ hs).1 rfl
  | buffer_part source idx br offset size =>
    left
    simp only [run_call, vkl_visual_buffer_partial] at h
    cases hs : vkl_bake_source v source idx with
    | none =>
      simp only [hs, Res.ok.injEq] at h
      subst h
      rfl
    | some e =>
      obtain ⟨si, src⟩ := e
      simp only [hs] at h
      split_ifs at h <;>
        · rw [with_bindings_sources _ _ _ _ h]
          exact set_same_key _ si src _ (find_entry_some _ _ _ _ hs).1 rfl
  | texture source idx texture =>
    left
    simp only [run_call, vkl_visual_texture] at h
    cases hs : vkl_bake_source v source idx with
    | none =>
      simp only [hs, Res.ok.injEq] at h
      subst h
      rfl
    | some e =>
      obtain ⟨si, src⟩ := e
      cases texture with
      | none => simp [hs] at h
      | some tex =>
        simp only [hs] at h
        split_ifs at h
        rw [with_bindings_sources _ _ _ _ h]
        exact set_same_key _ si src _ (find_entry_some _ _ _ _ hs).1 rfl
  | callback_transform callback =>
    left
    simp only [run_call, vkl_visual_callback_transform, Res.ok.injEq] at h
    subst h
    rfl
  | callback_bake callback =>
    left
    simp only [run_call, vkl_visual_callback_bake, Res.ok.injEq] at h
    subst h
    rfl
  | fill_callback callback =>
    left
    simp only [run_call, vkl_visual_fill_callback, Res.ok.injEq] at h
    subst h
    rfl
  | update =>
    left
    simp only [run_call, vkl_visual_update] at h
    cases h1 : run_callback dtype_size user v.callback_transform v with
    | abort f w => simp [h1, Res.bind] at h
    | ok w =>
      obtain ⟨hk1, hb1⟩ := run_callback_ok_keys dtype_size user huser _ v w h1
      cases h2 : run_callback dtype_size user w.callback_bake w with
      | abort f w2 => simp [h1, h2, Res.bind] at h
      | ok w2 =>
        obtain ⟨hk2, -⟩ := run_callback_ok_keys dtype_size user huser _ w w2 h2
        simp only [h1, h2, Res.bind, Res.ok.injEq] at h
        subst h
        simp only [upload_and_refresh]
        rw [hk2, hk1]

theorem reachable_keys_nodup (dtype_size : VklDataType → Nat)
    (user : Nat → VklVisual → Res VklVisual)
    (huser : ∀ id v v', user id v = .ok v' → transform_only v v')
    (v : VklVisual) (h : Reachable dtype_size user v) :
    (v.sources.map VklSource.key).Nodup := by
  induction h with
  | init => simp [vkl_visual]
  | step v v' c _ hc hrun ih =>
    rcases run_call_keys dtype_size user huser v v' c hc hrun with hk | ⟨s, hs, hnew⟩
    · rw [hk]
      exact ih
    · rw [hs, List.map_append]
      refine List.Nodup.append ih (List.nodup_singleton _) ?_
      intro k hk1 hk2
      simp only [List.map_cons, List.map_nil, List.mem_singleton] at hk2
      subst hk2
      exact hnew hk1

/-- C10. Source-key uniqueness is an invariant: in every visual reachable from
a freshly constructed visual by calls of the public interface (declarations,
attachments, groups, data ingestion, direct binding, callback setters, and
updates run with the default bake installed, custom transform callbacks
writing only transformed arrays), no two positions of the Source table hold
entries with the same kind and kind-index. -/
theorem source_keys_unique (dtype_size : VklDataType → Nat)
    (user : Nat → VklVisual → Res VklVisual)
    (huser : ∀ id v v', user id v = .ok v' → transform_only v v')
    (v : VklVisual) (h : Reachable dtype_size user v) :
    ∀ (i j : Nat) (s t : VklSource), v.sources[i]? = some s → v.sources[j]? = some t →
      s.source_type = t.source_type → s.source_idx = t.source_idx → i = j := by
  intro i j s t hi hj h1 h2
  have hnd := reachable_keys_nodup dtype_size user huser v h
  have hlt : i < (v.sources.map VklSource.key).length := by
    rw [List.length_map]
    exact (List.getElem?_eq_some.mp hi).1
  apply List.getElem?_inj hlt hnd
  simp [List.getElem?_map, hi, hj, VklSource.key, h1, h2]

theorem example_user_transform_only :
    ∀ id v v', example_user id v = .ok v' → transform_only v v' := by
  intro id v v' h
  simp only [example_user, Res.ok.injEq] at h
  subst h
  exact ⟨rfl, rfl⟩

theorem scatter_bound_reachable : Reachable example_dtype_size example_user scatter_bound := by
  have h0 : Reachable example_dtype_size example_user vkl_visual := Reachable.init
  have h1 := Reachable.step _ _ (.source .VERTEX 0 .GRAPHICS 0 0 16) h0 (by simp) rfl
  have h2 := Reachable.step _ _ (.prop .POS 0 .VERTEX 0 0 12 0) h1 (by simp) rfl
  have h3 := Reachable.step _ _ (.prop .COLOR 0 .VERTEX 0 1 4 12) h2 (by simp) rfl
  have h4 := Reachable.step _ _
    (.data .POS 0 2 [[1, 1, 1, 1, 1, 1, 1, 1, 1, 1, 1, 1], [2, 2, 2, 2, 2, 2, 2, 2, 2, 2, 2, 2]])
    h3 (by simp) rfl
  have h5 := Reachable.step _ _ (.data .COLOR 0 2 [[7, 7, 7, 7], [8, 8, 8, 8]]) h4 (by simp) rfl
  have h6 := Reachable.step _ _ (.source .UNIFORM 1 .GRAPHICS 0 1 64) h5 (by simp) rfl
  exact Reachable.step _ _ (.buffer .UNIFORM 1 { buffer := 7, size := 64, count := 1 }) h6
    (by simp) rfl

theorem source_keys_unique_witness :
    Reachable example_dtype_size example_user scatter_bound ∧
    scatter_bound.sources.length = 2 ∧
    ∀ (i j : Nat) (s t : VklSource), scatter_bound.sources[i]? = some s →
      scatter_bound.sources[j]? = some t →
      s.source_type = t.source_type → s.source_idx = t.source_idx → i = j :=
  ⟨scatter_bound_reachable, by decide,
   source_keys_unique example_dtype_size example_user example_user_transform_only scatter_bound
     scatter_bound_reachable⟩

/-! ## Mismatched item counts -/

/-- When the item-count check of the default bake passes with `n`, every Prop
of source kind VERTEX it saw holds `n` items or none, and exactly the running
count when that was already set. -/
theorem bake_item_count_some :
    ∀ (ps : List VklProp) (c n : Nat), bake_item_count ps c = some n →
      (c ≠ 0 → n = c) ∧
      ∀ p ∈ ps, p.source_type = .VERTEX →
        (p.arr_orig.item_count = n ∨ p.arr_orig.item_count = 0) ∧
        (c ≠ 0 → p.arr_orig.item_count = c)
  | [], c, n, h => by
    simp only [bake_item_count, Option.some.injEq] at h
    subst h
    exact ⟨fun _ => rfl, by simp⟩
  | q :: ps, c, n, h => by
    unfold bake_item_count at h
    by_cases hq : q.source_type = .VERTEX
    · simp only [hq, if_true] at h
      by_cases hc : c = 0
      · subst hc
        simp only [if_true] at h
        obtain ⟨ih1, ih2⟩ := bake_item_count_some ps _ n h
        refine ⟨fun hne => absurd rfl hne, ?_⟩
        intro p hp hv
        rcases List.mem_cons.mp hp with rfl | hp'
        · refine ⟨?_, fun hne => absurd rfl hne⟩
          by_cases hz : p.arr_orig.item_count = 0
          · exact Or.inr hz
          · exact Or.inl (ih1 hz).symm
        · exact ⟨(ih2 p hp' hv).1, fun hne => absurd rfl hne⟩
      · simp only [hc, if_false] at h
        split_ifs at h with heq
        obtain ⟨ih1, ih2⟩ := bake_item_count_some ps c n h
        refine ⟨ih1, ?_⟩
        intro p hp hv
        rcases List.mem_cons.mp hp with rfl | hp'
        · exact ⟨Or.inl (heq.trans (ih1 hc).symm), fun _ => heq⟩
        · exact ih2 p hp' hv
    · simp only [hq, if_false] at h
      obtain ⟨ih1, ih2⟩ := bake_item_count_some ps c n h
      refine ⟨ih1, ?_⟩
      intro p hp hv
      rcases List.mem_cons.mp hp with rfl | hp'
      · exact absurd hv hq
      · exact ih2 p hp' hv

theorem bake_prop_copy_abort (dtype_size : VklDataType → Nat) (v : VklVisual) (p : VklProp)
    (reps : Nat) :
    (∀ f w, vkl_bake_prop_copy dtype_size v p reps = .abort f w →
      ∃ line, f = .assert_failed line) ∧
    (∀ v1, vkl_bake_prop_copy dtype_size v p reps = .ok v1 → p.arr_orig.data ≠ []) := by
  unfold vkl_bake_prop_copy
  cases vkl_bake_source v p.source_type p.source_idx with
  | none =>
    refine ⟨?_, by simp⟩
    intro f w h
    cases h
    exact ⟨_, rfl⟩
  | some e =>
    obtain ⟨si, source⟩ := e
    simp only
    split_ifs with h1 h2 h3 h4
    all_goals
      refine ⟨?_, ?_⟩
      · intro f w h
        first
          | (cases h; exact ⟨_, rfl⟩)
          | cases h
      · intro v1 h
        first
          | exact h2
          | cases h

/-- The copy loop of the default bake stops on an assertion when one of the
Props it copies holds no staged data. -/
theorem bake_copy_loop_aborts (dtype_size : VklDataType → Nat) :
    ∀ (ps : List VklProp) (v : VklVisual) (p : VklProp), p ∈ ps →
      p.source_type = .VERTEX → p.source_idx = 0 → p.arr_orig.data = [] →
      ∃ line w, bake_copy_loop dtype_size ps v = .abort (.assert_failed line) w
  | [], _, p, hp, _, _, _ => by simp at hp
  | q :: ps, v, p, hp, h1, h2, h3 => by
    unfold bake_copy_loop
    by_cases hq : q.source_type = .VERTEX ∧ q.source_idx = 0
    · rw [if_pos hq]
      obtain ⟨habort, hok⟩ := bake_prop_copy_abort dtype_size v q 1
      cases hr : vkl_bake_prop_copy dtype_size v q 1 with
      | abort f w =>
        obtain ⟨line, rfl⟩ := habort f w hr
        exact ⟨line, w, rfl⟩
      | ok v1 =>
        rcases List.mem_cons.mp hp with rfl | hp'
        · exact absurd h3 (hok v1 hr)
        · exact bake_copy_loop_aborts dtype_size ps v1 p hp' h1 h2 h3
    · rw [if_neg hq]
      rcases List.mem_cons.mp hp with rfl | hp'
      · exact absurd ⟨h1, h2⟩ hq
      · exact bake_copy_loop_aborts dtype_size ps v p hp' h1 h2 h3

/-- C3. Default-bake mismatch is fatal: let `w` be the visual the bake stage
receives (`v` itself when no transform callback is installed), the bake be
the default bake and the vertex Source (VERTEX, 0) have origin `LIB`. When two
Props bound to that Source hold different numbers of staged items, the update
does not return: it stops on a failed assertion, whatever the two counts and
whatever the order of the two Props in the table. When both counts are
non-zero the assertion that fails is the item-count check of line 91, before
anything is written. -/
theorem bake_mismatch_aborts (dtype_size : VklDataType → Nat)
    (user : Nat → VklVisual → Res VklVisual) (v w : VklVisual) (si : Nat) (src : VklSource)
    (pa pb : VklProp)
    (htr : run_callback dtype_size user v.callback_transform v = .ok w)
    (hbake : w.callback_bake = .default_bake)
    (hsrc : vkl_bake_source w .VERTEX 0 = some (si, src)) (ho : src.origin = .LIB)
    (ha : pa ∈ w.props) (hb : pb ∈ w.props)
    (hfa : pa.source_type = .VERTEX ∧ pa.source_idx = 0)
    (hfb : pb.source_type = .VERTEX ∧ pb.source_idx = 0)
    (hne : pa.arr_orig.item_count ≠ pb.arr_orig.item_count) :
    (∃ line w', vkl_visual_update dtype_size user v = .abort (.assert_failed line) w') ∧
    (pa.arr_orig.item_count ≠ 0 → pb.arr_orig.item_count ≠ 0 →
      vkl_visual_update dtype_size user v = .abort (.assert_failed 91) w) := by
  rw [update_default_eq dtype_size user v w htr hbake]
  unfold _default_visual_bake
  simp only [hsrc]
  rw [if_neg (by simp [ho])]
  cases hc : bake_item_count w.props 0 with
  | none => exact ⟨⟨91, w, rfl⟩, fun _ _ => rfl⟩
  | some n =>
    obtain ⟨-, hall⟩ := bake_item_count_some w.props 0 n hc
    have hca := (hall pa ha hfa.1).1
    have hcb := (hall pb hb hfb.1).1
    have hzero : ∃ p ∈ w.props, p.source_type = .VERTEX ∧ p.source_idx = 0 ∧
        p.arr_orig.data = [] := by
      rcases hca with hca | hca
      · rcases hcb with hcb | hcb
        · exact absurd (hca.trans hcb.symm) hne
        · exact ⟨pb, hb, hfb.1, hfb.2, List.length_eq_zero.mp hcb⟩
      · exact ⟨pa, ha, hfa.1, hfa.2, List.length_eq_zero.mp hca⟩
    constructor
    · simp only
      by_cases hcr : src.arr.created = true
      · rw [if_neg (by simp [hcr])]
        obtain ⟨p, hp, h1, h2, h3⟩ := hzero
        obtain ⟨line, w', hw'⟩ := bake_copy_loop_aborts dtype_size
          (VklVisual.set_source { w with vertex_count := n, index_count := 0 } si
            { src with arr := vkl_array_resize src.arr n }).props
          (VklVisual.set_source { w with vertex_count := n, index_count := 0 } si
            { src with arr := vkl_array_resize src.arr n }) p hp h1 h2 h3
        exact ⟨line, w', by rw [hw']; rfl⟩
      · rw [if_pos (by simp [hcr])]
        exact ⟨101, _, rfl⟩
    · intro hza hzb
      rcases hca with hca | hca
      · rcases hcb with hcb | hcb
        · exact absurd (hca.trans hcb.symm) hne
        · exact absurd hcb hzb
      · exact absurd hca hza

theorem bake_mismatch_aborts_witness :
    vkl_bake_source scatter_mismatch .VERTEX 0 =
      some (0, { pipeline := .GRAPHICS, pipeline_idx := 0, source_type := .VERTEX,
                 source_idx := 0, slot_idx := 0, arr := vkl_array_struct 0 16, origin := .LIB,
                 u := .zero }) ∧
    scatter_mismatch.props.map (fun p => p.arr_orig.item_count) = [2, 3] ∧
    (∃ line w', vkl_visual_update example_dtype_size example_user scatter_mismatch =
      .abort (.assert_failed line) w') ∧
    vkl_visual_update example_dtype_size example_user scatter_mismatch =
      .abort (.assert_failed 91) scatter_mismatch :=
  have h := bake_mismatch_aborts example_dtype_size example_user scatter_mismatch
    scatter_mismatch 0
    { pipeline := .GRAPHICS, pipeline_idx := 0, source_type := .VERTEX, source_idx := 0,
      slot_idx := 0, arr := vkl_array_struct 0 16, origin := .LIB, u := .zero }
    { prop_type := .POS, prop_idx := 0, source_type := .VERTEX, source_idx := 0,
      field_idx := 0, dtype := 12, offset := 0,
      arr_orig := { created := false, item_size := 0,
                    data := [[1, 1, 1, 1, 1, 1, 1, 1, 1, 1, 1, 1],
                             [2, 2, 2, 2, 2, 2, 2, 2, 2, 2, 2, 2]] },
      arr_trans := VklArray.zero }
    { prop_type := .COLOR, prop_idx := 0, source_type := .VERTEX, source_idx := 0,
      field_idx := 1, dtype := 4, offset := 12,
      arr_orig := { created := false, item_size := 0,
                    data := [[7, 7, 7, 7], [8, 8, 8, 8], [9, 9, 9, 9]] },
      arr_trans := VklArray.zero }
    rfl rfl (by decide) rfl (by decide) (by decide) ⟨rfl, rfl⟩ ⟨rfl, rfl⟩ (by decide)
  ⟨by decide, by decide, h.1, h.2 (by decide) (by decide)⟩

/-- The mismatch with the Prop without data declared first: the item-count
check of the default bake passes, the vertex count is set and the Source is
resized, and the update stops in the copy of the Prop without data, on the
assertion of line 525. -/
theorem bake_mismatch_zero_first :
    scatter_color_only.props.map (fun p => p.arr_orig.item_count) = [0, 2] ∧
    bake_item_count scatter_color_only.props 0 = some 2 ∧
    (∃ w', vkl_visual_update example_dtype_size example_user scatter_color_only =
      .abort (.assert_failed 525) w' ∧ w'.vertex_count = 2 ∧
      w'.sources.map (fun s => s.arr.item_count) = [2]) :=
  ⟨by decide, by decide, ⟨_, rfl, by decide, by decide⟩⟩

/-! ## The typed array -/

theorem resize_item_count (a : VklArray) (n : Nat) :
    (vkl_array_resize a n).item_count = max a.item_count n := by
  unfold vkl_array_resize
  split_ifs with h
  · exact (Nat.max_eq_left h).symm
  · simp only [VklArray.item_count, List.length_append, List.length_replicate] at h ⊢
    omega

theorem resize_item_size (a : VklArray) (n : Nat) :
    (vkl_array_resize a n).item_size = a.item_size := by
  unfold vkl_array_resize
  split_ifs <;> rfl

theorem resize_created (a : VklArray) (n : Nat) :
    (vkl_array_resize a n).created = a.created := by
  unfold vkl_array_resize
  split_ifs <;> rfl

theorem resize_getElem?_old (a : VklArray) (n k : Nat) (hk : k < a.item_count) :
    (vkl_array_resize a n).data[k]? = a.data[k]? := by
  unfold vkl_array_resize
  split_ifs
  · rfl
  · exact List.getElem?_append_left hk

theorem resize_getElem?_new (a : VklArray) (n k : Nat) (hk : a.item_count ≤ k) (hn : k < n) :
    (vkl_array_resize a n).data[k]? = some (List.replicate a.item_size 0) := by
  unfold vkl_array_resize
  have hlt : ¬ n ≤ a.item_count := by omega
  rw [if_neg hlt]
  simp only [VklArray.item_count] at hk ⊢
  rw [List.getElem?_append_right hk, List.getElem?_replicate, if_pos (by omega)]

theorem array_data_item_count (a : VklArray) (f n dn : Nat) (data : List Item) :
    (vkl_array_data a f n dn data).item_count = a.item_count := by
  simp [vkl_array_data, VklArray.item_count]

theorem array_data_getElem? (a : VklArray) (f n dn : Nat) (data : List Item) (k : Nat) :
    (vkl_array_data a f n dn data).data[k]? =
      if f ≤ k ∧ k < f + n then (a.data[k]?).map fun _ => item_at data dn (k - f)
      else a.data[k]? := by
  simp only [vkl_array_data, List.getElem?_mapIdx]
  cases a.data[k]? with
  | none => simp
  | some x => by_cases h : f ≤ k ∧ k < f + n <;> simp [h]

theorem column_item_count (a : VklArray) (off cs f n dn : Nat) (data : List Item) :
    (vkl_array_column a off cs f n dn data).item_count = a.item_count := by
  simp [vkl_array_column, VklArray.item_count]

theorem column_item_size (a : VklArray) (off cs f n dn : Nat) (data : List Item) :
    (vkl_array_column a off cs f n dn data).item_size = a.item_size := rfl

theorem column_getElem? (a : VklArray) (off cs f n dn : Nat) (data : List Item) (k : Nat) :
    (vkl_array_column a off cs f n dn data).data[k]? =
      (a.data[k]?).map fun old =>
        if f ≤ k ∧ k < f + n then write_field a.item_size off cs old (item_at data dn (k - f))
        else old := by
  simp only [vkl_array_column, List.getElem?_mapIdx]

theorem write_field_length (s off cs : Nat) (old value : Item) :
    (write_field s off cs old value).length = s := by
  simp [write_field]

theorem write_field_getElem? (s off cs : Nat) (old value : Item) (b : Nat) (hb : b < s) :
    (write_field s off cs old value)[b]? =
      some (if off ≤ b ∧ b < off + cs then value.getD (b - off) 0 else old.getD b 0) := by
  simp [write_field, List.getElem?_map, List.getElem?_range hb]

/-! ## Partial writes -/

theorem bake_prop_set (v : VklVisual) (type : VklPropType) (idx pi : Nat) (prop : VklProp)
    (a : VklArray) (h : vkl_bake_prop v type idx = some (pi, prop)) :
    vkl_bake_prop (v.set_prop pi { prop with arr_orig := a }) type idx =
      some (pi, { prop with arr_orig := a }) := by
  have hp := (find_entry_some _ _ _ _ h).2.1
  exact find_entry_set_hit _ _ pi prop _ h (by simpa using hp)

/-- One partial write, on a declared Prop whose Source is declared: the call
returns, the lookup of the Prop finds it at the same position with the same
Source, the staged array never shrinks, the staged items outside the written
range are kept, and when `first_item + item_count` does not wrap the staged
length is the larger of the old length and `first_item + item_count` and the
written slots hold the given items. -/
theorem data_partial_spec (v : VklVisual) (type : VklPropType) (idx : Nat)
    (f n dn : Nat) (data : List Item) (pi : Nat) (prop : VklProp) (si : Nat) (source : VklSource)
    (hp : vkl_bake_prop v type idx = some (pi, prop))
    (hs : vkl_bake_source v prop.source_type prop.source_idx = some (si, source)) :
    ∃ v' p', vkl_visual_data_partial v type idx f n dn data = .ok v' ∧
      vkl_bake_prop v' type idx = some (pi, p') ∧
      p'.source_type = prop.source_type ∧ p'.source_idx = prop.source_idx ∧
      vkl_bake_source v' p'.source_type p'.source_idx = some (si, { source with origin := .LIB }) ∧
      prop.arr_orig.item_count ≤ p'.arr_orig.item_count ∧
      (∀ k, (k < f ∨ f + n ≤ k) → k < prop.arr_orig.item_count →
        p'.arr_orig.data[k]? = prop.arr_orig.data[k]?) ∧
      (f + n < 2 ^ 32 →
        p'.arr_orig.item_count = max prop.arr_orig.item_count (f + n) ∧
        ∀ k, k < n → p'.arr_orig.data[f + k]? = some (item_at data dn k)) := by
  refine ⟨_, { prop with
      arr_orig := vkl_array_data (vkl_array_resize prop.arr_orig ((f + n) % 2 ^ 32)) f n dn data },
    data_partial_eq v type idx f n dn data pi prop si source hp hs, ?_, rfl, rfl, ?_, ?_, ?_, ?_⟩
  · have := bake_prop_set v type idx pi prop
      (vkl_array_data (vkl_array_resize prop.arr_orig ((f + n) % 2 ^ 32)) f n dn data) hp
    simpa [vkl_bake_prop, VklVisual.set_source, VklVisual.set_prop] using this
  · have hfind := find_entry_some _ _ _ _ hs
    simp only [vkl_bake_source, VklVisual.set_source, VklVisual.set_prop]
    exact find_entry_set_hit _ _ si source _ hs (by simpa using hfind.2.1)
  · simp only [array_data_item_count, resize_item_count]
    exact Nat.le_max_left _ _
  · intro k hk hlt
    simp only [array_data_getElem?]
    rw [if_neg (by omega)]
    exact resize_getElem?_old _ _ k hlt
  · intro hno
    rw [Nat.mod_eq_of_lt hno]
    refine ⟨by simp only [array_data_item_count, resize_item_count], ?_⟩
    intro k hk
    simp only [array_data_getElem?]
    rw [if_pos (by omega)]
    have hlen : f + k < (vkl_array_resize prop.arr_orig (f + n)).data.length := by
      have := resize_item_count prop.arr_orig (f + n)
      simp only [VklArray.item_count] at this
      rw [this]
      omega
    rw [List.getElem?_eq_getElem hlen]
    simp

/-- C4 (amended). Partial-write correctness, for a declared Prop whose Source
is declared: `vkl_visual_data_partial` never shrinks the staged array and
leaves every previously staged item outside the written range `[f, f + n)`
unchanged; when `f + n` is below `2 ^ 32` the staged length afterwards is the
larger of the old length and `f + n` and the written slots hold the given
items. On a Prop that holds at most 8 staged items, writing `[a, b, c]` at
items 5 to 7 and then `[v0 .. v4]` at items 0 to 4 yields the staged array
 `[v0, v1, v2, v3, v4, a, b, c]`, of length 8. -/
theorem partial_write_correct (v : VklVisual) (type : VklPropType) (idx : Nat)
    (pi : Nat) (prop : VklProp) (si : Nat) (source : VklSource)
    (hp : vkl_bake_prop v type idx = some (pi, prop))
    (hs : vkl_bake_source v prop.source_type prop.source_idx = some (si, source)) :
    (∀ (f n dn : Nat) (data : List Item),
      ∃ v' p', vkl_visual_data_partial v type idx f n dn data = .ok v' ∧
        vkl_bake_prop v' type idx = some (pi, p') ∧
        prop.arr_orig.item_count ≤ p'.arr_orig.item_count ∧
        (∀ k, (k < f ∨ f + n ≤ k) → k < prop.arr_orig.item_count →
          p'.arr_orig.data[k]? = prop.arr_orig.data[k]?) ∧
        (f + n < 2 ^ 32 →
          p'.arr_orig.item_count = max prop.arr_orig.item_count (f + n) ∧
          ∀ k, k < n → p'.arr_orig.data[f + k]? = some (item_at data dn k))) ∧
    (prop.arr_orig.item_count ≤ 8 → ∀ (a b c v0 v1 v2 v3 v4 : Item),
      ∃ w1 w2 p2, vkl_visual_data_partial v type idx 5 3 3 [a, b, c] = .ok w1 ∧
        vkl_visual_data_partial w1 type idx 0 5 5 [v0, v1, v2, v3, v4] = .ok w2 ∧
        vkl_bake_prop w2 type idx = some (pi, p2) ∧
        p2.arr_orig.data = [v0, v1, v2, v3, v4, a, b, c] ∧
        p2.arr_orig.item_count = 8) := by
  constructor
  · intro f n dn data
    obtain ⟨v', p', h1, h2, -, -, -, h3, h4, h5⟩ :=
      data_partial_spec v type idx f n dn data pi prop si source hp hs
    exact ⟨v', p', h1, h2, h3, h4, h5⟩
  · intro hold a b c v0 v1 v2 v3 v4
    obtain ⟨w1, p1, hw1, hp1, ht1, hi1, hs1, -, -, hwr1⟩ :=
      data_partial_spec v type idx 5 3 3 [a, b, c] pi prop si source hp hs
    obtain ⟨hc1, hd1⟩ := hwr1 (by norm_num)
    obtain ⟨w2, p2, hw2, hp2, -, -, -, -, hfr2, hwr2⟩ :=
      data_partial_spec w1 type idx 0 5 5 [v0, v1, v2, v3, v4] pi p1 si _ hp1 hs1
    obtain ⟨hc2, hd2⟩ := hwr2 (by norm_num)
    have hlen1 : p1.arr_orig.item_count = 8 := by rw [hc1]; omega
    have hlen2 : p2.arr_orig.item_count = 8 := by rw [hc2, hlen1]; rfl
    refine ⟨w1, w2, p2, hw1, hw2, hp2, ?_, hlen2⟩
    apply List.ext_getElem?
    intro k
    rcases Nat.lt_or_ge k 5 with hk | hk
    · have := hd2 k hk
      rw [Nat.zero_add] at this
      rw [this]
      interval_cases k <;> simp [item_at]
    · rcases Nat.lt_or_ge k 8 with hk8 | hk8
      · rw [hfr2 k (Or.inr (by omega)) (by omega)]
        have := hd1 (k - 5) (by omega)
        rw [show 5 + (k - 5) = k by omega] at this
        rw [this]
        interval_cases k <;> simp [item_at]
      · have hl : p2.arr_orig.data.length = 8 := hlen2
        rw [List.getElem?_eq_none (by omega), List.getElem?_eq_none (by simp; omega)]

theorem partial_write_correct_witness :
    vkl_bake_prop scatter_declared .COLOR 0 =
      some (1, { prop_type := .COLOR, prop_idx := 0, source_type := .VERTEX, source_idx := 0,
                 field_idx := 1, dtype := 4, offset := 12,
                 arr_orig := VklArray.zero, arr_trans := VklArray.zero }) ∧
    ∃ w1 w2 p2,
       vkl_visual_data_partial scatter_declared .COLOR 0 5 3 3 [[10], [11], [12]] = .ok w1 ∧
       vkl_visual_data_partial w1 .COLOR 0 0 5 5 [[0], [1], [2], [3], [4]] = .ok w2 ∧
      vkl_bake_prop w2 .COLOR 0 = some (1, p2) ∧
      p2.arr_orig.data = [[0], [1], [2], [3], [4], [10], [11], [12]] ∧
      p2.arr_orig.item_count = 8 :=
  ⟨by decide,
   (partial_write_correct scatter_declared .COLOR 0 1
     { prop_type := .COLOR, prop_idx := 0, source_type := .VERTEX, source_idx := 0,
       field_idx := 1, dtype := 4, offset := 12,
       arr_orig := VklArray.zero, arr_trans := VklArray.zero }
     0
     { pipeline := .GRAPHICS, pipeline_idx := 0, source_type := .VERTEX, source_idx := 0,
       slot_idx := 0, arr := vkl_array_struct 0 16, origin := .NONE, u := .zero }
     (by decide) (by decide)).2 (by decide) [10] [11] [12] [0] [1] [2] [3] [4]⟩

/-- C4, as stated, fails. A write of the range `[4294967295, 4294967297)` on a
Prop without staged data returns with a staged array of one item, not of
`max 0 4294967297` items, because `first_item + item_count` wraps to 1. A write
on a declared Prop whose Source was never declared does not return: it stops
on the assertion of line 291. On a Prop that already holds ten staged items
the two writes of the example leave ten items, not eight. -/
theorem partial_write_counterexample :
    (∃ v' p',  vkl_visual_data_partial scatter_declared .POS 0 4294967295 2 2 [[1], [2]] = .ok v' ∧
      vkl_bake_prop v' .POS 0 = some (0, p') ∧
      p'.arr_orig.item_count = 1 ∧
      p'.arr_orig.item_count ≠ max 0 (4294967295 + 2)) ∧
     vkl_visual_data_partial orphan_prop_visual .POS 0 5 3 3 [[10], [11], [12]] =
      .abort (.assert_failed 291) orphan_prop_visual ∧
    (∃ w1 w2 p2,
       vkl_visual_data_partial scatter_ten_colors .COLOR 0 5 3 3 [[10], [11], [12]] = .ok w1 ∧
       vkl_visual_data_partial w1 .COLOR 0 0 5 5 [[0], [1], [2], [3], [4]] = .ok w2 ∧
      vkl_bake_prop w2 .COLOR 0 = some (1, p2) ∧
      p2.arr_orig.data = [[0], [1], [2], [3], [4], [10], [11], [12], [8], [9]] ∧
      p2.arr_orig.item_count = 10) :=
  ⟨⟨_, _, rfl, rfl, by decide, by decide⟩, rfl, ⟨_, _, _, rfl, rfl, rfl, by decide, by decide⟩⟩

/-! ## The default bake when the item counts agree -/

theorem bake_item_count_set :
    ∀ (ps : List VklProp) (n : Nat), 0 < n →
      (∀ p ∈ ps, p.source_type = .VERTEX → p.arr_orig.item_count = n) →
      bake_item_count ps n = some n
  | [], n, _, _ => rfl
  | q :: ps, n, hn, hall => by
    have ih := bake_item_count_set ps n hn fun p hp => hall p (List.mem_cons_of_mem _ hp)
    unfold bake_item_count
    by_cases hq : q.source_type = .VERTEX
    · have hcount := hall q (List.mem_cons_self _ _) hq
      have hne : n ≠ 0 := by omega
      simp [hq, hne, hcount, ih]
    · simp [hq, ih]

theorem bake_item_count_agree :
    ∀ (ps : List VklProp) (n : Nat), 0 < n →
      (∀ p ∈ ps, p.source_type = .VERTEX → p.arr_orig.item_count = n) →
      (∃ p ∈ ps, p.source_type = .VERTEX) →
      bake_item_count ps 0 = some n
  | [], n, _, _, hex => by
    obtain ⟨p, hp, -⟩ := hex
    simp at hp
  | q :: ps, n, hn, hall, hex => by
    unfold bake_item_count
    by_cases hq : q.source_type = .VERTEX
    · have hcount := hall q (List.mem_cons_self _ _) hq
      have := bake_item_count_set ps n hn fun p hp => hall p (List.mem_cons_of_mem _ hp)
      simp [hq, hcount, this]
    · obtain ⟨p, hp, hv⟩ := hex
      have hp' : p ∈ ps := by
        rcases List.mem_cons.mp hp with rfl | hp'
        · exact absurd hv hq
        · exact hp'
      have := bake_item_count_agree ps n hn
        (fun p hp => hall p (List.mem_cons_of_mem _ hp)) ⟨p, hp', hv⟩
      simp [hq, this]

theorem copy_columns_item_count (dtype_size : VklDataType → Nat) :
    ∀ (ps : List VklProp) (a : VklArray),
      (copy_columns dtype_size ps a).item_count = a.item_count ∧
      (copy_columns dtype_size ps a).item_size = a.item_size ∧
      (copy_columns dtype_size ps a).created = a.created
  | [], a => ⟨rfl, rfl, rfl⟩
  | p :: ps, a => by
    unfold copy_columns
    split_ifs
    · obtain ⟨h1, h2, h3⟩ := copy_columns_item_count dtype_size ps
        (vkl_array_column a p.offset (dtype_size p.dtype) 0 p.arr_orig.item_count
          p.arr_orig.item_count p.arr_orig.data)
      exact ⟨h1.trans (column_item_count _ _ _ _ _ _ _), h2, h3⟩
    · exact copy_columns_item_count dtype_size ps a

/-- The copy loop of the default bake returns when every Prop it copies has a
positive element size and staged data that fits the array of the vertex
Source; the array is then the one built by the column writes. -/
theorem bake_copy_loop_ok (dtype_size : VklDataType → Nat) :
    ∀ (ps : List VklProp) (v : VklVisual) (si : Nat) (src : VklSource),
      vkl_bake_source v .VERTEX 0 = some (si, src) →
      src.arr.data ≠ [] →
      (∀ p ∈ ps, p.source_type = .VERTEX → p.source_idx = 0 →
        0 < dtype_size p.dtype ∧ p.arr_orig.data ≠ [] ∧
        p.arr_orig.item_count ≤ src.arr.item_count) →
      bake_copy_loop dtype_size ps v =
        .ok (v.set_source si { src with arr := copy_columns dtype_size ps src.arr })
  | [], v, si, src, h, _, _ => by
    have := set_get_self v.sources si src (find_entry_some _ _ _ _ h).1
    simp [bake_copy_loop, copy_columns, VklVisual.set_source, this]
  | p :: ps, v, si, src, h, hdata, hall => by
    unfold bake_copy_loop copy_columns
    by_cases hp : p.source_type = .VERTEX ∧ p.source_idx = 0
    · rw [if_pos hp, if_pos hp]
      obtain ⟨hsz, hpd, hle⟩ := hall p (List.mem_cons_self _ _) hp.1 hp.2
      have hcopy : vkl_bake_prop_copy dtype_size v p 1 =
          .ok (v.set_source si
            { src with
                arr := (vkl_array_column src.arr p.offset (dtype_size p.dtype) 0
                  p.arr_orig.item_count p.arr_orig.item_count p.arr_orig.data) }) := by
        unfold vkl_bake_prop_copy
        rw [hp.1, hp.2]
        simp only [h]
        rw [if_neg (by simp; omega), if_neg hpd, if_neg hdata, if_neg (by simpa using hle)]
      rw [hcopy]
      simp only [Res.bind]
      have hcnt := column_item_count src.arr p.offset (dtype_size p.dtype) 0
        p.arr_orig.item_count p.arr_orig.item_count p.arr_orig.data
      rw [bake_copy_loop_ok dtype_size ps _ si _ (bake_source_set v .VERTEX 0 si src _ h)]
      · simp [set_source_set_source]
      · intro hnil
        apply hdata
        have : (vkl_array_column src.arr p.offset (dtype_size p.dtype) 0
            p.arr_orig.item_count p.arr_orig.item_count p.arr_orig.data).item_count = 0 :=
          List.length_eq_zero.mpr hnil
        rw [hcnt] at this
        exact List.length_eq_zero.mp this
      · intro q hq h1 h2
        obtain ⟨a1, a2, a3⟩ := hall q (List.mem_cons_of_mem _ hq) h1 h2
        exact ⟨a1, a2, by simpa [hcnt] using a3⟩
    · rw [if_neg hp, if_neg hp]
      exact bake_copy_loop_ok dtype_size ps v si src h hdata
        fun q hq => hall q (List.mem_cons_of_mem _ hq)

/-- The default bake on a visual whose vertex Source has origin `LIB` and a
created array, and whose Props of source kind VERTEX all hold `n > 0` staged
items: it returns, with the vertex count `n`, the index count 0 and the array
of the vertex Source resized and filled by the column writes. -/
theorem default_bake_ok (dtype_size : VklDataType → Nat) (w : VklVisual) (si : Nat)
    (src : VklSource) (n : Nat)
    (hsrc : vkl_bake_source w .VERTEX 0 = some (si, src)) (ho : src.origin = .LIB)
    (hcr : src.arr.created = true) (hn : 0 < n)
    (hex : ∃ p ∈ w.props, p.source_type = .VERTEX)
    (hall : ∀ p ∈ w.props, p.source_type = .VERTEX → p.arr_orig.item_count = n)
    (hsize : ∀ p ∈ w.props, p.source_type = .VERTEX → p.source_idx = 0 →
      0 < dtype_size p.dtype) :
    _default_visual_bake dtype_size w =
      .ok (VklVisual.set_source { w with vertex_count := n, index_count := 0 } si
        { src with arr := copy_columns dtype_size w.props (vkl_array_resize src.arr n) }) := by
  unfold _default_visual_bake
  simp only [hsrc]
  rw [if_neg (by simp [ho])]
  rw [bake_item_count_agree w.props n hn hall hex]
  simp only
  rw [if_neg (by simp [hcr])]
  have hfound := bake_source_set { w with vertex_count := n, index_count := 0 } .VERTEX 0 si src
    (vkl_array_resize src.arr n) hsrc
  have hcount : (vkl_array_resize src.arr n).item_count = max src.arr.item_count n :=
    resize_item_count src.arr n
  rw [bake_copy_loop_ok dtype_size _ _ si _ hfound]
  · simp [VklVisual.set_source]
  · intro hnil
    have : (vkl_array_resize src.arr n).item_count = 0 := List.length_eq_zero.mpr hnil
    rw [hcount] at this
    have := Nat.le_max_right src.arr.item_count n
    omega
  · intro p hp h1 h2
    have hp' : p ∈ w.props := hp
    refine ⟨hsize p hp' h1 h2, ?_, ?_⟩
    · intro hnil
      have := hall p hp' h1
      have h0 : p.arr_orig.item_count = 0 := List.length_eq_zero.mpr hnil
      omega
    · show p.arr_orig.item_count ≤ (vkl_array_resize src.arr n).item_count
      rw [hcount, hall p hp' h1]
      exact Nat.le_max_right _ _

theorem update_default_ok (dtype_size : VklDataType → Nat)
    (user : Nat → VklVisual → Res VklVisual) (v w w' : VklVisual)
    (htr : run_callback dtype_size user v.callback_transform v = .ok w)
    (hbake : w.callback_bake = .default_bake)
    (h : _default_visual_bake dtype_size w = .ok w') :
    vkl_visual_update dtype_size user v = .ok (upload_and_refresh w') := by
  rw [update_default_eq dtype_size user v w htr hbake, h]
  rfl

/-- C2 (amended). Default-bake item count: let `w` be the visual the bake
stage receives (`v` itself when no transform callback is installed) and the
bake be the default bake. When the vertex Source (VERTEX, 0) has origin `LIB`
and a created array, at least one Prop has source kind VERTEX, every Prop of
source kind VERTEX (whatever its source index) holds `n > 0` staged items and
those that feed index 0 have a positive element size, the update returns, the
vertex count is `n`, the index count is 0 and the array of the vertex Source
keeps its item size and holds the larger of `n` and the number of items it
held: exactly `n` items, `n * item_size` bytes, when it held at most `n`. -/
theorem default_bake_item_count (dtype_size : VklDataType → Nat)
    (user : Nat → VklVisual → Res VklVisual) (v w : VklVisual) (si : Nat) (src : VklSource)
    (n : Nat)
    (htr : run_callback dtype_size user v.callback_transform v = .ok w)
    (hbake : w.callback_bake = .default_bake)
    (hsrc : vkl_bake_source w .VERTEX 0 = some (si, src)) (ho : src.origin = .LIB)
    (hcr : src.arr.created = true) (hn : 0 < n)
    (hex : ∃ p ∈ w.props, p.source_type = .VERTEX)
    (hall : ∀ p ∈ w.props, p.source_type = .VERTEX → p.arr_orig.item_count = n)
    (hsize : ∀ p ∈ w.props, p.source_type = .VERTEX → p.source_idx = 0 →
      0 < dtype_size p.dtype) :
    ∃ u s', vkl_visual_update dtype_size user v = .ok u ∧
      u.visual.vertex_count = n ∧ u.visual.index_count = 0 ∧
      vkl_bake_source u.visual .VERTEX 0 = some (si, s') ∧
      s'.arr.item_size = src.arr.item_size ∧
      s'.arr.item_count = max src.arr.item_count n ∧
      (src.arr.item_count ≤ n →
        s'.arr.item_count = n ∧ s'.arr.byte_size = n * src.arr.item_size) := by
  have hb := default_bake_ok dtype_size w si src n hsrc ho hcr hn hex hall hsize
  have hu := update_default_ok dtype_size user v w _ htr hbake hb
  obtain ⟨h1, h2, -⟩ := copy_columns_item_count dtype_size w.props (vkl_array_resize src.arr n)
  have hcount : (copy_columns dtype_size w.props (vkl_array_resize src.arr n)).item_count =
      max src.arr.item_count n := by
    rw [h1, resize_item_count]
  have hsz : (copy_columns dtype_size w.props (vkl_array_resize src.arr n)).item_size =
      src.arr.item_size := by
    rw [h2, resize_item_size]
  refine ⟨_, { src with arr := copy_columns dtype_size w.props (vkl_array_resize src.arr n) },
    hu, rfl, rfl, ?_, hsz, hcount, ?_⟩
  · exact bake_source_set { w with vertex_count := n, index_count := 0 } .VERTEX 0 si src _ hsrc
  · intro hle
    have hc : (copy_columns dtype_size w.props (vkl_array_resize src.arr n)).item_count = n := by
      rw [hcount]
      exact Nat.max_eq_right hle
    exact ⟨hc, by simp only [VklArray.byte_size, hc, hsz]⟩

theorem default_bake_item_count_witness :
    vkl_bake_source scatter_staged .VERTEX 0 =
      some (0, { pipeline := .GRAPHICS, pipeline_idx := 0, source_type := .VERTEX,
                 source_idx := 0, slot_idx := 0, arr := vkl_array_struct 0 16, origin := .LIB,
                 u := .zero }) ∧
    (∀ p ∈ scatter_staged.props, p.source_type = .VERTEX → p.arr_orig.item_count = 2) ∧
    ∃ u s', vkl_visual_update example_dtype_size example_user scatter_staged = .ok u ∧
      u.visual.vertex_count = 2 ∧ u.visual.index_count = 0 ∧
      vkl_bake_source u.visual .VERTEX 0 = some (0, s') ∧
      s'.arr.item_size = 16 ∧ s'.arr.item_count = 2 ∧ s'.arr.byte_size = 2 * 16 :=
  have h := default_bake_item_count example_dtype_size example_user scatter_staged
    scatter_staged 0
    { pipeline := .GRAPHICS, pipeline_idx := 0, source_type := .VERTEX, source_idx := 0,
      slot_idx := 0, arr := vkl_array_struct 0 16, origin := .LIB, u := .zero }
    2 rfl rfl (by decide) rfl rfl (by decide) (by decide) (by decide) (by decide)
  ⟨by decide, by decide,
   h.elim fun u hu => hu.elim fun s' hs =>
     ⟨u, s', hs.1, hs.2.1, hs.2.2.1, hs.2.2.2.1, hs.2.2.2.2.1,
      (hs.2.2.2.2.2.2 (by decide)).1, (hs.2.2.2.2.2.2 (by decide)).2⟩⟩

/-- C2, as stated, fails. In a visual with two vertex Sources the Props that
feed (VERTEX, 0) both hold two staged items and that Source has origin `LIB`,
yet the update stops on the item-count check of line 91, because the check
also compares the Prop that feeds (VERTEX, 1), which holds three; the vertex
count stays 0 and the array of (VERTEX, 0) stays empty. With a Prop of element
size 0 the update stops on the assertion of line 523. When the array of the
vertex Source already holds three items, the update returns with the vertex
count 2 and an array of three items, not two. -/
theorem default_bake_second_vertex_source :
    ((vkl_bake_source two_vertex_buffers .VERTEX 0).map (fun e => e.2.origin) = some .LIB ∧
      (two_vertex_buffers.props.filter fun p =>
          decide (p.source_type = .VERTEX ∧ p.source_idx = 0)).map
        (fun p => p.arr_orig.item_count) = [2, 2] ∧
      vkl_visual_update example_dtype_size example_user two_vertex_buffers =
        .abort (.assert_failed 91) two_vertex_buffers ∧
      two_vertex_buffers.vertex_count = 0 ∧
      two_vertex_buffers.sources.map (fun s => s.arr.item_count) = [0, 0]) ∧
    (scatter_zero_size.props.map
        (fun p => (p.source_idx, example_dtype_size p.dtype, p.arr_orig.item_count)) =
        [(0, 0, 2), (0, 12, 2)] ∧
      ∃ w', vkl_visual_update example_dtype_size example_user scatter_zero_size =
        .abort (.assert_failed 523) w') ∧
    (scatter_preallocated.props.map (fun p => p.arr_orig.item_count) = [2, 2] ∧
      scatter_preallocated.sources.map (fun s => (s.origin, s.arr.item_count)) = [(.LIB, 3)] ∧
      ∃ u, vkl_visual_update example_dtype_size example_user scatter_preallocated = .ok u ∧
        u.visual.vertex_count = 2 ∧
        u.visual.sources.map (fun s => s.arr.item_count) = [3]) :=
  ⟨⟨by decide, by decide, rfl, by decide, by decide⟩,
   ⟨by decide, ⟨_, rfl⟩⟩,
   ⟨by decide, by decide, ⟨_, rfl, by decide, by decide⟩⟩⟩

/-! ## The bytes written by the column copies -/

theorem byte_eq (a : VklArray) (i b : Nat) :
    a.byte i b = ((a.data[i]?).getD []).getD b 0 := by
  simp [VklArray.byte, List.getD_eq_getElem?_getD]

theorem item_at_lt (data : List Item) (n i : Nat) (h : i < n) :
    item_at data n i = data.getD i [] := by
  unfold item_at
  rw [Nat.min_eq_left (by omega)]

/-- A column write sets the bytes of its field, in the items it covers. -/
theorem column_byte_written (a : VklArray) (off cs n : Nat) (data : List Item) (i b : Nat)
    (hi : i < n) (hia : i < a.item_count) (h1 : off ≤ b) (h2 : b < off + cs)
    (h3 : b < a.item_size) :
    (vkl_array_column a off cs 0 n n data).byte i b = (data.getD i []).getD (b - off) 0 := by
  have hlt : i < a.data.length := hia
  rw [byte_eq, column_getElem?, List.getElem?_eq_getElem hlt]
  simp only [Option.map_some', Option.getD_some, Nat.zero_le, Nat.zero_add, hi, and_self, if_true]
  rw [List.getD_eq_getElem?_getD, write_field_getElem? _ _ _ _ _ b h3]
  simp [h1, h2, item_at_lt data n i hi]

/-- A column write keeps every byte outside its field. -/
theorem column_byte_kept (a : VklArray) (off cs n : Nat) (data : List Item) (i b : Nat)
    (h3 : b < a.item_size) (hout : ¬ (off ≤ b ∧ b < off + cs)) :
    (vkl_array_column a off cs 0 n n data).byte i b = a.byte i b := by
  rw [byte_eq, byte_eq, column_getElem?]
  cases hd : a.data[i]? with
  | none => rfl
  | some old =>
    simp only [Option.map_some', Option.getD_some]
    split_ifs
    · rw [List.getD_eq_getElem?_getD, write_field_getElem? _ _ _ _ _ b h3]
      simp [hout, List.getD_eq_getElem?_getD]
    · rfl

/-- The column writes keep every byte that lies in no field of a Prop feeding
the vertex Source. -/
theorem copy_columns_byte_kept (dtype_size : VklDataType → Nat) :
    ∀ (ps : List VklProp) (a : VklArray) (i b : Nat), b < a.item_size →
      (∀ q ∈ ps, q.source_type = .VERTEX → q.source_idx = 0 →
        ¬ (q.offset ≤ b ∧ b < q.offset + dtype_size q.dtype)) →
      (copy_columns dtype_size ps a).byte i b = a.byte i b
  | [], _, _, _, _, _ => rfl
  | p :: ps, a, i, b, hb, hout => by
    unfold copy_columns
    by_cases hp : p.source_type = .VERTEX ∧ p.source_idx = 0
    · rw [if_pos hp]
      rw [copy_columns_byte_kept dtype_size ps _ i b (by simpa [column_item_size] using hb)
        fun q hq => hout q (List.mem_cons_of_mem _ hq)]
      exact column_byte_kept a _ _ _ _ i b hb (hout p (List.mem_cons_self _ _) hp.1 hp.2)
    · rw [if_neg hp]
      exact copy_columns_byte_kept dtype_size ps a i b hb
        fun q hq => hout q (List.mem_cons_of_mem _ hq)

/-- After the column writes, the field of every Prop that feeds the vertex
Source holds, in every item the Prop has staged, the bytes of the staged
item, provided the fields lie inside the item and do not overlap. -/
theorem copy_columns_bytes (dtype_size : VklDataType → Nat) :
    ∀ (ps : List VklProp) (a : VklArray),
      ps.Pairwise (fun p q => p.feeds_vertex → q.feeds_vertex → fields_disjoint dtype_size p q) →
      (∀ p ∈ ps, p.feeds_vertex →
        p.offset + dtype_size p.dtype ≤ a.item_size ∧ p.arr_orig.item_count ≤ a.item_count) →
      ∀ p ∈ ps, p.feeds_vertex → ∀ i j, i < p.arr_orig.item_count → j < dtype_size p.dtype →
        (copy_columns dtype_size ps a).byte i (p.offset + j) = p.arr_orig.byte i j
  | [], _, _, _, p, hp, _, _, _, _, _ => by simp at hp
  | q :: ps, a, hpw, hin, p, hp, hfeed, i, j, hi, hj => by
    rw [List.pairwise_cons] at hpw
    unfold copy_columns
    by_cases hq : q.source_type = .VERTEX ∧ q.source_idx = 0
    · rw [if_pos hq]
      have hin' : ∀ r ∈ ps, r.feeds_vertex →
          r.offset + dtype_size r.dtype ≤
            (vkl_array_column a q.offset (dtype_size q.dtype) 0 q.arr_orig.item_count
              q.arr_orig.item_count q.arr_orig.data).item_size ∧
          r.arr_orig.item_count ≤
            (vkl_array_column a q.offset (dtype_size q.dtype) 0 q.arr_orig.item_count
              q.arr_orig.item_count q.arr_orig.data).item_count := by
        intro r hr hfr
        rw [column_item_count, column_item_size]
        exact hin r (List.mem_cons_of_mem _ hr) hfr
      by_cases hmem : p ∈ ps
      · exact copy_columns_bytes dtype_size ps _ hpw.2 hin' p hmem hfeed i j hi hj
      · have hpq : p = q := by
          rcases List.mem_cons.mp hp with h | h
          · exact h
          · exact absurd h hmem
        subst hpq
        obtain ⟨hfit, hcnt⟩ := hin p (List.mem_cons_self _ _) hfeed
        rw [copy_columns_byte_kept dtype_size ps _ i (p.offset + j)
          (by rw [column_item_size]; omega)]
        · rw [column_byte_written a _ _ _ _ i (p.offset + j) hi (by omega) (by omega) (by omega)
            (by omega)]
          simp [VklArray.byte]
        · intro r hr hr1 hr2
          have hd := hpw.1 r hr hfeed ⟨hr1, hr2⟩
          unfold fields_disjoint at hd
          omega
    · rw [if_neg hq]
      have hmem : p ∈ ps := by
        rcases List.mem_cons.mp hp with h | h
        · subst h
          exact absurd hfeed hq
        · exact h
      exact copy_columns_bytes dtype_size ps a hpw.2
        (fun r hr => hin r (List.mem_cons_of_mem _ hr)) p hmem hfeed i j hi hj

/-- After the column writes, every item covered by a Prop that feeds the
vertex Source has exactly `item_size` bytes. -/
theorem copy_columns_item_length (dtype_size : VklDataType → Nat) :
    ∀ (ps : List VklProp) (a : VklArray) (i : Nat) (item : Item),
      (copy_columns dtype_size ps a).data[i]? = some item →
      ((∀ old, a.data[i]? = some old → old.length = a.item_size) ∨
        ∃ p ∈ ps, p.feeds_vertex ∧ i < p.arr_orig.item_count) →
      item.length = a.item_size
  | [], a, i, item, h, hor => by
    rcases hor with h1 | ⟨p, hp, -⟩
    · exact h1 item h
    · simp at hp
  | q :: ps, a, i, item, h, hor => by
    unfold copy_columns at h
    by_cases hq : q.source_type = .VERTEX ∧ q.source_idx = 0
    · rw [if_pos hq] at h
      have := copy_columns_item_length dtype_size ps _ i item h
      rw [column_item_size] at this
      apply this
      by_cases hcov : i < q.arr_orig.item_count
      · left
        intro old hold
        rw [column_getElem?] at hold
        cases hd : a.data[i]? with
        | none => simp [hd] at hold
        | some x =>
          simp only [hd, Option.map_some', Nat.zero_le, Nat.zero_add, hcov, and_self, if_true,
            Option.some.injEq] at hold
          rw [← hold, write_field_length]
      · rcases hor with h1 | ⟨p, hp, hf, hi⟩
        · left
          intro old hold
          rw [column_getElem?] at hold
          cases hd : a.data[i]? with
          | none => simp [hd] at hold
          | some x =>
            simp only [hd, Option.map_some', Nat.zero_le, Nat.zero_add, hcov, and_false,
              if_false, Option.some.injEq] at hold
            rw [← hold]
            exact h1 x hd
        · right
          rcases List.mem_cons.mp hp with rfl | hp'
          · exact absurd hi hcov
          · exact ⟨p, hp', hf, hi⟩
    · rw [if_neg hq] at h
      apply copy_columns_item_length dtype_size ps a i item h
      rcases hor with h1 | ⟨p, hp, hf, hi⟩
      · exact Or.inl h1
      · right
        rcases List.mem_cons.mp hp with rfl | hp'
        · exact absurd hf hq
        · exact ⟨p, hp', hf, hi⟩

theorem getElem?_of_getD {α : Type} (l : List α) (k : Nat) (d : α) (h : k < l.length) :
    l[k]? = some (l.getD k d) := by
  rw [List.getElem?_eq_getElem h, List.getD_eq_getElem _ _ h]

/-- The packing statement for one Prop that feeds the vertex Source, on the
array built by the column writes. -/
theorem copy_columns_packs (dtype_size : VklDataType → Nat) (props : List VklProp)
    (arr : VklArray) (n : Nat) (p : VklProp)
    (hrc : n ≤ arr.item_count)
    (hall : ∀ q ∈ props, q.source_type = .VERTEX → q.arr_orig.item_count = n)
    (hfit : ∀ q ∈ props, q.feeds_vertex → q.offset + dtype_size q.dtype ≤ arr.item_size)
    (hdis : props.Pairwise
      (fun q r => q.feeds_vertex → r.feeds_vertex → fields_disjoint dtype_size q r))
    (hp : p ∈ props) (hfeed : p.feeds_vertex) (i : Nat) (hi : i < n) :
    ∃ item x, (copy_columns dtype_size props arr).data[i]? = some item ∧
      p.arr_orig.data[i]? = some x ∧
      item.length = arr.item_size ∧
      (∀ j, j < dtype_size p.dtype → item[p.offset + j]? = some (x.getD j 0)) ∧
      (x.length = dtype_size p.dtype → (item.drop p.offset).take (dtype_size p.dtype) = x) := by
  obtain ⟨h1, -, -⟩ := copy_columns_item_count dtype_size props arr
  have hpc : p.arr_orig.item_count = n := hall p hp hfeed.1
  have hli : i < (copy_columns dtype_size props arr).data.length := by
    simp only [VklArray.item_count] at h1 hrc
    omega
  have hlx : i < p.arr_orig.data.length := by
    simp only [VklArray.item_count] at hpc
    omega
  have hlen := copy_columns_item_length dtype_size props arr i _
    (List.getElem?_eq_getElem hli) (Or.inr ⟨p, hp, hfeed, by omega⟩)
  have hbytes := copy_columns_bytes dtype_size props arr hdis
    (fun q hq hf => ⟨hfit q hq hf, by rw [hall q hq hf.1]; exact hrc⟩) p hp hfeed i
  have hfitp := hfit p hp hfeed
  refine ⟨_, _, List.getElem?_eq_getElem hli, List.getElem?_eq_getElem hlx, hlen, ?_, ?_⟩
  · intro j hj
    have hb' := hbytes j (by omega) hj
    simp only [VklArray.byte, List.getD_eq_getElem _ _ hli, List.getD_eq_getElem _ _ hlx] at hb'
    rw [getElem?_of_getD _ _ 0 (by omega), hb']
  · intro hxl
    apply List.ext_getElem?
    intro j
    rw [List.getElem?_take]
    by_cases hj : j < dtype_size p.dtype
    · have hb' := hbytes j (by omega) hj
      simp only [VklArray.byte, List.getD_eq_getElem _ _ hli, List.getD_eq_getElem _ _ hlx]
        at hb'
      rw [if_pos hj, List.getElem?_drop, getElem?_of_getD _ _ 0 (by omega), hb',
        getElem?_of_getD _ _ 0 (by omega)]
    · rw [if_neg hj, List.getElem?_eq_none (by omega)]

/-- C1 (amended). Packing correctness of the default bake: let `w` be the
visual the bake stage receives (`v` itself when no transform callback is
installed) and the bake be the default bake. Let the vertex Source
(VERTEX, 0) have origin `LIB`, a created array and item size `S`, let every
Prop of source kind VERTEX (whatever its source index) hold `n > 0` staged
items, and let the Props that feed (VERTEX, 0), of which there is at least
one, have a positive element size and fields that lie inside `[0, S)` and are
pairwise disjoint. Then the update returns and, for every Prop `p` that feeds
(VERTEX, 0) and every `i < n`, item `i` of the Source array has `S` bytes and
its bytes at `[offset, offset + element size)` are the bytes of item `i`
staged in `p`. In particular, with `S = 16`, a position Prop of 12 bytes at
offset 0 and a color Prop of 4 bytes at offset 12, item `i` of the Source
array is the staged position `i` followed by the staged color `i`. -/
theorem default_bake_packs (dtype_size : VklDataType → Nat)
    (user : Nat → VklVisual → Res VklVisual) (v w : VklVisual) (si : Nat) (src : VklSource)
    (n : Nat)
    (htr : run_callback dtype_size user v.callback_transform v = .ok w)
    (hbake : w.callback_bake = .default_bake)
    (hsrc : vkl_bake_source w .VERTEX 0 = some (si, src)) (ho : src.origin = .LIB)
    (hcr : src.arr.created = true) (hn : 0 < n)
    (hall : ∀ q ∈ w.props, q.source_type = .VERTEX → q.arr_orig.item_count = n)
    (hex : ∃ q ∈ w.props, q.feeds_vertex)
    (hsize : ∀ q ∈ w.props, q.feeds_vertex → 0 < dtype_size q.dtype)
    (hfit : ∀ q ∈ w.props, q.feeds_vertex → q.offset + dtype_size q.dtype ≤ src.arr.item_size)
    (hdis : w.props.Pairwise
      (fun q r => q.feeds_vertex → r.feeds_vertex → fields_disjoint dtype_size q r)) :
    ∃ u s', vkl_visual_update dtype_size user v = .ok u ∧
      vkl_bake_source u.visual .VERTEX 0 = some (si, s') ∧
      (∀ p ∈ w.props, p.feeds_vertex → ∀ i, i < n →
        ∃ item x, s'.arr.data[i]? = some item ∧ p.arr_orig.data[i]? = some x ∧
          item.length = src.arr.item_size ∧
          (∀ j, j < dtype_size p.dtype → item[p.offset + j]? = some (x.getD j 0)) ∧
          (x.length = dtype_size p.dtype →
            (item.drop p.offset).take (dtype_size p.dtype) = x)) ∧
      (src.arr.item_size = 16 →
        ∀ pos ∈ w.props, ∀ col ∈ w.props, pos.feeds_vertex → col.feeds_vertex →
          pos.offset = 0 → dtype_size pos.dtype = 12 →
          col.offset = 12 → dtype_size col.dtype = 4 →
          ∀ i, i < n → ∃ item xp xc, s'.arr.data[i]? = some item ∧
            pos.arr_orig.data[i]? = some xp ∧ col.arr_orig.data[i]? = some xc ∧
            (xp.length = 12 → xc.length = 4 → item = xp ++ xc)) := by
  obtain ⟨q0, hq0, hf0⟩ := hex
  have hb := default_bake_ok dtype_size w si src n hsrc ho hcr hn ⟨q0, hq0, hf0.1⟩ hall
    (fun q hq h1 h2 => hsize q hq ⟨h1, h2⟩)
  have hu := update_default_ok dtype_size user v w _ htr hbake hb
  have hrs : (vkl_array_resize src.arr n).item_size = src.arr.item_size := resize_item_size _ _
  have hrc : n ≤ (vkl_array_resize src.arr n).item_count := by
    rw [resize_item_count]
    exact Nat.le_max_right _ _
  have hpack : ∀ p ∈ w.props, p.feeds_vertex → ∀ i, i < n →
      ∃ item x, (copy_columns dtype_size w.props (vkl_array_resize src.arr n)).data[i]? =
          some item ∧ p.arr_orig.data[i]? = some x ∧
        item.length = src.arr.item_size ∧
        (∀ j, j < dtype_size p.dtype → item[p.offset + j]? = some (x.getD j 0)) ∧
        (x.length = dtype_size p.dtype →
          (item.drop p.offset).take (dtype_size p.dtype) = x) := by
    intro p hp hfeed i hi
    have := copy_columns_packs dtype_size w.props (vkl_array_resize src.arr n) n p hrc hall
      (fun q hq hf => by rw [hrs]; exact hfit q hq hf) hdis hp hfeed i hi
    rwa [hrs] at this
  refine ⟨_, { src with arr := copy_columns dtype_size w.props (vkl_array_resize src.arr n) },
    hu, ?_, hpack, ?_⟩
  · exact bake_source_set { w with vertex_count := n, index_count := 0 } .VERTEX 0 si src _ hsrc
  · intro hS pos hpos col hcol hfp hfc hpo hps hco hcs i hi
    obtain ⟨item, xp, hitem, hxp, hlen, -, htp⟩ := hpack pos hpos hfp i hi
    obtain ⟨item', xc, hitem', hxc, -, -, htc⟩ := hpack col hcol hfc i hi
    have heq : item' = item := by
      rw [hitem] at hitem'
      exact (Option.some.inj hitem').symm
    subst heq
    refine ⟨item', xp, xc, hitem, hxp, hxc, ?_⟩
    intro hlp hlc
    have h1 := htp (by rw [hlp, hps])
    have h2 := htc (by rw [hlc, hcs])
    rw [hpo, hps, List.drop_zero] at h1
    rw [hco, hcs] at h2
    have hdl : (item'.drop 12).length = 4 := by
      rw [List.length_drop, hlen, hS]
    have h3 : (item'.drop 12).take 4 = item'.drop 12 := List.take_of_length_le (by omega)
    rw [h3] at h2
    rw [← h1, ← h2]
    exact (List.take_append_drop 12 item').symm

theorem default_bake_packs_witness :
    vkl_bake_source scatter_staged .VERTEX 0 =
      some (0, { pipeline := .GRAPHICS, pipeline_idx := 0, source_type := .VERTEX,
                 source_idx := 0, slot_idx := 0, arr := vkl_array_struct 0 16, origin := .LIB,
                 u := .zero }) ∧
    scatter_staged.props.map
        (fun p => (p.offset, example_dtype_size p.dtype, p.arr_orig.data)) =
      [(0, 12, [[1, 1, 1, 1, 1, 1, 1, 1, 1, 1, 1, 1], [2, 2, 2, 2, 2, 2, 2, 2, 2, 2, 2, 2]]),
       (12, 4, [[7, 7, 7, 7], [8, 8, 8, 8]])] ∧
    (∃ u s', vkl_visual_update example_dtype_size example_user scatter_staged = .ok u ∧
      vkl_bake_source u.visual .VERTEX 0 = some (0, s') ∧
      ∀ p ∈ scatter_staged.props, p.feeds_vertex → ∀ i, i < 2 →
        ∃ item x, s'.arr.data[i]? = some item ∧ p.arr_orig.data[i]? = some x ∧
          item.length = 16 ∧
          (∀ j, j < example_dtype_size p.dtype → item[p.offset + j]? = some (x.getD j 0)) ∧
          (x.length = example_dtype_size p.dtype →
            (item.drop p.offset).take (example_dtype_size p.dtype) = x)) ∧
    (update_state (vkl_visual_update example_dtype_size example_user scatter_staged)).sources.map
        (fun s => s.arr.data) =
      [[[1, 1, 1, 1, 1, 1, 1, 1, 1, 1, 1, 1] ++ [7, 7, 7, 7],
        [2, 2, 2, 2, 2, 2, 2, 2, 2, 2, 2, 2] ++ [8, 8, 8, 8]]] :=
  have h := default_bake_packs example_dtype_size example_user scatter_staged scatter_staged 0
     { pipeline := .GRAPHICS, pipeline_idx := 0, source_type := .VERTEX, source_idx := 0,
       slot_idx := 0, arr := vkl_array_struct 0 16, origin := .LIB, u := .zero }
     2 rfl rfl (by decide) rfl rfl (by decide) (by decide) (by decide) (by decide) (by decide)
     (by decide)
  ⟨by decide, by decide,
   h.elim fun u hu => hu.elim fun s' hs => ⟨u, s', hs.1, hs.2.1, hs.2.2.1⟩,
   by decide⟩

/-- C1, as stated, fails. The scatter visual is given one more declared Prop,
which feeds a second vertex Source (VERTEX, 1). After `vkl_visual_data` with
two items on each of the two Props that feed (VERTEX, 0), whose fields
`[0, 12)` and `[12, 16)` are disjoint and inside the 16-byte item, the update
stops on the item-count check of line 91: the Source array holds no item, so
no byte of it equals a staged item. With a Prop of element size 0 declared
before the position Prop the update stops on the assertion of line 523,
before the position is copied: the 12 bytes of item 0 at offset 0 are zero,
not the staged position. -/
theorem default_bake_packs_counterexample :
    (∃ v1 v2,
      vkl_visual_data scatter_extra_prop .POS 0 2
        [[1, 1, 1, 1, 1, 1, 1, 1, 1, 1, 1, 1], [2, 2, 2, 2, 2, 2, 2, 2, 2, 2, 2, 2]] = .ok v1 ∧
      vkl_visual_data v1 .COLOR 0 2 [[7, 7, 7, 7], [8, 8, 8, 8]] = .ok v2 ∧
      (v2.props.filter fun p => decide (p.source_type = .VERTEX ∧ p.source_idx = 0)).map
        (fun p => (p.offset, example_dtype_size p.dtype, p.arr_orig.item_count)) =
        [(0, 12, 2), (12, 4, 2)] ∧
      vkl_visual_update example_dtype_size example_user v2 = .abort (.assert_failed 91) v2 ∧
      v2.sources.map (fun s => (s.origin, s.arr.item_size, s.arr.data)) = [(.LIB, 16, [])]) ∧
    (scatter_zero_size.props.map
        (fun p => (p.offset, example_dtype_size p.dtype, p.arr_orig.data)) =
        [(12, 0, [[], []]),
         (0, 12, [[1, 1, 1, 1, 1, 1, 1, 1, 1, 1, 1, 1], [2, 2, 2, 2, 2, 2, 2, 2, 2, 2, 2, 2]])] ∧
      ∃ w', vkl_visual_update example_dtype_size example_user scatter_zero_size =
          .abort (.assert_failed 523) w' ∧
        w'.sources.map (fun s => s.arr.data.map fun item => item.take 12) =
          [[[0, 0, 0, 0, 0, 0, 0, 0, 0, 0, 0, 0], [0, 0, 0, 0, 0, 0, 0, 0, 0, 0, 0, 0]]]) :=
  ⟨⟨_, _, rfl, rfl, by decide, rfl, by decide⟩, ⟨by decide, ⟨_, rfl, by decide⟩⟩⟩

/-! ## Declarations and lookups -/

theorem find_entry_append_some {α : Type} (p : α → Bool) :
    ∀ (l l' : List α) (e : Nat × α), find_entry p l = some e → find_entry p (l ++ l') = some e
  | [], _, _, h => by simp [find_entry] at h
  | a :: l, l', e, h => by
    by_cases ha : p a = true
    · simp only [find_entry, ha, if_true] at h
      simp [find_entry, ha, h]
    · simp only [find_entry, ha, Bool.false_eq_true, if_false, Option.map_eq_some'] at h
      obtain ⟨e0, he0, rfl⟩ := h
      simp [find_entry, ha, find_entry_append_some p l l' e0 he0]

theorem find_entry_append_none {α : Type} (p : α → Bool) :
    ∀ (l l' : List α), find_entry p l = none →
      find_entry p (l ++ l') = (find_entry p l').map fun e => (e.1 + l.length, e.2)
  | [], l', _ => by simp
  | a :: l, l', h => by
    by_cases ha : p a = true
    · simp [find_entry, ha] at h
    · simp only [find_entry, ha, Bool.false_eq_true, if_false, Option.map_eq_none'] at h
      have ih := find_entry_append_none p l l' h
      rw [List.cons_append]
      show (if p a = true then some (0, a)
          else (find_entry p (l ++ l')).map fun e => (e.1 + 1, e.2)) = _
      rw [if_neg ha, ih, Option.map_map]
      congr 1

/-- The scan returns the first position whose entry satisfies the predicate. -/
theorem find_entry_first {α : Type} (p : α → Bool) :
    ∀ (l : List α) (i : Nat) (x : α), l[i]? = some x → p x = true →
      (∀ j y, j < i → l[j]? = some y → p y = false) → find_entry p l = some (i, x)
  | [], i, x, h, _, _ => by simp at h
  | a :: l, 0, x, h, hp, _ => by
    simp at h
    subst h
    simp [find_entry, hp]
  | a :: l, i + 1, x, h, hp, hall => by
    have ha : p a = false := hall 0 a (by omega) (by simp)
    have ih := find_entry_first p l i x (by simpa using h) hp
      (fun j y hj hy => hall (j + 1) y (by omega) (by simpa using hy))
    simp [find_entry, ha, ih]

theorem find_entry_some_iff {α : Type} (p : α → Bool) (l : List α) (i : Nat) (x : α) :
    find_entry p l = some (i, x) ↔
      l[i]? = some x ∧ p x = true ∧ ∀ j y, j < i → l[j]? = some y → p y = false :=
  ⟨find_entry_some p l i x, fun h => find_entry_first p l i x h.1 h.2.1 h.2.2⟩

/-- C11. Postcondition of `vkl_visual_source`: on a visual with fewer than 256
Sources and no Source with the key `(source, source_idx)`, the call returns;
the source count grows by exactly one, every Source already in the table is
unchanged, nothing else in the visual changes, and afterwards the lookup of
the key returns the new entry, at the end of the table, with the given
pipeline, pipeline index and slot, an array of 0 items with the given item
size, and origin `NONE`. -/
theorem declare_source_post (v : VklVisual) (source : VklSourceType) (source_idx : Nat)
    (pipeline : VklPipelineType) (pipeline_idx slot_idx item_size : Nat)
    (hc : v.source_count < VKL_MAX_VISUAL_SOURCES)
    (hn : ∀ s ∈ v.sources, ¬ (s.source_type = source ∧ s.source_idx = source_idx)) :
    ∃ v' s', vkl_visual_source v source source_idx pipeline pipeline_idx slot_idx item_size =
        .ok v' ∧
      v'.source_count = v.source_count + 1 ∧
      (∀ i, i < v.source_count → v'.sources[i]? = v.sources[i]?) ∧
      v' = { v with sources := v'.sources } ∧
      vkl_bake_source v' source source_idx = some (v.source_count, s') ∧
      s'.pipeline = pipeline ∧ s'.pipeline_idx = pipeline_idx ∧ s'.slot_idx = slot_idx ∧
      s'.arr.item_count = 0 ∧ s'.arr.item_size = item_size ∧ s'.origin = .NONE := by
  have hnone : vkl_bake_source v source source_idx = none := by
    apply (find_entry_none _ _).mpr
    intro s hs
    simpa using hn s hs
  have heq : vkl_visual_source v source source_idx pipeline pipeline_idx slot_idx item_size =
      .ok { v with
              sources := v.sources ++
                [{ pipeline := pipeline
                   pipeline_idx := pipeline_idx
                   source_type := source
                   source_idx := source_idx
                   slot_idx := slot_idx
                   arr := vkl_array_struct 0 item_size
                   origin := .NONE
                   u := .zero }] } := by
    simp only [vkl_visual_source, hc, not_true_eq_false, if_false, hnone, Option.isSome_none,
      Bool.false_eq_true]
  refine ⟨_, ⟨pipeline, pipeline_idx, source, source_idx, slot_idx, vkl_array_struct 0 item_size,
    .NONE, .zero⟩, heq, ?_, ?_, rfl, ?_, rfl, rfl, rfl, ?_, rfl, rfl⟩
  · simp [VklVisual.source_count]
  · intro i hi
    exact List.getElem?_append_left hi
  · simp only [vkl_bake_source]
    rw [find_entry_append_none _ _ _ hnone]
    simp [find_entry, VklVisual.source_count]
  · simp [vkl_array_struct, VklArray.item_count]

theorem declare_source_post_witness :
    scatter_declared.source_count = 1 ∧
    ∃ v' s', vkl_visual_source scatter_declared .UNIFORM 0 .COMPUTE 3 2 64 = .ok v' ∧
      v'.source_count = 2 ∧
      (∀ i, i < 1 → v'.sources[i]? = scatter_declared.sources[i]?) ∧
      vkl_bake_source v' .UNIFORM 0 = some (1, s') ∧
      s'.pipeline = .COMPUTE ∧ s'.pipeline_idx = 3 ∧ s'.slot_idx = 2 ∧
      s'.arr.item_count = 0 ∧ s'.arr.item_size = 64 ∧ s'.origin = .NONE :=
  have h := declare_source_post scatter_declared .UNIFORM 0 .COMPUTE 3 2 64 (by decide)
    (by decide)
  ⟨by decide,
   h.elim fun v' hv => hv.elim fun s' hs =>
     ⟨v', s', hs.1, hs.2.1, hs.2.2.1, hs.2.2.2.2.1, hs.2.2.2.2.2⟩⟩

/-- C12. Lookup correctness: `vkl_bake_source` returns not-found exactly when
no Source of the table has the kind and index asked for, and otherwise the
entry of the smallest position whose kind and index both match;
`vkl_bake_prop` does the same over the Prop table. Both lookups are functions
of the visual that yield a position and an entry or not-found: they have a
result for every visual and every key, and write nothing. -/
theorem lookup_correct (v : VklVisual) (source_type : VklSourceType) (prop_type : VklPropType)
    (idx : Nat) :
    (vkl_bake_source v source_type idx = none ↔
      ∀ s ∈ v.sources, ¬ (s.source_type = source_type ∧ s.source_idx = idx)) ∧
    (∀ (i : Nat) (s : VklSource), vkl_bake_source v source_type idx = some (i, s) ↔
      v.sources[i]? = some s ∧ (s.source_type = source_type ∧ s.source_idx = idx) ∧
      ∀ (j : Nat) (s' : VklSource), j < i → v.sources[j]? = some s' →
        ¬ (s'.source_type = source_type ∧ s'.source_idx = idx)) ∧
    (vkl_bake_prop v prop_type idx = none ↔
      ∀ p ∈ v.props, ¬ (p.prop_type = prop_type ∧ p.prop_idx = idx)) ∧
    (∀ (i : Nat) (p : VklProp), vkl_bake_prop v prop_type idx = some (i, p) ↔
      v.props[i]? = some p ∧ (p.prop_type = prop_type ∧ p.prop_idx = idx) ∧
      ∀ (j : Nat) (p' : VklProp), j < i → v.props[j]? = some p' →
        ¬ (p'.prop_type = prop_type ∧ p'.prop_idx = idx)) := by
  refine ⟨?_, ?_, ?_, ?_⟩
  · simp only [vkl_bake_source, find_entry_none, decide_eq_false_iff_not]
  · intro i s
    simp only [vkl_bake_source, find_entry_some_iff, decide_eq_true_eq, decide_eq_false_iff_not]
  · simp only [vkl_bake_prop, find_entry_none, decide_eq_false_iff_not]
  · intro i p
    simp only [vkl_bake_prop, find_entry_some_iff, decide_eq_true_eq, decide_eq_false_iff_not]

/-- A data ingestion call leaves every Prop entry other than the one its
lookup finds as it was, whether it returns or stops. -/
theorem data_partial_other_props (v : VklVisual) (type : VklPropType) (idx : Nat)
    (f n dn : Nat) (data : List Item) (j : Nat)
    (hj : ∀ i p, vkl_bake_prop v type idx = some (i, p) → i ≠ j) :
    ( vkl_visual_data_partial v type idx f n dn data).state.props[j]? = v.props[j]? := by
  cases hp : vkl_bake_prop v type idx with
  | none => simp [ vkl_visual_data_partial, hp, Res.state]
  | some e =>
    obtain ⟨pi, prop⟩ := e
    cases hs : vkl_bake_source v prop.source_type prop.source_idx with
    | none => simp [ vkl_visual_data_partial, hp, hs, Res.state]
    | some e2 =>
      obtain ⟨si, source⟩ := e2
      simp only [ vkl_visual_data_partial, hp, hs, Res.state, VklVisual.set_source,
        VklVisual.set_prop]
      rw [List.getElem?_set, if_neg (hj pi prop hp)]

/-- C13. `vkl_visual_prop` never replaces: on a visual with fewer than 256
Props the call returns and appends one Prop with the given kind, index,
source kind, source index, field index, element type and offset and two empty
arrays; the prop count grows by exactly one, every Prop already in the table
is unchanged and nothing else in the visual changes, also when a Prop with
the same kind and index exists. In that case the lookup of the kind and index
still returns the first-declared entry, and a data ingestion call for that
kind and index leaves the appended duplicate as it was declared. -/
theorem declare_prop_appends (v : VklVisual) (prop : VklPropType) (prop_idx : Nat)
    (source : VklSourceType) (source_idx field_idx : Nat) (dtype : VklDataType) (offset : Nat)
    (hc : v.prop_count < VKL_MAX_VISUAL_PROPS) :
    ∃ v' pr, vkl_visual_prop v prop prop_idx source source_idx field_idx dtype offset = .ok v' ∧
      pr = ⟨prop, prop_idx, source, source_idx, field_idx, dtype, offset, VklArray.zero,
        VklArray.zero⟩ ∧
      pr.arr_orig.item_count = 0 ∧ pr.arr_trans.item_count = 0 ∧
      v'.props = v.props ++ [pr] ∧
      v'.prop_count = v.prop_count + 1 ∧
      (∀ i, i < v.prop_count → v'.props[i]? = v.props[i]?) ∧
      v' = { v with props := v'.props } ∧
      ∀ (i : Nat) (p0 : VklProp), vkl_bake_prop v prop prop_idx = some (i, p0) →
        vkl_bake_prop v' prop prop_idx = some (i, p0) ∧ i < v.prop_count ∧
        ∀ (f n dn count : Nat) (data : List Item),
          ( vkl_visual_data_partial v' prop prop_idx f n dn data).state.props[v.prop_count]? =
            some pr ∧
          (vkl_visual_data v' prop prop_idx count data).state.props[v.prop_count]? = some pr := by
  have heq : vkl_visual_prop v prop prop_idx source source_idx field_idx dtype offset =
      .ok { v with
              props := v.props ++
                [⟨prop, prop_idx, source, source_idx, field_idx, dtype, offset, VklArray.zero,
                  VklArray.zero⟩] } := by
    simp only [vkl_visual_prop, hc, not_true_eq_false, if_false]
  refine ⟨_, _, heq, rfl, rfl, rfl, rfl, ?_, ?_, rfl, ?_⟩
  · simp [VklVisual.prop_count]
  · intro i hi
    exact List.getElem?_append_left hi
  · intro i p0 h0
    have hlt : i < v.props.length := (List.getElem?_eq_some.mp (find_entry_some _ _ _ _ h0).1).1
    have hfound : vkl_bake_prop
        { v with
            props := v.props ++
              [⟨prop, prop_idx, source, source_idx, field_idx, dtype, offset, VklArray.zero,
                VklArray.zero⟩] } prop prop_idx = some (i, p0) :=
      find_entry_append_some _ _ _ _ h0
    have hlast : (v.props ++
        [(⟨prop, prop_idx, source, source_idx, field_idx, dtype, offset, VklArray.zero,
          VklArray.zero⟩ : VklProp)])[v.prop_count]? =
        some ⟨prop, prop_idx, source, source_idx, field_idx, dtype, offset, VklArray.zero,
          VklArray.zero⟩ := by
      simp [VklVisual.prop_count]
    have hne : ∀ i' p', vkl_bake_prop
        { v with
            props := v.props ++
              [⟨prop, prop_idx, source, source_idx, field_idx, dtype, offset, VklArray.zero,
                VklArray.zero⟩] } prop prop_idx = some (i', p') → i' ≠ v.prop_count := by
      intro i' p' h'
      rw [hfound] at h'
      simp only [Option.some.injEq, Prod.mk.injEq] at h'
      simp only [VklVisual.prop_count]
      omega
    refine ⟨hfound, hlt, ?_⟩
    intro f n dn count data
    constructor
    · rw [data_partial_other_props _ _ _ _ _ _ _ _ hne]
      exact hlast
    · unfold vkl_visual_data
      rw [data_partial_other_props _ _ _ _ _ _ _ _ hne]
      exact hlast

theorem declare_prop_appends_witness :
    scatter_declared.prop_count = 2 ∧
    vkl_bake_prop scatter_declared .COLOR 0 =
      some (1, ⟨.COLOR, 0, .VERTEX, 0, 1, 4, 12, VklArray.zero, VklArray.zero⟩) ∧
    ∃ v', vkl_visual_prop scatter_declared .COLOR 0 .UNIFORM 3 5 16 8 = .ok v' ∧
      v'.props = scatter_declared.props ++
        [⟨.COLOR, 0, .UNIFORM, 3, 5, 16, 8, VklArray.zero, VklArray.zero⟩] ∧
      v'.prop_count = 3 ∧
      vkl_bake_prop v' .COLOR 0 =
        some (1, ⟨.COLOR, 0, .VERTEX, 0, 1, 4, 12, VklArray.zero, VklArray.zero⟩) ∧
      (vkl_visual_data v' .COLOR 0 2 [[7, 7, 7, 7], [8, 8, 8, 8]]).state.props[2]? =
        some ⟨.COLOR, 0, .UNIFORM, 3, 5, 16, 8, VklArray.zero, VklArray.zero⟩ :=
  have h := declare_prop_appends scatter_declared .COLOR 0 .UNIFORM 3 5 16 8 (by decide)
  ⟨by decide, by decide,
   h.elim fun v' hv => hv.elim fun pr hs =>
     have hpr := hs.2.1
     have hlook := hs.2.2.2.2.2.2.2.2 1
       ⟨.COLOR, 0, .VERTEX, 0, 1, 4, 12, VklArray.zero, VklArray.zero⟩ (by decide)
     ⟨v', hs.1, hpr ▸ hs.2.2.2.2.1, hs.2.2.2.2.2.1, hlook.1,
      hpr ▸ (hlook.2.2 0 0 0 2 [[7, 7, 7, 7], [8, 8, 8, 8]]).2⟩⟩

/-! ## A visual with full tables -/

theorem declare_sources_spec :
    ∀ n, n ≤ 256 →
      (declare_sources n vkl_visual).sources.length = n ∧
      (∀ s ∈ (declare_sources n vkl_visual).sources, s.source_idx < n) ∧
      declare_sources n vkl_visual =
        { vkl_visual with sources := (declare_sources n vkl_visual).sources }
  | 0, _ => ⟨rfl, by simp [declare_sources, vkl_visual], rfl⟩
  | n + 1, hn => by
    obtain ⟨h1, h2, h3⟩ := declare_sources_spec n (by omega)
    have hnone : vkl_bake_source (declare_sources n vkl_visual) .UNIFORM n = none := by
      apply (find_entry_none _ _).mpr
      intro s hs
      have := h2 s hs
      simp only [decide_eq_false_iff_not, not_and]
      intro _
      omega
    have heq : declare_sources (n + 1) vkl_visual =
        { declare_sources n vkl_visual with
            sources := (declare_sources n vkl_visual).sources ++
              [⟨.GRAPHICS, 0, .UNIFORM, n, n, vkl_array_struct 0 16, .NONE, .zero⟩] } := by
      have hlt : (declare_sources n vkl_visual).source_count < VKL_MAX_VISUAL_SOURCES := by
        simp only [VklVisual.source_count, VKL_MAX_VISUAL_SOURCES, h1]
        omega
      simp only [declare_sources, vkl_visual_source, hlt, not_true_eq_false, if_false, hnone,
        Option.isSome_none, Bool.false_eq_true, Res.state]
    refine ⟨?_, ?_, ?_⟩
    · rw [heq]
      simp [h1]
    · rw [heq]
      intro s hs
      simp only [List.mem_append, List.mem_singleton] at hs
      rcases hs with hs | rfl
      · have := h2 s hs
        omega
      · simp
    · rw [heq, h3]

theorem declare_props_spec :
    ∀ (n : Nat) (v : VklVisual), v.props.length + n ≤ 256 →
      (declare_props n v).props.length = v.props.length + n ∧
      declare_props n v = { v with props := (declare_props n v).props }
  | 0, _, _ => ⟨rfl, rfl⟩
  | n + 1, v, hn => by
    obtain ⟨h1, h2⟩ := declare_props_spec n v (by omega)
    have heq : declare_props (n + 1) v =
        { declare_props n v with
            props := (declare_props n v).props ++
              [⟨.POS, n, .UNIFORM, n, 0, 4, 0, VklArray.zero, VklArray.zero⟩] } := by
      have hlt : (declare_props n v).prop_count < VKL_MAX_VISUAL_PROPS := by
        simp only [VklVisual.prop_count, VKL_MAX_VISUAL_PROPS, h1]
        omega
      simp only [declare_props, vkl_visual_prop, hlt, not_true_eq_false, if_false, Res.state]
    refine ⟨?_, ?_⟩
    · rw [heq]
      simp only [List.length_append, h1, List.length_singleton]
      omega
    · rw [heq, h2]

theorem attach_pipelines_spec :
    ∀ (n : Nat) (v : VklVisual), v.graphics_count + n ≤ 256 → v.compute_count + n ≤ 256 →
      (attach_pipelines n v).graphics_count = v.graphics_count + n ∧
      (attach_pipelines n v).compute_count = v.compute_count + n ∧
      (attach_pipelines n v).sources = v.sources ∧ (attach_pipelines n v).props = v.props
  | 0, _, _, _ => ⟨rfl, rfl, rfl, rfl⟩
  | n + 1, v, hg, hc => by
    obtain ⟨h1, h2, h3, h4⟩ := attach_pipelines_spec n v (by omega) (by omega)
    have hg' : ¬ (attach_pipelines n v).graphics_count ≥ VKL_MAX_GRAPHICS_PER_VISUAL := by
      simp only [VKL_MAX_GRAPHICS_PER_VISUAL, h1]
      omega
    have hc' : ¬ (attach_pipelines n v).compute_count ≥ VKL_MAX_COMPUTES_PER_VISUAL := by
      simp only [VKL_MAX_COMPUTES_PER_VISUAL, h2]
      omega
    have hgr : vkl_visual_graphics (attach_pipelines n v) (some { id := n, created := true }) =
        .ok { attach_pipelines n v with
                graphics := Function.update (attach_pipelines n v).graphics
                  (attach_pipelines n v).graphics_count (some { id := n, created := true })
                bindings := Function.update (attach_pipelines n v).bindings
                  (attach_pipelines n v).graphics_count (vkl_bindings { id := n, created := true })
                graphics_count := (attach_pipelines n v).graphics_count + 1 } := by
      simp [vkl_visual_graphics, hg']
    have heq : attach_pipelines (n + 1) v =
        { attach_pipelines n v with
            graphics := Function.update (attach_pipelines n v).graphics
              (attach_pipelines n v).graphics_count (some { id := n, created := true })
            bindings := Function.update (attach_pipelines n v).bindings
              (attach_pipelines n v).graphics_count (vkl_bindings { id := n, created := true })
            graphics_count := (attach_pipelines n v).graphics_count + 1
            computes := Function.update (attach_pipelines n v).computes
              (attach_pipelines n v).compute_count (some { id := n, created := true })
            compute_count := (attach_pipelines n v).compute_count + 1 } := by
      show (vkl_visual_compute (vkl_visual_graphics (attach_pipelines n v)
        (some { id := n, created := true })).state (some { id := n, created := true })).state = _
      rw [hgr]
      simp [Res.state, vkl_visual_compute, hc']
    rw [heq]
    exact ⟨by simp only [h1]; omega, by simp only [h2]; omega, h3, h4⟩

theorem full_visual_counts :
    full_visual.source_count = 256 ∧ full_visual.prop_count = 256 ∧
    full_visual.graphics_count = 256 ∧ full_visual.compute_count = 256 := by
  obtain ⟨s1, -, s3⟩ := declare_sources_spec 256 (by omega)
  have hp0 : (declare_sources 256 vkl_visual).props = [] := by
    rw [s3]
    rfl
  obtain ⟨p1, p2⟩ := declare_props_spec 256 (declare_sources 256 vkl_visual)
    (by rw [hp0]; simp)
  have hg0 : (declare_props 256 (declare_sources 256 vkl_visual)).graphics_count = 0 := by
    rw [p2, s3]
    rfl
  have hc0 : (declare_props 256 (declare_sources 256 vkl_visual)).compute_count = 0 := by
    rw [p2, s3]
    rfl
  have hsrc : (declare_props 256 (declare_sources 256 vkl_visual)).sources =
      (declare_sources 256 vkl_visual).sources := by
    rw [p2]
  obtain ⟨a1, a2, a3, a4⟩ := attach_pipelines_spec 256
    (declare_props 256 (declare_sources 256 vkl_visual)) (by rw [hg0]) (by rw [hc0])
  refine ⟨?_, ?_, ?_, ?_⟩
  · simp only [full_visual, VklVisual.source_count, a3, hsrc, s1]
  · simp only [full_visual, VklVisual.prop_count, a4, p1, hp0, List.length_nil]
  · simp only [full_visual, a1, hg0]
  · simp only [full_visual, a2, hc0]

/-! ## User errors -/

/-- C14 (amended). Undeclared Prop: when no Prop of the visual has the kind
and index asked for, `vkl_visual_data` and `vkl_visual_data_partial` do not
return: the lookup misses (and logs the miss) and the call stops on the
`ASSERT(prop != NULL)` of line 287, before any write, so the visual (every
Prop array, every Source array and every origin) is left exactly as it was. -/
theorem set_data_undeclared_prop (v : VklVisual) (type : VklPropType) (idx : Nat)
    (f n dn count : Nat) (data : List Item)
    (h : ∀ p ∈ v.props, ¬ (p.prop_type = type ∧ p.prop_idx = idx)) :
     vkl_visual_data_partial v type idx f n dn data = .abort (.assert_failed 287) v ∧
    vkl_visual_data v type idx count data = .abort (.assert_failed 287) v := by
  have hnone : vkl_bake_prop v type idx = none := by
    apply (find_entry_none _ _).mpr
    intro p hp
    simpa using h p hp
  constructor
  · simp only [ vkl_visual_data_partial, hnone]
  · simp only [vkl_visual_data, vkl_visual_data_partial, hnone]

theorem set_data_undeclared_prop_witness :
    (∀ p ∈ scatter_declared.props, ¬ (p.prop_type = .TYPE ∧ p.prop_idx = 0)) ∧
     vkl_visual_data_partial scatter_declared .TYPE 0 5 3 3 [[1], [2], [3]] =
      .abort (.assert_failed 287) scatter_declared ∧
    vkl_visual_data scatter_declared .TYPE 0 3 [[1], [2], [3]] =
      .abort (.assert_failed 287) scatter_declared :=
  ⟨by decide,
   set_data_undeclared_prop scatter_declared .TYPE 0 5 3 3 3 [[1], [2], [3]] (by decide)⟩

/-- C14, as stated, fails. On the scatter visual, which declares no Prop
(TYPE, 0), `vkl_visual_data` and `vkl_visual_data_partial` for (TYPE, 0) do
not return normally: they stop on the assertion of line 287. -/
theorem set_data_undeclared_prop_aborts :
    vkl_bake_prop scatter_declared .TYPE 0 = none ∧
    (vkl_visual_data scatter_declared .TYPE 0 3 [[1], [2], [3]]).returned = false ∧
    ( vkl_visual_data_partial scatter_declared .TYPE 0 5 3 3 [[1], [2], [3]]).returned = false ∧
    vkl_visual_data scatter_declared .TYPE 0 3 [[1], [2], [3]] =
      .abort (.assert_failed 287) scatter_declared :=
  ⟨by decide, by decide, by decide, rfl⟩

/-- C15. Undeclared Source: when no Source of the visual has the kind and
index asked for, `vkl_visual_buffer`, `vkl_visual_buffer_partial` and
`vkl_visual_texture` return with the visual exactly as it was, whatever the
other arguments: no Source changes its resource or its origin and no Binding
Set is marked. -/
theorem bind_undeclared_source (v : VklVisual) (source : VklSourceType) (idx : Nat)
    (br : VklBufferRegions) (offset size : Nat) (texture : Option VklTexture)
    (h : ∀ s ∈ v.sources, ¬ (s.source_type = source ∧ s.source_idx = idx)) :
    vkl_visual_buffer v source idx br = .ok v ∧
     vkl_visual_buffer_partial v source idx br offset size = .ok v ∧
    vkl_visual_texture v source idx texture = .ok v := by
  have hnone : vkl_bake_source v source idx = none := by
    apply (find_entry_none _ _).mpr
    intro s hs
    simpa using h s hs
  refine ⟨?_, ?_, ?_⟩
  · simp only [vkl_visual_buffer, vkl_visual_buffer_partial, hnone]
  · simp only [ vkl_visual_buffer_partial, hnone]
  · simp only [vkl_visual_texture, hnone]

theorem bind_undeclared_source_witness :
    (∀ s ∈ scatter_declared.sources, ¬ (s.source_type = .UNIFORM ∧ s.source_idx = 1)) ∧
    vkl_visual_buffer scatter_declared .UNIFORM 1 { buffer := 7, size := 64, count := 1 } =
      .ok scatter_declared ∧
     vkl_visual_buffer_partial scatter_declared .UNIFORM 1 { buffer := 7, size := 64, count := 1 }
      16 32 = .ok scatter_declared ∧
    vkl_visual_texture scatter_declared .UNIFORM 1 (some { image := 3, sampler := 4 }) =
      .ok scatter_declared :=
  ⟨by decide,
   bind_undeclared_source scatter_declared .UNIFORM 1 { buffer := 7, size := 64, count := 1 }
     16 32 (some { image := 3, sampler := 4 }) (by decide)⟩

theorem declare_full_abort (v : VklVisual) (source : VklSourceType) (source_idx : Nat)
    (pipeline : VklPipelineType) (pipeline_idx slot_idx item_size : Nat)
    (prop : VklPropType) (prop_idx field_idx : Nat) (dtype : VklDataType) (offset : Nat) :
    (VKL_MAX_VISUAL_SOURCES ≤ v.source_count →
      vkl_visual_source v source source_idx pipeline pipeline_idx slot_idx item_size =
        .abort (.assert_failed 167) v) ∧
    (VKL_MAX_VISUAL_PROPS ≤ v.prop_count →
      vkl_visual_prop v prop prop_idx source source_idx field_idx dtype offset =
        .abort (.assert_failed 201) v) := by
  constructor
  · intro h
    have : ¬ v.source_count < VKL_MAX_VISUAL_SOURCES := by omega
    simp only [vkl_visual_source, this, not_false_eq_true, if_true]
  · intro h
    have : ¬ v.prop_count < VKL_MAX_VISUAL_PROPS := by omega
    simp only [vkl_visual_prop, this, not_false_eq_true, if_true]

/-- C16 (amended). Source and Prop capacity: on a visual that already holds
256 Sources `vkl_visual_source` does not return: it stops on the
`ASSERT(visual->source_count < VKL_MAX_VISUAL_SOURCES)` of line 167, before
any write, so the visual is left exactly as it was; likewise
`vkl_visual_prop` on a visual that already holds 256 Props stops on the
assertion of line 201 with the visual as it was. -/
theorem declare_at_capacity (v : VklVisual) (source : VklSourceType) (source_idx : Nat)
    (pipeline : VklPipelineType) (pipeline_idx slot_idx item_size : Nat)
    (prop : VklPropType) (prop_idx field_idx : Nat) (dtype : VklDataType) (offset : Nat) :
    (VKL_MAX_VISUAL_SOURCES ≤ v.source_count →
      vkl_visual_source v source source_idx pipeline pipeline_idx slot_idx item_size =
        .abort (.assert_failed 167) v) ∧
    (VKL_MAX_VISUAL_PROPS ≤ v.prop_count →
      vkl_visual_prop v prop prop_idx source source_idx field_idx dtype offset =
        .abort (.assert_failed 201) v) :=
  declare_full_abort v source source_idx pipeline pipeline_idx slot_idx item_size prop prop_idx
    field_idx dtype offset

theorem declare_at_capacity_witness :
    full_visual.source_count = 256 ∧ full_visual.prop_count = 256 ∧
    vkl_visual_source full_visual .VERTEX 0 .GRAPHICS 0 0 16 =
      .abort (.assert_failed 167) full_visual ∧
    vkl_visual_prop full_visual .COLOR 0 .VERTEX 0 1 4 12 =
      .abort (.assert_failed 201) full_visual :=
  have h := declare_at_capacity full_visual .VERTEX 0 .GRAPHICS 0 0 16 .COLOR 0 1 4 12
  ⟨full_visual_counts.1, full_visual_counts.2.1,
   h.1 (by rw [full_visual_counts.1]; decide), h.2 (by rw [full_visual_counts.2.1]; decide)⟩

/-- C16, as stated, fails. On the visual with 256 Sources and 256 Props,
declaring the Source (VERTEX, 0), which it does not hold, and declaring one
more Prop do not return normally: both calls stop on an assertion. -/
theorem declare_at_capacity_aborts :
    full_visual.source_count = 256 ∧ full_visual.prop_count = 256 ∧
    (vkl_visual_source full_visual .VERTEX 0 .GRAPHICS 0 0 16).returned = false ∧
    (vkl_visual_prop full_visual .COLOR 0 .VERTEX 0 1 4 12).returned = false := by
  have h := declare_full_abort full_visual .VERTEX 0 .GRAPHICS 0 0 16 .COLOR 0 1 4 12
  have h1 := h.1 (by rw [full_visual_counts.1]; decide)
  have h2 := h.2 (by rw [full_visual_counts.2.1]; decide)
  refine ⟨full_visual_counts.1, full_visual_counts.2.1, ?_, ?_⟩
  · rw [h1]
    rfl
  · rw [h2]
    rfl

/-- C17. Group and attachment capacity: `vkl_visual_group` with a group index
of 16384 or more, `vkl_visual_graphics` with a created pipeline on a visual
with 256 graphics attached and `vkl_visual_compute` with a created pipeline on
a visual with 256 computes attached each return with the visual exactly as it
was (group count and sizes, attachment counts, pipeline handles and Binding
Sets). Below the limit `vkl_visual_group` returns, stores the size at the
group index, sets the group count to the larger of the old count and the
index plus one, and changes no other group size and nothing else in the
visual. -/
theorem group_and_attachment_capacity (v : VklVisual) :
    (∀ group_idx size, VKL_MAX_VISUAL_GROUPS ≤ group_idx →
      vkl_visual_group v group_idx size = .ok v) ∧
    (∀ g : VklGraphics, g.created = true → VKL_MAX_GRAPHICS_PER_VISUAL ≤ v.graphics_count →
      vkl_visual_graphics v (some g) = .ok v) ∧
    (∀ c : VklCompute, c.created = true → VKL_MAX_COMPUTES_PER_VISUAL ≤ v.compute_count →
      vkl_visual_compute v (some c) = .ok v) ∧
    (∀ group_idx size, group_idx < VKL_MAX_VISUAL_GROUPS →
      ∃ v', vkl_visual_group v group_idx size = .ok v' ∧
        v'.group_sizes group_idx = size ∧
        v'.group_count = max v.group_count (group_idx + 1) ∧
        (∀ j, j ≠ group_idx → v'.group_sizes j = v.group_sizes j) ∧
        v' = { v with group_count := v'.group_count, group_sizes := v'.group_sizes }) := by
  refine ⟨?_, ?_, ?_, ?_⟩
  · intro group_idx size h
    simp only [vkl_visual_group, ge_iff_le, h, if_true]
  · intro g hg h
    simp only [vkl_visual_graphics, hg, not_true_eq_false, if_false, ge_iff_le, h, if_true]
  · intro c hc h
    simp only [vkl_visual_compute, hc, not_true_eq_false, if_false, ge_iff_le, h, if_true]
  · intro group_idx size h
    have hlt : ¬ group_idx ≥ VKL_MAX_VISUAL_GROUPS := by omega
    refine ⟨{ v with
        group_count := max v.group_count (group_idx + 1)
        group_sizes := Function.update v.group_sizes group_idx size }, ?_, ?_, rfl, ?_, rfl⟩
    · simp only [vkl_visual_group, hlt, if_false]
    · simp
    · intro j hj
      simp [Function.update_noteq hj]

theorem group_and_attachment_capacity_witness :
    full_visual.graphics_count = 256 ∧ full_visual.compute_count = 256 ∧
    vkl_visual_group full_visual 16384 5 = .ok full_visual ∧
    vkl_visual_graphics full_visual (some { id := 300, created := true }) = .ok full_visual ∧
    vkl_visual_compute full_visual (some { id := 300, created := true }) = .ok full_visual ∧
    ∃ v', vkl_visual_group full_visual 2 5 = .ok v' ∧
      v'.group_sizes 2 = 5 ∧
      v'.group_count = max full_visual.group_count (2 + 1) ∧
      (∀ j, j ≠ 2 → v'.group_sizes j = full_visual.group_sizes j) ∧
      v' = { full_visual with group_count := v'.group_count, group_sizes := v'.group_sizes } :=
  have h := group_and_attachment_capacity full_visual
  ⟨full_visual_counts.2.2.1, full_visual_counts.2.2.2,
   h.1 16384 5 (by decide),
   h.2.1 { id := 300, created := true } rfl (by rw [full_visual_counts.2.2.1]; decide),
   h.2.2.1 { id := 300, created := true } rfl (by rw [full_visual_counts.2.2.2]; decide),
   h.2.2.2 2 5 (by decide)⟩

/-! ## The refresh of the Binding Sets -/

theorem mem_refreshed (count : Nat) (bindings : Nat → VklBindings) (i : Nat) :
    i ∈ refreshed count bindings ↔ i < count ∧ (bindings i).status = .NEED_UPDATE := by
  simp [refreshed, List.mem_filter]

theorem refreshed_nodup (count : Nat) (bindings : Nat → VklBindings) :
    (refreshed count bindings).Nodup :=
  (List.nodup_range count).filter _

theorem refresh_bindings_hit (count : Nat) (bindings : Nat → VklBindings) (i : Nat)
    (h : i ∈ refreshed count bindings) :
    refresh_bindings count bindings i = vkl_bindings_update (bindings i) := by
  rw [mem_refreshed] at h
  simp only [refresh_bindings, h, and_self, if_true]

theorem refresh_bindings_miss (count : Nat) (bindings : Nat → VklBindings) (i : Nat)
    (h : i ∉ refreshed count bindings) :
    refresh_bindings count bindings i = bindings i := by
  rw [mem_refreshed] at h
  simp only [refresh_bindings, h, if_false]

theorem refresh_bindings_clear (count : Nat) (bindings : Nat → VklBindings) (i : Nat)
    (h : i < count) :
    (refresh_bindings count bindings i).status ≠ .NEED_UPDATE := by
  unfold refresh_bindings
  by_cases hd : (bindings i).status = .NEED_UPDATE
  · simp [h, hd, vkl_bindings_update]
  · simp [hd]

/-- An update that returns went through both callback stages and then through
the upload loop and the two refresh loops. -/
theorem update_ok_stages (dtype_size : VklDataType → Nat)
    (user : Nat → VklVisual → Res VklVisual) (v : VklVisual) (u : VklUpdate)
    (h : vkl_visual_update dtype_size user v = .ok u) :
    ∃ w1 w, run_callback dtype_size user v.callback_transform v = .ok w1 ∧
      run_callback dtype_size user w1.callback_bake w1 = .ok w ∧
      u = upload_and_refresh w := by
  unfold vkl_visual_update at h
  cases h1 : run_callback dtype_size user v.callback_transform v with
  | abort f w => simp [h1, Res.bind] at h
  | ok v1 =>
    cases h2 : run_callback dtype_size user v1.callback_bake v1 with
    | abort f w => simp [h1, h2, Res.bind] at h
    | ok v2 =>
      simp only [h1, h2, Res.bind, Res.ok.injEq] at h
      exact ⟨v1, v2, rfl, h2, h.symm⟩

/-- C19. Lazy binding refresh: when an update returns, let `w` be the visual
on entry to the refresh step (the visual the bake stage returned). The
graphics Binding Sets the update passes to `vkl_bindings_update` are, once
each, exactly those at a position below the graphics count whose status is
`NEED_UPDATE` in `w`; each of them is left as `vkl_bindings_update` returns
it, with the flag cleared; every other graphics Binding Set is left as it was
in `w`. The same holds of the compute Binding Sets and the compute count. -/
theorem lazy_binding_refresh (dtype_size : VklDataType → Nat)
    (user : Nat → VklVisual → Res VklVisual) (v : VklVisual) (u : VklUpdate)
    (h : vkl_visual_update dtype_size user v = .ok u) :
    ∃ w1 w, run_callback dtype_size user v.callback_transform v = .ok w1 ∧
      run_callback dtype_size user w1.callback_bake w1 = .ok w ∧
      u.visual.graphics_count = w.graphics_count ∧
      u.visual.compute_count = w.compute_count ∧
      (∀ i, i ∈ u.refreshed_graphics ↔
        i < w.graphics_count ∧ (w.bindings i).status = .NEED_UPDATE) ∧
      u.refreshed_graphics.Nodup ∧
      (∀ i ∈ u.refreshed_graphics,
        u.visual.bindings i = vkl_bindings_update (w.bindings i) ∧
        (u.visual.bindings i).status ≠ .NEED_UPDATE ∧
        (u.visual.bindings i).bound = (w.bindings i).bound) ∧
      (∀ i, i ∉ u.refreshed_graphics → u.visual.bindings i = w.bindings i) ∧
      (∀ i, i ∈ u.refreshed_compute ↔
        i < w.compute_count ∧ (w.bindings_comp i).status = .NEED_UPDATE) ∧
      u.refreshed_compute.Nodup ∧
      (∀ i ∈ u.refreshed_compute,
        u.visual.bindings_comp i = vkl_bindings_update (w.bindings_comp i) ∧
        (u.visual.bindings_comp i).status ≠ .NEED_UPDATE ∧
        (u.visual.bindings_comp i).bound = (w.bindings_comp i).bound) ∧
      (∀ i, i ∉ u.refreshed_compute → u.visual.bindings_comp i = w.bindings_comp i) := by
  obtain ⟨w1, w, h1, h2, rfl⟩ := update_ok_stages dtype_size user v u h
  refine ⟨w1, w, h1, h2, rfl, rfl, mem_refreshed _ _, refreshed_nodup _ _, ?_,
    fun i hi => refresh_bindings_miss _ _ i hi, mem_refreshed _ _, refreshed_nodup _ _, ?_,
    fun i hi => refresh_bindings_miss _ _ i hi⟩
  · intro i hi
    have hlt := ((mem_refreshed _ _ i).mp hi).1
    refine ⟨refresh_bindings_hit _ _ i hi, refresh_bindings_clear _ _ i hlt, ?_⟩
    show (refresh_bindings _ _ i).bound = _
    rw [refresh_bindings_hit _ _ i hi]
    rfl
  · intro i hi
    have hlt := ((mem_refreshed _ _ i).mp hi).1
    refine ⟨refresh_bindings_hit _ _ i hi, refresh_bindings_clear _ _ i hlt, ?_⟩
    show (refresh_bindings _ _ i).bound = _
    rw [refresh_bindings_hit _ _ i hi]
    rfl

theorem lazy_binding_refresh_witness :
    ∃ u, vkl_visual_update example_dtype_size example_user scatter_attached = .ok u ∧
      scatter_attached.graphics_count = 2 ∧
      (scatter_attached.bindings 0).status = .NEED_UPDATE ∧
      (scatter_attached.bindings 1).status = .CREATED ∧
      u.refreshed_graphics = [0] ∧ u.refreshed_compute = [] ∧
      (u.visual.bindings 0).status = .CREATED ∧
      u.visual.bindings 1 = scatter_attached.bindings 1 ∧
      ∃ w1 w, run_callback example_dtype_size example_user
          scatter_attached.callback_transform scatter_attached = .ok w1 ∧
        run_callback example_dtype_size example_user w1.callback_bake w1 = .ok w ∧
        (∀ i, i ∈ u.refreshed_graphics ↔
          i < w.graphics_count ∧ (w.bindings i).status = .NEED_UPDATE) ∧
        (∀ i, i ∉ u.refreshed_graphics → u.visual.bindings i = w.bindings i) :=
  ⟨_, rfl, by decide, by decide, by decide, by decide, by decide, by decide, rfl,
    (lazy_binding_refresh example_dtype_size example_user scatter_attached _ rfl).imp
      fun _ hw1 => hw1.imp fun _ hw => ⟨hw.1, hw.2.1, hw.2.2.2.2.1, hw.2.2.2.2.2.2.2.1⟩⟩

/-- C20, at the failing input. On every visual `vkl_visual_compute` leaves
the table of compute Binding Sets as it was. Attaching a created compute
pipeline to a fresh visual stores the pipeline at position 0 and raises the
compute count to 1, and the compute Binding Set at position 0 is still the
zeroed entry, with status `NONE`: it is not the Binding Set `vkl_bindings`
constructs, in a visual reachable by one call of the public interface. The
sibling `vkl_visual_graphics`, on the same visual, stores the
pipeline at position 0 and constructs the graphics Binding Set there. -/
theorem attach_compute_no_binding_set (v : VklVisual) (c : Option VklCompute) :
    (vkl_visual_compute v c).state.bindings_comp = v.bindings_comp ∧
    (∃ v', vkl_visual_compute vkl_visual (some { id := 1, created := true }) = .ok v' ∧
      v'.compute_count = 1 ∧ v'.computes 0 = some { id := 1, created := true } ∧
      v'.bindings_comp 0 = VklBindings.zero ∧
      (v'.bindings_comp 0).status = .NONE ∧
      v'.bindings_comp 0 ≠ vkl_bindings { id := 1, created := true } ∧
      Reachable example_dtype_size example_user v') ∧
    ∃ v', vkl_visual_graphics vkl_visual (some { id := 1, created := true }) = .ok v' ∧
      v'.graphics_count = 1 ∧ v'.graphics 0 = some { id := 1, created := true } ∧
      v'.bindings 0 = vkl_bindings { id := 1, created := true } ∧
      (v'.bindings 0).status = .CREATED := by
  refine ⟨?_, ⟨_, rfl, rfl, rfl, rfl, rfl, ?_, ?_⟩, ⟨_, rfl, rfl, rfl, rfl, rfl⟩⟩
  · unfold vkl_visual_compute
    cases c with
    | none => rfl
    | some c =>
      simp only
      split_ifs <;> rfl
  · intro h
    have := congrArg VklBindings.status h
    exact absurd this (by decide)
  · have h0 : Reachable example_dtype_size example_user vkl_visual := Reachable.init
    exact Reachable.step vkl_visual _ (.compute (some { id := 1, created := true })) h0
      (fun hc => by cases hc) rfl

/-! ## The copy loop writes the same bytes when it is run again -/

theorem mapIdx_mapIdx_items {α β γ : Type} (l : List α) (f : Nat → α → β) (g : Nat → β → γ) :
    (l.mapIdx f).mapIdx g = l.mapIdx fun k x => g k (f k x) := by
  apply List.ext_getElem?
  intro i
  simp only [List.getElem?_mapIdx, Option.map_map]
  rfl

theorem mapIdx_id_items {α : Type} (l : List α) : (l.mapIdx fun _ x => x) = l := by
  apply List.ext_getElem?
  intro i
  simp only [List.getElem?_mapIdx]
  cases l[i]? <;> rfl

theorem range_map_getD (S : Nat) (h : Nat → Nat) (b : Nat) (hb : b < S) :
    ((List.range S).map h).getD b 0 = h b := by
  simp [List.getD_eq_getElem?_getD, List.getElem?_map, List.getElem?_range hb]

theorem field_writer_idem (S : Nat) (f : Item → Item) (hf : field_writer S f) (x : Item) :
    f (f x) = f x := by
  rcases hf with rfl | ⟨sel, rfl⟩
  · rfl
  · apply List.map_congr_left
    intro b hb
    rw [range_map_getD S _ b (List.mem_range.mp hb)]
    cases sel b <;> rfl

theorem field_writer_comp (S : Nat) (f g : Item → Item) (hf : field_writer S f)
    (hg : field_writer S g) : field_writer S fun x => f (g x) := by
  rcases hf with rfl | ⟨self, rfl⟩
  · exact hg
  · rcases hg with rfl | ⟨selg, rfl⟩
    · exact Or.inr ⟨self, rfl⟩
    · refine Or.inr ⟨fun b => match self b with
        | some c => some c
        | none => selg b, ?_⟩
      funext x
      apply List.map_congr_left
      intro b hb
      rw [range_map_getD S _ b (List.mem_range.mp hb)]
      cases hs : self b <;> simp [hs]

theorem write_field_writer (S off cs : Nat) (value : Item) :
    field_writer S fun old => write_field S off cs old value := by
  refine Or.inr ⟨fun b => if off ≤ b ∧ b < off + cs then some (value.getD (b - off) 0) else none,
    ?_⟩
  funext old
  unfold write_field
  apply List.map_congr_left
  intro b _
  by_cases hb : off ≤ b ∧ b < off + cs <;> simp [hb]

/-- On arrays of item size `S` the copy loop of the default bake rewrites each
item on its own, by an item transformer that depends on the position of the
item and on the Props only. -/
theorem copy_columns_mapIdx (dtype_size : VklDataType → Nat) :
    ∀ (ps : List VklProp) (S : Nat), ∃ g : Nat → Item → Item,
      (∀ k, field_writer S (g k)) ∧
      ∀ a : VklArray, a.item_size = S →
        copy_columns dtype_size ps a = { a with data := a.data.mapIdx g }
  | [], S => by
    refine ⟨fun _ x => x, fun _ => Or.inl rfl, ?_⟩
    intro a _
    rw [mapIdx_id_items]
    rfl
  | p :: ps, S => by
    obtain ⟨g, hg, heq⟩ := copy_columns_mapIdx dtype_size ps S
    by_cases hp : p.source_type = .VERTEX ∧ p.source_idx = 0
    · refine ⟨fun k old => g k
          (if 0 ≤ k ∧ k < 0 + p.arr_orig.item_count
           then write_field S p.offset (dtype_size p.dtype) old
             (item_at p.arr_orig.data p.arr_orig.item_count (k - 0))
           else old), ?_, ?_⟩
      · intro k
        by_cases hk : 0 ≤ k ∧ k < 0 + p.arr_orig.item_count
        · simp only [hk, and_self, if_true]
          exact field_writer_comp S _ _ (hg k) (write_field_writer S _ _ _)
        · simp only [hk, if_false]
          exact hg k
      · intro a ha
        unfold copy_columns
        rw [if_pos hp, heq _ (by rw [column_item_size]; exact ha)]
        subst ha
        simp only [vkl_array_column, mapIdx_mapIdx_items]
    · refine ⟨g, hg, ?_⟩
      intro a ha
      unfold copy_columns
      rw [if_neg hp]
      exact heq a ha

theorem copy_columns_idem (dtype_size : VklDataType → Nat) (ps : List VklProp) (a : VklArray) :
    copy_columns dtype_size ps (copy_columns dtype_size ps a) = copy_columns dtype_size ps a := by
  obtain ⟨g, hg, heq⟩ := copy_columns_mapIdx dtype_size ps a.item_size
  rw [heq a rfl]
  have h2 := heq { a with data := a.data.mapIdx g } rfl
  rw [h2]
  simp only [mapIdx_mapIdx_items]
  congr 2
  funext k x
  exact field_writer_idem _ _ (hg k) x

theorem data_ne_nil_iff (a : VklArray) : a.data ≠ [] ↔ 0 < a.item_count := by
  unfold VklArray.item_count
  exact List.length_pos.symm

/-- One copy of the default bake returns exactly when the element size is
positive and the staged data of the Prop is not empty and fits the array of
the Source; it then writes the column. -/
theorem bake_prop_copy_iff (dtype_size : VklDataType → Nat) (v v' : VklVisual) (p : VklProp)
    (reps si : Nat) (src : VklSource)
    (h : vkl_bake_source v p.source_type p.source_idx = some (si, src)) :
    vkl_bake_prop_copy dtype_size v p reps = .ok v' ↔
      (0 < dtype_size p.dtype ∧ 0 < p.arr_orig.item_count ∧
        p.arr_orig.item_count ≤ src.arr.item_count) ∧
      v' = v.set_source si
        { src with
            arr := (vkl_array_column src.arr p.offset (dtype_size p.dtype) 0
              p.arr_orig.item_count p.arr_orig.item_count p.arr_orig.data) } := by
  unfold vkl_bake_prop_copy
  simp only [h]
  by_cases h1 : dtype_size p.dtype > 0
  · rw [if_neg (by simp; omega)]
    by_cases h2 : p.arr_orig.data = []
    · rw [if_pos h2]
      have : ¬ 0 < p.arr_orig.item_count := by
        rw [← data_ne_nil_iff]
        simp [h2]
      simp [this]
    · rw [if_neg h2]
      have hp0 : 0 < p.arr_orig.item_count := (data_ne_nil_iff _).mp h2
      by_cases h3 : src.arr.data = []
      · rw [if_pos h3]
        have : ¬ 0 < src.arr.item_count := by
          rw [← data_ne_nil_iff]
          simp [h3]
        have : ¬ p.arr_orig.item_count ≤ src.arr.item_count := by omega
        simp [this]
      · rw [if_neg h3]
        by_cases h4 : p.arr_orig.item_count ≤ src.arr.item_count
        · rw [if_neg (by simpa using h4)]
          simp only [Res.ok.injEq]
          constructor
          · intro e
            exact ⟨⟨h1, hp0, h4⟩, e.symm⟩
          · intro e
            exact e.2.symm
        · rw [if_pos (by simpa using h4)]
          simp [h4]
  · rw [if_pos (by simpa using h1)]
    have : ¬ 0 < dtype_size p.dtype := h1
    simp [this]

/-- The copy loop of the default bake returns exactly when every Prop it
copies has a positive element size and staged data that is not empty and fits
the array of the vertex Source; the array is then the one built by the column
writes. -/
theorem bake_copy_loop_iff (dtype_size : VklDataType → Nat) :
    ∀ (ps : List VklProp) (v v' : VklVisual) (si : Nat) (src : VklSource),
      vkl_bake_source v .VERTEX 0 = some (si, src) →
      (bake_copy_loop dtype_size ps v = .ok v' ↔
        (∀ p ∈ ps, p.source_type = .VERTEX → p.source_idx = 0 →
          0 < dtype_size p.dtype ∧ 0 < p.arr_orig.item_count ∧
          p.arr_orig.item_count ≤ src.arr.item_count) ∧
        v' = v.set_source si { src with arr := copy_columns dtype_size ps src.arr })
  | [], v, v', si, src, h => by
    have hself : v.set_source si { src with arr := src.arr } = v := by
      have := set_get_self v.sources si src (find_entry_some _ _ _ _ h).1
      simp [VklVisual.set_source, this]
    simp only [bake_copy_loop, copy_columns, Res.ok.injEq, List.not_mem_nil, false_implies,
      implies_true, true_and, hself]
    exact eq_comm
  | p :: ps, v, v', si, src, h => by
    unfold bake_copy_loop copy_columns
    by_cases hp : p.source_type = .VERTEX ∧ p.source_idx = 0
    · rw [if_pos hp, if_pos hp]
      have hsrc : vkl_bake_source v p.source_type p.source_idx = some (si, src) := by
        rw [hp.1, hp.2]; exact h
      have hcnt := column_item_count src.arr p.offset (dtype_size p.dtype) 0
        p.arr_orig.item_count p.arr_orig.item_count p.arr_orig.data
      cases hr : vkl_bake_prop_copy dtype_size v p 1 with
      | abort f w =>
        simp only [Res.bind]
        constructor
        · intro e
          cases e
        rintro ⟨hall, -⟩
        have hc := hall p (List.mem_cons_self _ _) hp.1 hp.2
        have := (bake_prop_copy_iff dtype_size v _ p 1 si src hsrc).mpr ⟨hc, rfl⟩
        rw [hr] at this
        cases this
      | ok v1 =>
        obtain ⟨hc, rfl⟩ := (bake_prop_copy_iff dtype_size v v1 p 1 si src hsrc).mp hr
        simp only [Res.bind]
        rw [bake_copy_loop_iff dtype_size ps _ v' si _ (bake_source_set v .VERTEX 0 si src _ h)]
        simp only [set_source_set_source, hcnt]
        constructor
        · rintro ⟨hall, e⟩
          refine ⟨?_, e⟩
          intro q hq
          rcases List.mem_cons.mp hq with rfl | hq'
          · intro _ _
            exact hc
          · exact hall q hq'
        · rintro ⟨hall, e⟩
          exact ⟨fun q hq => hall q (List.mem_cons_of_mem _ hq), e⟩
    · rw [if_neg hp, if_neg hp]
      rw [bake_copy_loop_iff dtype_size ps v v' si src h]
      constructor
      · rintro ⟨hall, e⟩
        refine ⟨?_, e⟩
        intro q hq
        rcases List.mem_cons.mp hq with rfl | hq'
        · intro h1 h2
          exact absurd ⟨h1, h2⟩ hp
        · exact hall q hq'
      · rintro ⟨hall, e⟩
        exact ⟨fun q hq => hall q (List.mem_cons_of_mem _ hq), e⟩

/-- The default bake on a visual whose vertex Source has origin `LIB` returns
exactly when the item counts of the Props of source kind VERTEX agree (on
`n`), the array of the vertex Source is created and every Prop copied passes
the checks of the copy; it then leaves the vertex count `n`, the index count
0 and the array of the vertex Source resized and filled by the column
writes. -/
theorem default_bake_iff (dtype_size : VklDataType → Nat) (w w' : VklVisual) (si : Nat)
    (src : VklSource) (hsrc : vkl_bake_source w .VERTEX 0 = some (si, src))
    (ho : src.origin = .LIB) :
    _default_visual_bake dtype_size w = .ok w' ↔
      ∃ n, bake_item_count w.props 0 = some n ∧ src.arr.created = true ∧
        (∀ p ∈ w.props, p.source_type = .VERTEX → p.source_idx = 0 →
          0 < dtype_size p.dtype ∧ 0 < p.arr_orig.item_count ∧
          p.arr_orig.item_count ≤ max src.arr.item_count n) ∧
        w' = VklVisual.set_source { w with vertex_count := n, index_count := 0 } si
          { src with arr := copy_columns dtype_size w.props (vkl_array_resize src.arr n) } := by
  unfold _default_visual_bake
  simp only [hsrc]
  rw [if_neg (by simp [ho])]
  cases hc : bake_item_count w.props 0 with
  | none => simp
  | some n =>
    simp only
    by_cases hcr : src.arr.created = true
    · rw [if_neg (by simp [hcr])]
      have hfound := bake_source_set { w with vertex_count := n, index_count := 0 } .VERTEX 0 si
        src (vkl_array_resize src.arr n) hsrc
      have hprops : (VklVisual.set_source { w with vertex_count := n, index_count := 0 } si
          { src with arr := vkl_array_resize src.arr n }).props = w.props := rfl
      rw [hprops, bake_copy_loop_iff dtype_size w.props _ w' si _ hfound]
      simp only [set_source_set_source, resize_item_count, Option.some.injEq]
      constructor
      · rintro ⟨hall, e⟩
        exact ⟨n, rfl, hcr, hall, e⟩
      · rintro ⟨m, rfl, -, hall, e⟩
        exact ⟨hall, e⟩
    · rw [if_pos (by simp [hcr])]
      constructor
      · intro e
        cases e
      · rintro ⟨m, -, h, -⟩
        exact absurd h hcr

theorem resize_noop (a : VklArray) (n : Nat) (h : n ≤ a.item_count) :
    vkl_array_resize a n = a := by
  unfold vkl_array_resize
  rw [if_pos h]

theorem bake_source_congr (x w : VklVisual) (h : x.sources = w.sources) (t : VklSourceType)
    (idx : Nat) : vkl_bake_source x t idx = vkl_bake_source w t idx := by
  unfold vkl_bake_source
  rw [h]

/-- A visual that has the Sources, the Props, the vertex count and the index
count a default bake has returned is left as it is by the default bake. -/
theorem default_bake_fixed (dtype_size : VklDataType → Nat) (w w' x : VklVisual)
    (h : _default_visual_bake dtype_size w = .ok w')
    (hs : x.sources = w'.sources) (hp : x.props = w'.props)
    (hv : x.vertex_count = w'.vertex_count) (hi : x.index_count = w'.index_count) :
    _default_visual_bake dtype_size x = .ok x := by
  cases hsrc : vkl_bake_source w .VERTEX 0 with
  | none => simp [_default_visual_bake, hsrc] at h
  | some e =>
    obtain ⟨si, src⟩ := e
    by_cases ho : src.origin = .LIB
    · obtain ⟨n, hn, hcr, hall, rfl⟩ := (default_bake_iff dtype_size w w' si src hsrc ho).mp h
      have hfound := bake_source_set { w with vertex_count := n, index_count := 0 } .VERTEX 0 si
        src (copy_columns dtype_size w.props (vkl_array_resize src.arr n)) hsrc
      rw [← bake_source_congr x _ hs] at hfound
      have hshape := copy_columns_item_count dtype_size w.props (vkl_array_resize src.arr n)
      have hcount : (copy_columns dtype_size w.props (vkl_array_resize src.arr n)).item_count =
          max src.arr.item_count n := by
        rw [hshape.1, resize_item_count]
      have hres : vkl_array_resize
          (copy_columns dtype_size w.props (vkl_array_resize src.arr n)) n =
          copy_columns dtype_size w.props (vkl_array_resize src.arr n) :=
        resize_noop _ n (by rw [hcount]; exact Nat.le_max_right _ _)
      have hxp : x.props = w.props := hp
      rw [default_bake_iff dtype_size x x si _ hfound ho]
      refine ⟨n, by rw [hxp]; exact hn, ?_, ?_, ?_⟩
      · show (copy_columns dtype_size w.props (vkl_array_resize src.arr n)).created = true
        rw [hshape.2.2, resize_created]
        exact hcr
      · intro p hpm h1 h2
        rw [hxp] at hpm
        obtain ⟨a1, a2, a3⟩ := hall p hpm h1 h2
        refine ⟨a1, a2, ?_⟩
        show p.arr_orig.item_count ≤
          max (copy_columns dtype_size w.props (vkl_array_resize src.arr n)).item_count n
        rw [hcount]
        exact Nat.le_trans a3 (Nat.le_max_left _ _)
      · show x = VklVisual.set_source { x with vertex_count := n, index_count := 0 } si
          { src with arr := copy_columns dtype_size x.props (vkl_array_resize
              (copy_columns dtype_size w.props (vkl_array_resize src.arr n)) n) }
        have hidem : copy_columns dtype_size x.props
            (copy_columns dtype_size w.props (vkl_array_resize src.arr n)) =
            copy_columns dtype_size w.props (vkl_array_resize src.arr n) := by
          rw [hxp, copy_columns_idem]
        rw [hres, hidem]
        have hvn : x.vertex_count = n := hv
        have hin : x.index_count = 0 := hi
        have hset : x.sources.set si
            { src with arr := copy_columns dtype_size w.props (vkl_array_resize src.arr n) } =
            x.sources := set_get_self _ _ _ (find_entry_some _ _ _ _ hfound).1
        simp only [VklVisual.set_source, hset]
        rw [← hvn, ← hin]
    · have hw := (default_bake_state dtype_size w si src hsrc).1 ho
      rw [hw] at h
      cases h
      rw [← bake_source_congr x _ hs] at hsrc
      exact (default_bake_state dtype_size x si src hsrc).1 ho

theorem refresh_bindings_idem (count : Nat) (bindings : Nat → VklBindings) :
    refresh_bindings count (refresh_bindings count bindings) = refresh_bindings count bindings := by
  funext i
  have hmiss : i ∉ refreshed count (refresh_bindings count bindings) := by
    rw [mem_refreshed]
    rintro ⟨hlt, hd⟩
    exact refresh_bindings_clear count bindings i hlt hd
  exact refresh_bindings_miss count _ i hmiss

theorem refreshed_after_refresh (count : Nat) (bindings : Nat → VklBindings) :
    refreshed count (refresh_bindings count bindings) = [] := by
  apply List.eq_nil_iff_forall_not_mem.mpr
  intro i hi
  rw [mem_refreshed] at hi
  exact refresh_bindings_clear count bindings i hi.1 hi.2

/-- A default bake that returns leaves the callbacks, the Props and the
attachment counts as they were. -/
theorem default_bake_ok_frame (dtype_size : VklDataType → Nat) (w w' : VklVisual)
    (h : _default_visual_bake dtype_size w = .ok w') :
    w'.callback_transform = w.callback_transform ∧ w'.callback_bake = w.callback_bake ∧
    w'.props = w.props ∧ w'.graphics_count = w.graphics_count ∧
    w'.compute_count = w.compute_count ∧ w'.bindings = w.bindings ∧
    w'.bindings_comp = w.bindings_comp := by
  cases hsrc : vkl_bake_source w .VERTEX 0 with
  | none => simp [_default_visual_bake, hsrc] at h
  | some e =>
    obtain ⟨si, src⟩ := e
    obtain ⟨a, vc, ic, hst⟩ := (default_bake_state dtype_size w si src hsrc).2
    rw [h] at hst
    simp only [Res.state] at hst
    subst hst
    exact ⟨rfl, rfl, rfl, rfl, rfl, rfl, rfl⟩

/-- C18. Idempotence of update: on a visual with no transform callback and
the default bake, when `vkl_visual_update` returns, a second
`vkl_visual_update` run at once on the visual it left returns too, and leaves
the same vertex count, index count and Source table (so the same Source
arrays, item counts and bytes), indeed the same visual, and issues the same
uploads. After the first call the status of every graphics Binding Set below
the graphics count and of every compute Binding Set below the compute count
is not `NEED_UPDATE`, and the second call passes no Binding Set to
`vkl_bindings_update`. -/
theorem update_idempotent (dtype_size : VklDataType → Nat)
    (user : Nat → VklVisual → Res VklVisual) (v : VklVisual) (u1 : VklUpdate)
    (ht : v.callback_transform = .NULL) (hb : v.callback_bake = .default_bake)
    (h : vkl_visual_update dtype_size user v = .ok u1) :
    ∃ u2, vkl_visual_update dtype_size user u1.visual = .ok u2 ∧
      u2.visual.vertex_count = u1.visual.vertex_count ∧
      u2.visual.index_count = u1.visual.index_count ∧
      u2.visual.sources = u1.visual.sources ∧
      u2.visual = u1.visual ∧
      u2.uploads = u1.uploads ∧
      (∀ i, i < u1.visual.graphics_count → (u1.visual.bindings i).status ≠ .NEED_UPDATE) ∧
      (∀ i, i < u1.visual.compute_count →
        (u1.visual.bindings_comp i).status ≠ .NEED_UPDATE) ∧
      u2.refreshed_graphics = [] ∧ u2.refreshed_compute = [] := by
  have htr : run_callback dtype_size user v.callback_transform v = .ok v := by
    rw [ht]
    rfl
  rw [update_default_eq dtype_size user v v htr hb] at h
  cases hbk : _default_visual_bake dtype_size v with
  | abort f w =>
    rw [hbk] at h
    cases h
  | ok w' =>
    rw [hbk] at h
    simp only [Res.bind, Res.ok.injEq] at h
    subst h
    obtain ⟨f1, f2, -, -, -, -, -⟩ := default_bake_ok_frame dtype_size v w' hbk
    have hfix : _default_visual_bake dtype_size (upload_and_refresh w').visual =
        .ok (upload_and_refresh w').visual :=
      default_bake_fixed dtype_size v w' _ hbk rfl rfl rfl rfl
    have htr2 : run_callback dtype_size user (upload_and_refresh w').visual.callback_transform
        (upload_and_refresh w').visual = .ok (upload_and_refresh w').visual := by
      have : (upload_and_refresh w').visual.callback_transform = .NULL := f1.trans ht
      rw [this]
      rfl
    have hb2 : (upload_and_refresh w').visual.callback_bake = .default_bake := f2.trans hb
    have h2 := update_default_ok dtype_size user _ _ _ htr2 hb2 hfix
    have hvis : (upload_and_refresh (upload_and_refresh w').visual).visual =
        (upload_and_refresh w').visual := by
      show ({ (upload_and_refresh w').visual with
        bindings := refresh_bindings w'.graphics_count
          (refresh_bindings w'.graphics_count w'.bindings)
        bindings_comp := refresh_bindings w'.compute_count
          (refresh_bindings w'.compute_count w'.bindings_comp) } : VklVisual) = _
      rw [refresh_bindings_idem, refresh_bindings_idem]
      rfl
    refine ⟨_, h2, rfl, rfl, rfl, hvis, rfl, ?_, ?_, ?_, ?_⟩
    · intro i hi
      exact refresh_bindings_clear _ _ i hi
    · intro i hi
      exact refresh_bindings_clear _ _ i hi
    · exact refreshed_after_refresh _ _
    · exact refreshed_after_refresh _ _

theorem update_idempotent_witness :
    scatter_attached.callback_transform = .NULL ∧
    scatter_attached.callback_bake = .default_bake ∧
    ∃ u1, vkl_visual_update example_dtype_size example_user scatter_attached = .ok u1 ∧
      u1.visual.vertex_count = 2 ∧ u1.refreshed_graphics = [0] ∧
      (u1.visual.sources.map fun s => s.arr.data) =
        [[[1, 1, 1, 1, 1, 1, 1, 1, 1, 1, 1, 1, 7, 7, 7, 7],
          [2, 2, 2, 2, 2, 2, 2, 2, 2, 2, 2, 2, 8, 8, 8, 8]], []] ∧
      ∃ u2, vkl_visual_update example_dtype_size example_user u1.visual = .ok u2 ∧
        u2.visual.vertex_count = u1.visual.vertex_count ∧
        u2.visual.index_count = u1.visual.index_count ∧
        u2.visual.sources = u1.visual.sources ∧
        u2.visual = u1.visual ∧
        u2.uploads = u1.uploads ∧
        (∀ i, i < u1.visual.graphics_count → (u1.visual.bindings i).status ≠ .NEED_UPDATE) ∧
        (∀ i, i < u1.visual.compute_count →
          (u1.visual.bindings_comp i).status ≠ .NEED_UPDATE) ∧
        u2.refreshed_graphics = [] ∧ u2.refreshed_compute = [] :=
  ⟨rfl, rfl, _, rfl, by decide, by decide, by decide,
    update_idempotent example_dtype_size example_user scatter_attached _ rfl rfl rfl⟩

/-! ## The largest staged item count of the Props of a Source -/

/-- The loop of `vkl_bake_max_prop_size` from the running maximum `acc`: the
result is at least `acc` and at least the staged item count of every Prop of
the Source, it is `acc` or the count of one of these Props, and it is the
result of the loop over the Props of the Source alone. -/
theorem max_prop_size_loop_spec (s : VklSource) :
    ∀ (ps : List VklProp) (acc : Nat),
      acc ≤ max_prop_size_loop s ps acc ∧
      (∀ p ∈ ps, p.source_type = s.source_type ∧ p.source_idx = s.source_idx →
        p.arr_orig.item_count ≤ max_prop_size_loop s ps acc) ∧
      (max_prop_size_loop s ps acc = acc ∨
        ∃ p ∈ ps, (p.source_type = s.source_type ∧ p.source_idx = s.source_idx) ∧
          p.arr_orig.item_count = max_prop_size_loop s ps acc) ∧
      max_prop_size_loop s ps acc =
        max_prop_size_loop s
          (ps.filter fun p =>
            decide (p.source_type = s.source_type ∧ p.source_idx = s.source_idx)) acc
  | [], acc => ⟨Nat.le_refl _, fun p hp => by simp at hp, Or.inl rfl, rfl⟩
  | q :: ps, acc => by
    by_cases hq : q.source_type = s.source_type ∧ q.source_idx = s.source_idx
    · obtain ⟨h1, h2, h3, h4⟩ := max_prop_size_loop_spec s ps (max acc q.arr_orig.item_count)
      have hstep : max_prop_size_loop s (q :: ps) acc =
          max_prop_size_loop s ps (max acc q.arr_orig.item_count) := by
        simp only [max_prop_size_loop, hq, and_self, if_true]
      rw [hstep]
      refine ⟨Nat.le_trans (Nat.le_max_left _ _) h1, ?_, ?_, ?_⟩
      · intro p hp hf
        rcases List.mem_cons.mp hp with rfl | hp'
        · exact Nat.le_trans (Nat.le_max_right _ _) h1
        · exact h2 p hp' hf
      · rcases h3 with h3 | ⟨p, hp, hf, he⟩
        · rcases Nat.le_total acc q.arr_orig.item_count with hle | hle
          · right
            refine ⟨q, List.mem_cons_self _ _, hq, ?_⟩
            rw [h3, Nat.max_eq_right hle]
          · left
            rw [h3, Nat.max_eq_left hle]
        · exact Or.inr ⟨p, List.mem_cons_of_mem _ hp, hf, he⟩
      · rw [h4]
        simp only [List.filter_cons, hq, and_self, decide_True, if_true, max_prop_size_loop]
    · obtain ⟨h1, h2, h3, h4⟩ := max_prop_size_loop_spec s ps acc
      have hstep : max_prop_size_loop s (q :: ps) acc = max_prop_size_loop s ps acc := by
        simp only [max_prop_size_loop, hq, if_false]
      rw [hstep]
      refine ⟨h1, ?_, ?_, ?_⟩
      · intro p hp hf
        rcases List.mem_cons.mp hp with rfl | hp'
        · exact absurd hf hq
        · exact h2 p hp' hf
      · rcases h3 with h3 | ⟨p, hp, hf, he⟩
        · exact Or.inl h3
        · exact Or.inr ⟨p, List.mem_cons_of_mem _ hp, hf, he⟩
      · rw [h4]
        simp only [List.filter_cons, hq, decide_False, Bool.false_eq_true, if_false]

/-- C21. The largest staged item count: when at least one Prop with the kind
and index of the Source holds a non-zero number of staged items,
`vkl_bake_max_prop_size` returns a value that is at least the staged item
count of every Prop of the Source and is the staged item count of one of
them, and that is the same on every visual with the same Props of the Source
(the Props of other Sources are ignored). When every Prop of the Source holds
no staged item, or the Source has no Prop, the call does not return: it stops
on the `ASSERT(item_count > 0)` of line 509. -/
theorem max_prop_size_correct (v : VklVisual) (s : VklSource) :
    ((∃ p ∈ v.props, (p.source_type = s.source_type ∧ p.source_idx = s.source_idx) ∧
        0 < p.arr_orig.item_count) →
      ∃ n, vkl_bake_max_prop_size v s = .ok n ∧
        (∀ p ∈ v.props, p.source_type = s.source_type ∧ p.source_idx = s.source_idx →
          p.arr_orig.item_count ≤ n) ∧
        (∃ p ∈ v.props, (p.source_type = s.source_type ∧ p.source_idx = s.source_idx) ∧
          p.arr_orig.item_count = n) ∧
        ∀ v' : VklVisual,
          (v'.props.filter fun p =>
              decide (p.source_type = s.source_type ∧ p.source_idx = s.source_idx)) =
            (v.props.filter fun p =>
              decide (p.source_type = s.source_type ∧ p.source_idx = s.source_idx)) →
          vkl_bake_max_prop_size v' s = .ok n) ∧
    ((∀ p ∈ v.props, p.source_type = s.source_type ∧ p.source_idx = s.source_idx →
        p.arr_orig.item_count = 0) →
      vkl_bake_max_prop_size v s = .abort (.assert_failed 509) v) := by
  obtain ⟨-, h2, h3, h4⟩ := max_prop_size_loop_spec s v.props 0
  constructor
  · rintro ⟨p, hp, hf, hpos⟩
    have hm : 0 < max_prop_size_loop s v.props 0 := Nat.lt_of_lt_of_le hpos (h2 p hp hf)
    have hret : ∀ v' : VklVisual, max_prop_size_loop s v'.props 0 =
        max_prop_size_loop s v.props 0 →
        vkl_bake_max_prop_size v' s = .ok (max_prop_size_loop s v.props 0) := by
      intro v' he
      unfold vkl_bake_max_prop_size
      simp only [he]
      rw [if_neg (by simp; omega)]
    refine ⟨_, hret v rfl, h2, ?_, ?_⟩
    · rcases h3 with h3 | h3
      · omega
      · exact h3
    · intro v' hv'
      apply hret
      rw [(max_prop_size_loop_spec s v'.props 0).2.2.2, hv', ← h4]
  · intro hall
    have hm : max_prop_size_loop s v.props 0 = 0 := by
      rcases h3 with h3 | ⟨p, hp, hf, he⟩
      · exact h3
      · rw [← he]
        exact hall p hp hf
    unfold vkl_bake_max_prop_size
    simp only [hm]
    rfl

theorem max_prop_size_correct_witness :
    scatter_mismatch.props.map
      (fun p => (p.source_type, p.source_idx, p.arr_orig.item_count)) =
      [(.VERTEX, 0, 2), (.VERTEX, 0, 3)] ∧
    (∃ n, vkl_bake_max_prop_size scatter_mismatch
        { pipeline := .GRAPHICS, pipeline_idx := 0, source_type := .VERTEX, source_idx := 0,
          slot_idx := 0, arr := vkl_array_struct 0 16, origin := .LIB, u := .zero } = .ok n ∧
      n = 3) ∧
    vkl_bake_max_prop_size scatter_declared
        { pipeline := .GRAPHICS, pipeline_idx := 0, source_type := .VERTEX, source_idx := 0,
          slot_idx := 0, arr := vkl_array_struct 0 16, origin := .NONE, u := .zero } =
      .abort (.assert_failed 509) scatter_declared :=
  ⟨by decide,
   ((max_prop_size_correct scatter_mismatch
      { pipeline := .GRAPHICS, pipeline_idx := 0, source_type := .VERTEX, source_idx := 0,
        slot_idx := 0, arr := vkl_array_struct 0 16, origin := .LIB, u := .zero }).1
      (by decide)).imp fun n hn => ⟨hn.1, by
        have h := hn.1
        have h3 : vkl_bake_max_prop_size scatter_mismatch
          { pipeline := .GRAPHICS, pipeline_idx := 0, source_type := .VERTEX, source_idx := 0,
            slot_idx := 0, arr := vkl_array_struct 0 16, origin := .LIB, u := .zero } =
            .ok 3 := rfl
        rw [h3] at h
        exact (Res.ok.inj h).symm⟩,
   (max_prop_size_correct scatter_declared
      { pipeline := .GRAPHICS, pipeline_idx := 0, source_type := .VERTEX, source_idx := 0,
        slot_idx := 0, arr := vkl_array_struct 0 16, origin := .NONE, u := .zero }).2
      (by decide)⟩

/-! ## The registry only grows -/

theorem map_set_same {α β : Type} (f : α → β) (l : List α) (i : Nat) (x x' : α)
    (h : l[i]? = some x) (hf : f x' = f x) : (l.set i x').map f = l.map f := by
  apply List.ext_getElem?
  intro j
  simp only [List.getElem?_map, List.getElem?_set]
  by_cases hij : i = j
  · subst hij
    have hlt : i < l.length := by
      rcases Nat.lt_or_ge i l.length with h' | h'
      · exact h'
      · simp [List.getElem?_eq_none h'] at h
    simp [hlt, h, hf]
  · simp [hij]

theorem with_bindings_props (v v' : VklVisual) (s : VklSource)
    (f : VklBindings → VklBindings) (h : with_bindings v s f = .ok v') :
    v'.props = v.props := by
  unfold with_bindings _get_bindings at h
  cases hp : s.pipeline <;> simp only [hp, if_true, if_false, reduceCtorEq] at h <;>
    split_ifs at h <;>
    · cases h
      rfl

theorem transform_only_decl (v v' : VklVisual) (h : transform_only v v') :
    v'.sources = v.sources ∧ v'.props.map VklProp.decl = v.props.map VklProp.decl ∧
    v'.callback_bake = v.callback_bake := by
  obtain ⟨h1, h2⟩ := h
  refine ⟨by rw [h1], ?_, by rw [h1]⟩
  have := congrArg (List.map VklProp.decl) h2
  simpa [List.map_map, Function.comp_def, VklProp.decl] using this

/-- A default bake that returns keeps what the declarations fixed in every
Source, and keeps the Prop table. -/
theorem default_bake_ok_decl (dtype_size : VklDataType → Nat) (w w' : VklVisual)
    (h : _default_visual_bake dtype_size w = .ok w') :
    w'.sources.map VklSource.decl = w.sources.map VklSource.decl ∧ w'.props = w.props ∧
    w'.callback_bake = w.callback_bake := by
  cases hsrc : vkl_bake_source w .VERTEX 0 with
  | none => simp [_default_visual_bake, hsrc] at h
  | some e =>
    obtain ⟨si, src⟩ := e
    by_cases ho : src.origin = .LIB
    · obtain ⟨n, -, -, -, rfl⟩ := (default_bake_iff dtype_size w w' si src hsrc ho).mp h
      refine ⟨?_, rfl, rfl⟩
      apply map_set_same VklSource.decl _ si src _ (find_entry_some _ _ _ _ hsrc).1
      have := (copy_columns_item_count dtype_size w.props (vkl_array_resize src.arr n)).2.1
      simp only [VklSource.decl, this, resize_item_size]
    · have hw := (default_bake_state dtype_size w si src hsrc).1 ho
      rw [hw] at h
      cases h
      exact ⟨rfl, rfl, rfl⟩

theorem run_callback_ok_decl (dtype_size : VklDataType → Nat)
    (user : Nat → VklVisual → Res VklVisual)
    (huser : ∀ id v v', user id v = .ok v' → transform_only v v')
    (cb : VklVisualDataCallback) (v w : VklVisual)
    (h : run_callback dtype_size user cb v = .ok w) :
    w.sources.map VklSource.decl = v.sources.map VklSource.decl ∧
    w.props.map VklProp.decl = v.props.map VklProp.decl ∧
    w.callback_bake = v.callback_bake := by
  cases cb with
  | NULL =>
    simp only [run_callback, Res.ok.injEq] at h
    subst h
    exact ⟨rfl, rfl, rfl⟩
  | default_bake =>
    obtain ⟨h1, h2, h3⟩ := default_bake_ok_decl dtype_size v w h
    exact ⟨h1, by rw [h2], h3⟩
  | custom id =>
    obtain ⟨h1, h2, h3⟩ := transform_only_decl v w (huser id v w h)
    exact ⟨by rw [h1], h2, h3⟩

/-- One call of the public interface that returns keeps what the declarations
fixed in every Source and Prop already in the tables, and removes none. -/
theorem run_call_decl (dtype_size : VklDataType → Nat)
    (user : Nat → VklVisual → Res VklVisual)
    (huser : ∀ id v v', user id v = .ok v' → transform_only v v')
    (v v' : VklVisual) (c : VklCall)
    (hc : c = .update → v.callback_bake = .default_bake)
    (h : run_call dtype_size user v c = .ok v') :
    v.sources.map VklSource.decl <+: v'.sources.map VklSource.decl ∧
    v.props.map VklProp.decl <+: v'.props.map VklProp.decl := by
  have hsame : ∀ x : VklVisual, x.sources.map VklSource.decl = v.sources.map VklSource.decl →
      x.props.map VklProp.decl = v.props.map VklProp.decl →
      v.sources.map VklSource.decl <+: x.sources.map VklSource.decl ∧
      v.props.map VklProp.decl <+: x.props.map VklProp.decl := by
    intro x h1 h2
    rw [h1, h2]
    exact ⟨List.prefix_refl _, List.prefix_refl _⟩
  cases c with
  | source source source_idx pipeline pipeline_idx slot_idx item_size =>
    simp only [run_call, vkl_visual_source] at h
    split_ifs at h with h1 h2
    simp only [Res.ok.injEq] at h
    subst h
    exact ⟨by simp only [List.map_append]; exact List.prefix_append _ _, List.prefix_refl _⟩
  | prop prop prop_idx source source_idx field_idx dtype offset =>
    simp only [run_call, vkl_visual_prop] at h
    split_ifs at h
    cases h
    exact ⟨List.prefix_refl _, by simp only [List.map_append]; exact List.prefix_append _ _⟩
  | graphics graphics =>
    simp only [run_call, vkl_visual_graphics] at h
    cases graphics with
    | none => simp at h
    | some g =>
      simp only at h
      split_ifs at h <;>
        · cases h
          exact hsame _ rfl rfl
  | compute compute =>
    simp only [run_call, vkl_visual_compute] at h
    cases compute with
    | none => simp at h
    | some g =>
      simp only at h
      split_ifs at h <;>
        · cases h
          exact hsame _ rfl rfl
  | group group_idx size =>
    simp only [run_call, vkl_visual_group] at h
    split_ifs at h <;>
      · cases h
        exact hsame _ rfl rfl
  | data type idx count data =>
    simp only [run_call, vkl_visual_data, vkl_visual_data_partial] at h
    cases hp : vkl_bake_prop v type idx with
    | none => simp [hp] at h
    | some e =>
      obtain ⟨pi, prop⟩ := e
      cases hs : vkl_bake_source v prop.source_type prop.source_idx with
      | none => simp [hp, hs] at h
      | some e2 =>
        obtain ⟨si, source⟩ := e2
        simp only [hp, hs, Res.ok.injEq] at h
        subst h
        exact hsame _ (map_set_same _ _ si source _ (find_entry_some _ _ _ _ hs).1 rfl)
          (map_set_same _ _ pi prop _ (find_entry_some _ _ _ _ hp).1 rfl)
  | data_part type idx first_item item_count data_item_count data =>
    simp only [run_call, vkl_visual_data_partial] at h
    cases hp : vkl_bake_prop v type idx with
    | none => simp [hp] at h
    | some e =>
      obtain ⟨pi, prop⟩ := e
      cases hs : vkl_bake_source v prop.source_type prop.source_idx with
      | none => simp [hp, hs] at h
      | some e2 =>
        obtain ⟨si, source⟩ := e2
        simp only [hp, hs, Res.ok.injEq] at h
        subst h
        exact hsame _ (map_set_same _ _ si source _ (find_entry_some _ _ _ _ hs).1 rfl)
          (map_set_same _ _ pi prop _ (find_entry_some _ _ _ _ hp).1 rfl)
  | buffer source idx br =>
    simp only [run_call, vkl_visual_buffer, vkl_visual_buffer_partial] at h
    cases hs : vkl_bake_source v source idx with
    | none =>
      simp only [hs, Res.ok.injEq] at h
      subst h
      exact hsame _ rfl rfl
    | some e =>
      obtain ⟨si, src⟩ := e
      simp only [hs] at h
      split_ifs at h <;>
        · refine hsame _ ?_ ?_
          · rw [with_bindings_sources _ _ _ _ h]
            exact map_set_same _ _ si src _ (find_entry_some _ _ _ _ hs).1 rfl
          · rw [with_bindings_props _ _ _ _ h]
            rfl
  | buffer_part source idx br offset size =>
    simp only [run_call, vkl_visual_buffer_partial] at h
    cases hs : vkl_bake_source v source idx with
    | none =>
      simp only [hs, Res.ok.injEq] at h
      subst h
      exact hsame _ rfl rfl
    | some e =>
      obtain ⟨si, src⟩ := e
      simp only [hs] at h
      split_ifs at h <;>
        · refine hsame _ ?_ ?_
          · rw [with_bindings_sources _ _ _ _ h]
            exact map_set_same _ _ si src _ (find_entry_some _ _ _ _ hs).1 rfl
          · rw [with_bindings_props _ _ _ _ h]
            rfl
  | texture source idx texture =>
    simp only [run_call, vkl_visual_texture] at h
    cases hs : vkl_bake_source v source idx with
    | none =>
      simp only [hs, Res.ok.injEq] at h
      subst h
      exact hsame _ rfl rfl
    | some e =>
      obtain ⟨si, src⟩ := e
      cases texture with
      | none => simp [hs] at h
      | some tex =>
        simp only [hs] at h
        split_ifs at h
        refine hsame _ ?_ ?_
        · rw [with_bindings_sources _ _ _ _ h]
          exact map_set_same _ _ si src _ (find_entry_some _ _ _ _ hs).1 rfl
        · rw [with_bindings_props _ _ _ _ h]
          rfl
  | callback_transform callback =>
    simp only [run_call, vkl_visual_callback_transform, Res.ok.injEq] at h
    subst h
    exact hsame _ rfl rfl
  | callback_bake callback =>
    simp only [run_call, vkl_visual_callback_bake, Res.ok.injEq] at h
    subst h
    exact hsame _ rfl rfl
  | fill_callback callback =>
    simp only [run_call, vkl_visual_fill_callback, Res.ok.injEq] at h
    subst h
    exact hsame _ rfl rfl
  | update =>
    simp only [run_call, vkl_visual_update] at h
    cases h1 : run_callback dtype_size user v.callback_transform v with
    | abort f w => simp [h1, Res.bind] at h
    | ok w =>
      obtain ⟨hs1, hp1, hb1⟩ := run_callback_ok_decl dtype_size user huser _ v w h1
      have hbw : w.callback_bake = .default_bake := hb1.trans (hc rfl)
      rw [h1] at h
      simp only [Res.bind, hbw, run_callback] at h
      cases h2 : _default_visual_bake dtype_size w with
      | abort f w2 => simp [h2] at h
      | ok w2 =>
        obtain ⟨hs2, hp2, -⟩ := default_bake_ok_decl dtype_size w w2 h2
        simp only [h2, Res.ok.injEq] at h
        subst h
        refine hsame _ ?_ ?_
        · simp only [upload_and_refresh]
          rw [hs2, hs1]
        · simp only [upload_and_refresh]
          rw [hp2, hp1]

theorem steps_decl (dtype_size : VklDataType → Nat)
    (user : Nat → VklVisual → Res VklVisual)
    (huser : ∀ id v v', user id v = .ok v' → transform_only v v')
    (v v' : VklVisual) (h : Steps dtype_size user v v') :
    v.sources.map VklSource.decl <+: v'.sources.map VklSource.decl ∧
    v.props.map VklProp.decl <+: v'.props.map VklProp.decl := by
  induction h with
  | refl => exact ⟨List.prefix_refl _, List.prefix_refl _⟩
  | step w w' c _ hc hrun ih =>
    obtain ⟨h1, h2⟩ := run_call_decl dtype_size user huser w w' c hc hrun
    exact ⟨ih.1.trans h1, ih.2.trans h2⟩

theorem prefix_map_getElem? {α β : Type} (f : α → β) (l l' : List α)
    (h : l.map f <+: l'.map f) (i : Nat) (x : α) (hx : l[i]? = some x) :
    ∃ x', l'[i]? = some x' ∧ f x' = f x := by
  obtain ⟨t, ht⟩ := h
  have hlt : i < (l.map f).length := by
    rw [List.length_map]
    exact (List.getElem?_eq_some.mp hx).1
  have h1 : (l'.map f)[i]? = some (f x) := by
    rw [← ht, List.getElem?_append_left hlt, List.getElem?_map, hx]
    rfl
  rw [List.getElem?_map] at h1
  cases hx' : l'[i]? with
  | none => simp [hx'] at h1
  | some x' =>
    rw [hx'] at h1
    exact ⟨x', rfl, by simpa using h1⟩

/-- C23. Append-only registry: across every sequence of calls of the public
interface that return (declarations, attachments, groups, data ingestion,
direct binding, callback setters, and updates run with the default bake
installed, custom transform callbacks writing only transformed arrays), so
across every single such call, the source count and the prop count do not
decrease, every Source already in the table stays at its position and keeps
its kind, kind-index, pipeline kind, pipeline index, slot and array item
size, and every Prop already in the table stays at its position and keeps its
kind, index, source kind, source index, field index, element type and
offset. -/
theorem registry_append_only (dtype_size : VklDataType → Nat)
    (user : Nat → VklVisual → Res VklVisual)
    (huser : ∀ id v v', user id v = .ok v' → transform_only v v')
    (v v' : VklVisual) (h : Steps dtype_size user v v') :
    v.source_count ≤ v'.source_count ∧ v.prop_count ≤ v'.prop_count ∧
    (∀ (i : Nat) (s : VklSource), v.sources[i]? = some s →
      ∃ s', v'.sources[i]? = some s' ∧
        s'.source_type = s.source_type ∧ s'.source_idx = s.source_idx ∧
        s'.pipeline = s.pipeline ∧ s'.pipeline_idx = s.pipeline_idx ∧
        s'.slot_idx = s.slot_idx ∧ s'.arr.item_size = s.arr.item_size) ∧
    (∀ (i : Nat) (p : VklProp), v.props[i]? = some p →
      ∃ p', v'.props[i]? = some p' ∧
        p'.prop_type = p.prop_type ∧ p'.prop_idx = p.prop_idx ∧
        p'.source_type = p.source_type ∧ p'.source_idx = p.source_idx ∧
        p'.field_idx = p.field_idx ∧ p'.dtype = p.dtype ∧ p'.offset = p.offset) := by
  obtain ⟨hs, hp⟩ := steps_decl dtype_size user huser v v' h
  refine ⟨?_, ?_, ?_, ?_⟩
  · have := hs.length_le
    simpa [VklVisual.source_count] using this
  · have := hp.length_le
    simpa [VklVisual.prop_count] using this
  · intro i s hi
    obtain ⟨s', h1, h2⟩ := prefix_map_getElem? VklSource.decl _ _ hs i s hi
    simp only [VklSource.decl, Prod.mk.injEq] at h2
    exact ⟨s', h1, h2.1, h2.2.1, h2.2.2.1, h2.2.2.2.1, h2.2.2.2.2.1, h2.2.2.2.2.2⟩
  · intro i p hi
    obtain ⟨p', h1, h2⟩ := prefix_map_getElem? VklProp.decl _ _ hp i p hi
    simp only [VklProp.decl, Prod.mk.injEq] at h2
    exact ⟨p', h1, h2.1, h2.2.1, h2.2.2.1, h2.2.2.2.1, h2.2.2.2.2.1, h2.2.2.2.2.2.1,
      h2.2.2.2.2.2.2⟩

theorem scatter_declared_steps :
    Steps example_dtype_size example_user scatter_declared scatter_bound := by
  have h0 : Steps example_dtype_size example_user scatter_declared scatter_declared :=
    Steps.refl _
  have h1 := Steps.step _ _ _
    (.data .POS 0 2 [[1, 1, 1, 1, 1, 1, 1, 1, 1, 1, 1, 1], [2, 2, 2, 2, 2, 2, 2, 2, 2, 2, 2, 2]])
    h0 (by simp) rfl
  have h2 := Steps.step _ _ _ (.data .COLOR 0 2 [[7, 7, 7, 7], [8, 8, 8, 8]]) h1 (by simp) rfl
  have h3 := Steps.step _ _ _ (.source .UNIFORM 1 .GRAPHICS 0 1 64) h2 (by simp) rfl
  exact Steps.step _ _ _ (.buffer .UNIFORM 1 { buffer := 7, size := 64, count := 1 }) h3
    (by simp) rfl

theorem registry_append_only_witness :
    Steps example_dtype_size example_user scatter_declared scatter_bound ∧
    scatter_declared.source_count = 1 ∧ scatter_bound.source_count = 2 ∧
    scatter_declared.prop_count = 2 ∧ scatter_bound.prop_count = 2 ∧
    scatter_declared.sources.map (fun s => (s.origin, s.arr.item_count)) = [(.NONE, 0)] ∧
    scatter_bound.sources.map (fun s => (s.origin, s.arr.item_count)) =
      [(.LIB, 0), (.USER, 0)] ∧
    (∀ (i : Nat) (s : VklSource), scatter_declared.sources[i]? = some s →
      ∃ s', scatter_bound.sources[i]? = some s' ∧
        s'.source_type = s.source_type ∧ s'.source_idx = s.source_idx ∧
        s'.pipeline = s.pipeline ∧ s'.pipeline_idx = s.pipeline_idx ∧
        s'.slot_idx = s.slot_idx ∧ s'.arr.item_size = s.arr.item_size) :=
  ⟨scatter_declared_steps, by decide, by decide, by decide, by decide, by decide, by decide,
   (registry_append_only example_dtype_size example_user example_user_transform_only
     scatter_declared scatter_bound scatter_declared_steps).2.2.1⟩

/-! ## The Source of a Prop with data -/

/-- C22. The Source of a Prop: `vkl_bake_prop_source` is the lookup of the
source kind and source index of the Prop. When a data ingestion call
(`vkl_visual_data_partial`, or `vkl_visual_data`, which is the partial call
from item 0) returns on any visual, the Prop it wrote was found and so was its
Source; and in the visual the call leaves and in every visual that later calls
of the public interface leave (calls that return, updates run with the default
bake, custom transform callbacks writing only transformed arrays) the Prop is
still at its position with the same source kind and index, and the lookup of
its Source does not miss. -/
theorem prop_source_defined (dtype_size : VklDataType → Nat)
    (user : Nat → VklVisual → Res VklVisual)
    (huser : ∀ id v v', user id v = .ok v' → transform_only v v')
    (v v1 : VklVisual) (type : VklPropType) (idx f n dn : Nat) (data : List Item)
    (h :  vkl_visual_data_partial v type idx f n dn data = .ok v1) :
    (∀ (x : VklVisual) (p : VklProp),
      vkl_bake_prop_source x p = vkl_bake_source x p.source_type p.source_idx) ∧
    (∀ count, vkl_visual_data v type idx count data =
       vkl_visual_data_partial v type idx 0 count count data) ∧
    ∃ pi p, vkl_bake_prop v type idx = some (pi, p) ∧
      (vkl_bake_prop_source v p).isSome = true ∧
      ∀ v2, Steps dtype_size user v1 v2 →
        ∃ p2, v2.props[pi]? = some p2 ∧
          p2.source_type = p.source_type ∧ p2.source_idx = p.source_idx ∧
          (vkl_bake_prop_source v2 p2).isSome = true := by
  refine ⟨fun _ _ => rfl, fun _ => rfl, ?_⟩
  unfold vkl_visual_data_partial at h
  cases hp : vkl_bake_prop v type idx with
  | none => simp [hp] at h
  | some e =>
    obtain ⟨pi, prop⟩ := e
    cases hs : vkl_bake_source v prop.source_type prop.source_idx with
    | none => simp [hp, hs] at h
    | some e2 =>
      obtain ⟨si, source⟩ := e2
      simp only [hp, hs, Res.ok.injEq] at h
      subst h
      refine ⟨pi, prop, rfl, by simp [vkl_bake_prop_source, hs], ?_⟩
      intro v2 hsteps
      obtain ⟨hsd, hpd⟩ := steps_decl dtype_size user huser _ v2 hsteps
      have hpi := (find_entry_some _ _ _ _ hp).1
      have hsi := find_entry_some _ _ _ _ hs
      have hpi1 : ((v.set_prop pi { prop with
          arr_orig := vkl_array_data (vkl_array_resize prop.arr_orig ((f + n) % 2 ^ 32))
            f n dn data }).set_source si { source with origin := .LIB }).props[pi]? =
          some { prop with
            arr_orig := vkl_array_data (vkl_array_resize prop.arr_orig ((f + n) % 2 ^ 32))
              f n dn data } := by
        have hlt : pi < v.props.length := (List.getElem?_eq_some.mp hpi).1
        simp [VklVisual.set_source, VklVisual.set_prop, hlt]
      have hsi1 : ((v.set_prop pi { prop with
          arr_orig := vkl_array_data (vkl_array_resize prop.arr_orig ((f + n) % 2 ^ 32))
            f n dn data }).set_source si { source with origin := .LIB }).sources[si]? =
          some { source with origin := .LIB } := by
        have hlt : si < v.sources.length := (List.getElem?_eq_some.mp hsi.1).1
        simp [VklVisual.set_source, VklVisual.set_prop, hlt]
      obtain ⟨p2, hp2, hd2⟩ := prefix_map_getElem? VklProp.decl _ _ hpd pi _ hpi1
      obtain ⟨s2, hs2, hds2⟩ := prefix_map_getElem? VklSource.decl _ _ hsd si _ hsi1
      simp only [VklProp.decl, Prod.mk.injEq] at hd2
      simp only [VklSource.decl, Prod.mk.injEq] at hds2
      refine ⟨p2, hp2, hd2.2.2.1, hd2.2.2.2.1, ?_⟩
      unfold vkl_bake_prop_source vkl_bake_source
      apply find_entry_isSome _ _ s2 (List.getElem?_mem hs2)
      have hk := hsi.2.1
      simp only [decide_eq_true_eq] at hk ⊢
      rw [hds2.1, hds2.2.1, hd2.2.2.1, hd2.2.2.2.1]
      exact hk

theorem prop_source_defined_witness :
    ∃ v1,  vkl_visual_data_partial scatter_declared .POS 0 0 2 2
        [[1, 1, 1, 1, 1, 1, 1, 1, 1, 1, 1, 1], [2, 2, 2, 2, 2, 2, 2, 2, 2, 2, 2, 2]] = .ok v1 ∧
      Steps example_dtype_size example_user v1 scatter_bound ∧
      ∃ pi p, vkl_bake_prop scatter_declared .POS 0 = some (pi, p) ∧
        (vkl_bake_prop_source scatter_declared p).isSome = true ∧
        ∀ v2, Steps example_dtype_size example_user v1 v2 →
          ∃ p2, v2.props[pi]? = some p2 ∧
            p2.source_type = p.source_type ∧ p2.source_idx = p.source_idx ∧
            (vkl_bake_prop_source v2 p2).isSome = true :=
  ⟨_, rfl,
   Steps.step _ _ _ (.buffer .UNIFORM 1 { buffer := 7, size := 64, count := 1 })
     (Steps.step _ _ _ (.source .UNIFORM 1 .GRAPHICS 0 1 64)
       (Steps.step _ _ _ (.data .COLOR 0 2 [[7, 7, 7, 7], [8, 8, 8, 8]]) (Steps.refl _)
         (by simp) rfl)
       (by simp) rfl)
     (by simp) rfl,
   (prop_source_defined example_dtype_size example_user example_user_transform_only
     scatter_declared _ .POS 0 0 2 2
     [[1, 1, 1, 1, 1, 1, 1, 1, 1, 1, 1, 1], [2, 2, 2, 2, 2, 2, 2, 2, 2, 2, 2, 2]] rfl).2.2⟩

/-! ## The exact condition of the item-count check -/

theorem vertex_counts_cons (q : VklProp) (ps : List VklProp) :
    vertex_counts (q :: ps) =
      if q.source_type = .VERTEX then q.arr_orig.item_count :: vertex_counts ps
      else vertex_counts ps := by
  unfold vertex_counts
  by_cases hq : q.source_type = .VERTEX <;> simp [List.filter_cons, hq]

/-- Once the running count of the check is set, the check passes exactly when
every later Prop of source kind VERTEX holds that many items. -/
theorem bake_item_count_pos :
    ∀ (ps : List VklProp) (acc n : Nat), 0 < acc →
      (bake_item_count ps acc = some n ↔ n = acc ∧ ∀ c ∈ vertex_counts ps, c = acc)
  | [], acc, n, _ => by
    simp only [bake_item_count, Option.some.injEq, vertex_counts, List.filter_nil, List.map_nil,
      List.not_mem_nil, false_implies, implies_true, and_true]
    exact eq_comm
  | q :: ps, acc, n, hacc => by
    have ih := bake_item_count_pos ps acc n hacc
    have hne : acc ≠ 0 := by omega
    rw [vertex_counts_cons]
    unfold bake_item_count
    by_cases hq : q.source_type = .VERTEX
    · simp only [hq, if_true, hne, if_false]
      by_cases hc : q.arr_orig.item_count = acc
      · rw [if_pos hc, ih]
        simp [hc]
      · rw [if_neg hc]
        simp [hc]
    · simp only [hq, if_false]
      exact ih

/-- The check of the default bake, started with no running count, passes with
`n` exactly when the counts of the Props of source kind VERTEX from the first
non-zero one onward are all `n`, and `n` is that first non-zero count, or 0
when there is none. -/
theorem bake_item_count_zero :
    ∀ (ps : List VklProp) (n : Nat),
      bake_item_count ps 0 = some n ↔
        n = (counts_from_first_data ps).headD 0 ∧ ∀ c ∈ counts_from_first_data ps, c = n
  | [], n => by
    simp only [bake_item_count, Option.some.injEq, counts_from_first_data, vertex_counts,
      List.filter_nil, List.map_nil, List.dropWhile_nil, List.headD_nil, List.not_mem_nil,
      false_implies, implies_true, and_true]
    exact eq_comm
  | q :: ps, n => by
    have ih := bake_item_count_zero ps n
    unfold counts_from_first_data at ih ⊢
    rw [vertex_counts_cons]
    unfold bake_item_count
    by_cases hq : q.source_type = .VERTEX
    · simp only [hq, if_true]
      by_cases hc : q.arr_orig.item_count = 0
      · simp only [hc, if_true, List.dropWhile_cons, decide_True]
        exact ih
      · have hpos : 0 < q.arr_orig.item_count := by omega
        simp only [if_true, List.dropWhile_cons, hc, decide_False, Bool.false_eq_true, if_false,
          List.headD_cons, List.mem_cons, forall_eq_or_imp]
        rw [bake_item_count_pos ps _ n hpos]
        constructor
        · rintro ⟨h1, h2⟩
          refine ⟨h1, h1.symm, ?_⟩
          intro c hcm
          rw [h1]
          exact h2 c hcm
        · rintro ⟨h1, -, h2⟩
          refine ⟨h1, ?_⟩
          intro c hcm
          rw [← h1]
          apply h2 c
          exact hcm
    · simp only [hq, if_false]
      exact ih

theorem copy_columns_filter (dtype_size : VklDataType → Nat) :
    ∀ (ps : List VklProp) (a : VklArray),
      copy_columns dtype_size ps a =
        copy_columns dtype_size
          (ps.filter fun p => decide (p.source_type = .VERTEX ∧ p.source_idx = 0)) a
  | [], _ => rfl
  | q :: ps, a => by
    by_cases hq : q.source_type = .VERTEX ∧ q.source_idx = 0
    · simp only [copy_columns, List.filter_cons, hq, and_self, decide_True, if_true]
      exact copy_columns_filter dtype_size ps _
    · simp only [copy_columns, List.filter_cons, hq, decide_False, Bool.false_eq_true, if_false]
      exact copy_columns_filter dtype_size ps a

theorem bake_prop_copy_fault (dtype_size : VklDataType → Nat) (v x : VklVisual) (p : VklProp)
    (reps : Nat) (f : VklFault) (h : vkl_bake_prop_copy dtype_size v p reps = .abort f x) :
    f ≠ .assert_failed 91 := by
  unfold vkl_bake_prop_copy at h
  cases hs : vkl_bake_source v p.source_type p.source_idx with
  | none =>
    simp only [hs] at h
    cases h
    decide
  | some e =>
    obtain ⟨si, source⟩ := e
    simp only [hs] at h
    split_ifs at h <;>
      · cases h
        decide

theorem bake_copy_loop_fault (dtype_size : VklDataType → Nat) :
    ∀ (ps : List VklProp) (v x : VklVisual) (f : VklFault),
      bake_copy_loop dtype_size ps v = .abort f x → f ≠ .assert_failed 91
  | [], v, x, f, h => by
    simp [bake_copy_loop] at h
  | q :: ps, v, x, f, h => by
    unfold bake_copy_loop at h
    by_cases hq : q.source_type = .VERTEX ∧ q.source_idx = 0
    · rw [if_pos hq] at h
      cases hr : vkl_bake_prop_copy dtype_size v q 1 with
      | abort g y =>
        rw [hr] at h
        simp only [Res.bind, Res.abort.injEq] at h
        rw [← h.1]
        exact bake_prop_copy_fault dtype_size v y q 1 g hr
      | ok v1 =>
        rw [hr] at h
        exact bake_copy_loop_fault dtype_size ps v1 x f h
    · rw [if_neg hq] at h
      exact bake_copy_loop_fault dtype_size ps v x f h

/-- The default bake after its check has passed with `n`: the vertex count is
`n` and the index count 0 in the visual it leaves, whether it returns or
stops later, and it does not stop on the assertion of line 91. -/
theorem default_bake_checked (dtype_size : VklDataType → Nat) (w : VklVisual) (si : Nat)
    (src : VklSource) (n : Nat) (hsrc : vkl_bake_source w .VERTEX 0 = some (si, src))
    (ho : src.origin = .LIB) (hn : bake_item_count w.props 0 = some n) :
    (_default_visual_bake dtype_size w).state.vertex_count = n ∧
    (_default_visual_bake dtype_size w).state.index_count = 0 ∧
    ∀ f x, _default_visual_bake dtype_size w = .abort f x → f ≠ .assert_failed 91 := by
  unfold _default_visual_bake
  simp only [hsrc, hn]
  rw [if_neg (by simp [ho])]
  by_cases hcr : src.arr.created = true
  · rw [if_neg (by simp [hcr])]
    have hfound := bake_source_set { w with vertex_count := n, index_count := 0 } .VERTEX 0 si
      src (vkl_array_resize src.arr n) hsrc
    obtain ⟨a, ha⟩ := bake_copy_loop_state dtype_size
      (VklVisual.set_source { w with vertex_count := n, index_count := 0 } si
          { src with arr := vkl_array_resize src.arr n }).props _ si _ hfound
    refine ⟨by rw [ha]; rfl, by rw [ha]; rfl, ?_⟩
    intro f x h
    exact bake_copy_loop_fault dtype_size _ _ x f h
  · rw [if_pos (by simp [hcr])]
    refine ⟨rfl, rfl, ?_⟩
    intro f x h
    cases h
    decide

/-- C24. Exact condition of the consistency check of the default bake, when
the vertex Source (VERTEX, 0) has origin `LIB`. The check (lines 82 to 93)
passes with `n` exactly when the staged item counts of the Props of source
kind VERTEX, whatever their source index, taken in table order from the first
non-zero one onward, are all `n`, where `n` is that first non-zero count, or 0
when there is none; zero counts before it are accepted. The bake stops on the
assertion of line 91 exactly when the check does not pass, and then the visual
is as it was. When the check passes the vertex count is set to `n` and the
index count to 0, whether the bake then returns or stops later; when the bake
returns, the array of the vertex Source is the one built from the resized
array by the column writes of the Props of source kind VERTEX and source index
0 alone. -/
theorem default_bake_check_exact (dtype_size : VklDataType → Nat) (w : VklVisual) (si : Nat)
    (src : VklSource) (hsrc : vkl_bake_source w .VERTEX 0 = some (si, src))
    (ho : src.origin = .LIB) :
    (∀ n, bake_item_count w.props 0 = some n ↔
      n = (counts_from_first_data w.props).headD 0 ∧
      ∀ c ∈ counts_from_first_data w.props, c = n) ∧
    ((∃ x, _default_visual_bake dtype_size w = .abort (.assert_failed 91) x) ↔
      ¬ ∀ c ∈ counts_from_first_data w.props, c = (counts_from_first_data w.props).headD 0) ∧
    ((¬ ∀ c ∈ counts_from_first_data w.props, c = (counts_from_first_data w.props).headD 0) →
      _default_visual_bake dtype_size w = .abort (.assert_failed 91) w) ∧
    ((∀ c ∈ counts_from_first_data w.props, c = (counts_from_first_data w.props).headD 0) →
      (_default_visual_bake dtype_size w).state.vertex_count =
        (counts_from_first_data w.props).headD 0 ∧
      (_default_visual_bake dtype_size w).state.index_count = 0) ∧
    (∀ w', _default_visual_bake dtype_size w = .ok w' →
      ∃ s', vkl_bake_source w' .VERTEX 0 = some (si, s') ∧
        s'.arr = copy_columns dtype_size
          (w.props.filter fun p => decide (p.source_type = .VERTEX ∧ p.source_idx = 0))
          (vkl_array_resize src.arr ((counts_from_first_data w.props).headD 0))) := by
  have hnone : (¬ ∀ c ∈ counts_from_first_data w.props,
      c = (counts_from_first_data w.props).headD 0) →
      _default_visual_bake dtype_size w = .abort (.assert_failed 91) w := by
    intro hcond
    have hn : bake_item_count w.props 0 = none := by
      cases hb : bake_item_count w.props 0 with
      | none => rfl
      | some n =>
        obtain ⟨h1, h2⟩ := (bake_item_count_zero w.props n).mp hb
        exact absurd (fun c hc => (h2 c hc).trans h1) hcond
    unfold _default_visual_bake
    simp only [hsrc, hn]
    rw [if_neg (by simp [ho])]
  have hsome : (∀ c ∈ counts_from_first_data w.props,
      c = (counts_from_first_data w.props).headD 0) →
      bake_item_count w.props 0 = some ((counts_from_first_data w.props).headD 0) :=
    fun hcond => (bake_item_count_zero w.props _).mpr ⟨rfl, hcond⟩
  refine ⟨bake_item_count_zero w.props, ⟨?_, fun hcond => ⟨w, hnone hcond⟩⟩, hnone, ?_, ?_⟩
  · rintro ⟨x, hx⟩ hcond
    exact (default_bake_checked dtype_size w si src _ hsrc ho (hsome hcond)).2.2 _ x hx rfl
  · intro hcond
    obtain ⟨h1, h2, -⟩ := default_bake_checked dtype_size w si src _ hsrc ho (hsome hcond)
    exact ⟨h1, h2⟩
  · intro w' hw'
    obtain ⟨n, hn, -, -, rfl⟩ := (default_bake_iff dtype_size w w' si src hsrc ho).mp hw'
    have hn' := ((bake_item_count_zero w.props n).mp hn).1
    refine ⟨_, bake_source_set { w with vertex_count := n, index_count := 0 } .VERTEX 0 si src _
      hsrc, ?_⟩
    show copy_columns dtype_size w.props (vkl_array_resize src.arr n) = _
    rw [← hn']
    exact copy_columns_filter dtype_size w.props _

theorem default_bake_check_exact_witness :
    vertex_counts scatter_color_only.props = [0, 2] ∧
    counts_from_first_data scatter_color_only.props = [2] ∧
    bake_item_count scatter_color_only.props 0 = some 2 ∧
    (_default_visual_bake example_dtype_size scatter_color_only).state.vertex_count = 2 ∧
    (_default_visual_bake example_dtype_size scatter_color_only).returned = false ∧
    vertex_counts two_vertex_buffers.props = [2, 2, 3] ∧
    _default_visual_bake example_dtype_size two_vertex_buffers =
      .abort (.assert_failed 91) two_vertex_buffers :=
  ⟨by decide, by decide, by decide,
   ((default_bake_check_exact example_dtype_size scatter_color_only 0
      { pipeline := .GRAPHICS, pipeline_idx := 0, source_type := .VERTEX, source_idx := 0,
        slot_idx := 0, arr := vkl_array_struct 0 16, origin := .LIB, u := .zero }
      (by decide) rfl).2.2.2.1 (by decide)).1,
   by decide,
   by decide,
   (default_bake_check_exact example_dtype_size two_vertex_buffers 0
      { pipeline := .GRAPHICS, pipeline_idx := 0, source_type := .VERTEX, source_idx := 0,
        slot_idx := 0, arr := vkl_array_struct 0 16, origin := .LIB, u := .zero }
      (by decide) rfl).2.2.1 (by decide)⟩

/-! ## A vertex Source whose origin is unset -/

/-- C25. An unset origin is treated like a caller-owned one: let `w` be the
visual the bake stage receives and the bake be the default bake. When the
vertex Source (VERTEX, 0) has origin `NONE`, the default bake returns at once
with the visual as it was, so the update returns with the vertex count, the
index count and the whole Source table (every Source array) unchanged; the
uploads it issues are, in table order, one per Source of origin `LIB`, so none
comes from a Source whose origin is `NONE`, the vertex Source included. -/
theorem unset_origin_skipped (dtype_size : VklDataType → Nat)
    (user : Nat → VklVisual → Res VklVisual) (v w : VklVisual) (si : Nat) (src : VklSource)
    (htr : run_callback dtype_size user v.callback_transform v = .ok w)
    (hbake : w.callback_bake = .default_bake)
    (hsrc : vkl_bake_source w .VERTEX 0 = some (si, src)) (ho : src.origin = .NONE) :
    _default_visual_bake dtype_size w = .ok w ∧
    ∃ u, vkl_visual_update dtype_size user v = .ok u ∧
      u.visual.vertex_count = w.vertex_count ∧ u.visual.index_count = w.index_count ∧
      u.visual.sources = w.sources ∧
      u.uploads = (w.sources.filter fun s => decide (s.origin = .LIB)).map upload_of ∧
      u.uploads.length = (w.sources.filter fun s => decide (s.origin = .LIB)).length ∧
      (∀ e ∈ u.uploads, ∃ s ∈ w.sources, s.origin = .LIB ∧ s.origin ≠ .NONE ∧
        e = upload_of s) ∧
      ((∀ s ∈ w.sources, s.origin ≠ .LIB) → u.uploads = []) := by
  have hb : _default_visual_bake dtype_size w = .ok w :=
    (default_bake_state dtype_size w si src hsrc).1 (by simp [ho])
  have hu := update_default_ok dtype_size user v w w htr hbake hb
  have hup : (upload_and_refresh w).uploads =
      (w.sources.filter fun s => decide (s.origin = .LIB)).map upload_of :=
    upload_loop_eq w.sources
  refine ⟨hb, _, hu, rfl, rfl, rfl, hup, by rw [hup, List.length_map], ?_, ?_⟩
  · intro e he
    rw [hup, List.mem_map] at he
    obtain ⟨s, hs, rfl⟩ := he
    rw [List.mem_filter] at hs
    have hl : s.origin = .LIB := by simpa using hs.2
    exact ⟨s, hs.1, hl, by simp [hl], rfl⟩
  · intro hall
    rw [hup]
    have : (w.sources.filter fun s => decide (s.origin = .LIB)) = [] := by
      apply List.filter_eq_nil_iff.mpr
      intro s hs
      simpa using hall s hs
    rw [this]
    rfl

theorem unset_origin_skipped_witness :
    scatter_declared.sources.map (fun s => (s.source_type, s.source_idx, s.origin)) =
      [(.VERTEX, 0, .NONE)] ∧
    _default_visual_bake example_dtype_size scatter_declared = .ok scatter_declared ∧
    ∃ u, vkl_visual_update example_dtype_size example_user scatter_declared = .ok u ∧
      u.visual.vertex_count = scatter_declared.vertex_count ∧
      u.visual.index_count = scatter_declared.index_count ∧
      u.visual.sources = scatter_declared.sources ∧
      u.uploads = [] :=
  have h := unset_origin_skipped example_dtype_size example_user scatter_declared
    scatter_declared 0
    { pipeline := .GRAPHICS, pipeline_idx := 0, source_type := .VERTEX, source_idx := 0,
      slot_idx := 0, arr := vkl_array_struct 0 16, origin := .NONE, u := .zero }
    rfl rfl (by decide) rfl
  ⟨by decide, h.1,
   h.2.imp fun _ hu => ⟨hu.1, hu.2.1, hu.2.2.1, hu.2.2.2.1, hu.2.2.2.2.2.2.2 (by decide)⟩⟩

/-! ## The default bake does not read the transformed arrays -/

theorem bake_prop_copy_with_props (dtype_size : VklDataType → Nat) (x : VklVisual)
    (P : List VklProp) (p : VklProp) (reps : Nat) :
    vkl_bake_prop_copy dtype_size { x with props := P } p reps =
      (vkl_bake_prop_copy dtype_size x p reps).with_props P := by
  unfold vkl_bake_prop_copy
  have hs : vkl_bake_source { x with props := P } p.source_type p.source_idx =
      vkl_bake_source x p.source_type p.source_idx := rfl
  rw [hs]
  cases vkl_bake_source x p.source_type p.source_idx with
  | none => rfl
  | some e =>
    obtain ⟨si, source⟩ := e
    simp only
    split_ifs <;> rfl

theorem bake_copy_loop_with_props (dtype_size : VklDataType → Nat) (P : List VklProp) :
    ∀ (ps : List VklProp) (x : VklVisual),
      bake_copy_loop dtype_size ps { x with props := P } =
        (bake_copy_loop dtype_size ps x).with_props P
  | [], x => rfl
  | q :: ps, x => by
    unfold bake_copy_loop
    by_cases hq : q.source_type = .VERTEX ∧ q.source_idx = 0
    · rw [if_pos hq, if_pos hq, bake_prop_copy_with_props]
      cases vkl_bake_prop_copy dtype_size x q 1 with
      | abort f y => rfl
      | ok y => exact bake_copy_loop_with_props dtype_size P ps y
    · rw [if_neg hq, if_neg hq]
      exact bake_copy_loop_with_props dtype_size P ps x

theorem bake_copy_loop_erase (dtype_size : VklDataType → Nat) :
    ∀ (ps : List VklProp) (x : VklVisual),
      bake_copy_loop dtype_size (ps.map fun p => { p with arr_trans := VklArray.zero }) x =
        bake_copy_loop dtype_size ps x
  | [], x => rfl
  | q :: ps, x => by
    simp only [List.map_cons, bake_copy_loop]
    have hc : vkl_bake_prop_copy dtype_size x { q with arr_trans := VklArray.zero } 1 =
        vkl_bake_prop_copy dtype_size x q 1 := rfl
    rw [hc]
    by_cases hq : q.source_type = .VERTEX ∧ q.source_idx = 0
    · rw [if_pos hq, if_pos hq]
      cases vkl_bake_prop_copy dtype_size x q 1 with
      | abort f y => rfl
      | ok y => exact bake_copy_loop_erase dtype_size ps y
    · rw [if_neg hq, if_neg hq]
      exact bake_copy_loop_erase dtype_size ps x

theorem bake_item_count_erase :
    ∀ (ps : List VklProp) (c : Nat),
      bake_item_count (ps.map fun p => { p with arr_trans := VklArray.zero }) c =
        bake_item_count ps c
  | [], c => rfl
  | q :: ps, c => by
    simp only [List.map_cons, bake_item_count]
    by_cases hq : q.source_type = .VERTEX
    · simp only [hq, if_true]
      split_ifs <;> first
        | exact bake_item_count_erase ps _
        | rfl
    · simp only [hq, if_false]
      exact bake_item_count_erase ps c

/-- The default bake on a visual whose Props differ from those of `v` in
their transformed arrays only has the outcome it has on `v`, with that Prop
table carried along. -/
theorem default_bake_with_props (dtype_size : VklDataType → Nat) (v : VklVisual)
    (P : List VklProp)
    (hP : (P.map fun p => { p with arr_trans := VklArray.zero }) =
      v.props.map fun p => { p with arr_trans := VklArray.zero }) :
    _default_visual_bake dtype_size { v with props := P } =
      (_default_visual_bake dtype_size v).with_props P := by
  have hcount : bake_item_count P 0 = bake_item_count v.props 0 := by
    rw [← bake_item_count_erase P, hP, bake_item_count_erase]
  have hloop : ∀ x, bake_copy_loop dtype_size P x = bake_copy_loop dtype_size v.props x := by
    intro x
    rw [← bake_copy_loop_erase dtype_size P, hP, bake_copy_loop_erase]
  unfold _default_visual_bake
  have hs : vkl_bake_source { v with props := P } .VERTEX 0 = vkl_bake_source v .VERTEX 0 := rfl
  rw [hs]
  cases vkl_bake_source v .VERTEX 0 with
  | none => rfl
  | some e =>
    obtain ⟨si, src⟩ := e
    simp only
    by_cases ho : src.origin = .LIB
    · rw [if_neg (by simp [ho]), if_neg (by simp [ho]), hcount]
      cases bake_item_count v.props 0 with
      | none => rfl
      | some n =>
        simp only
        by_cases hcr : src.arr.created = true
        · rw [if_neg (by simp [hcr]), if_neg (by simp [hcr])]
          show bake_copy_loop dtype_size P
            { (VklVisual.set_source { v with vertex_count := n, index_count := 0 } si
                { src with arr := vkl_array_resize src.arr n }) with props := P } = _
          rw [hloop, bake_copy_loop_with_props]
          rfl
        · rw [if_pos (by simp [hcr]), if_pos (by simp [hcr])]
          rfl
    · rw [if_pos (by simp [ho]), if_pos (by simp [ho])]
      rfl

theorem with_props_returned (r : Res VklVisual) (P : List VklProp) :
    (r.with_props P).returned = r.returned ∧
    (r.with_props P).state.vertex_count = r.state.vertex_count ∧
    (r.with_props P).state.index_count = r.state.index_count ∧
    (r.with_props P).state.sources = r.state.sources := by
  cases r <;> exact ⟨rfl, rfl, rfl, rfl⟩

/-- C26. The baked output does not depend on the transformed arrays: when
`v2` differs from `v1` only in the contents of the transformed arrays of its
Props, the default bake has the same outcome on both (it returns on both or
stops on both) and leaves the same vertex count, index count and Source table,
hence the same Source arrays. So when the transform callback of an update
with the default bake takes `v1` to such a `v2`, the update returns exactly
when the default bake returns on `v1` itself, and then its uploads, Source
table, vertex count and index count are those the default bake on `v1` gives. -/
theorem bake_ignores_transformed (dtype_size : VklDataType → Nat)
    (user : Nat → VklVisual → Res VklVisual) (v1 v2 : VklVisual)
    (h : transform_only v1 v2) :
    _default_visual_bake dtype_size v2 =
      (_default_visual_bake dtype_size v1).with_props v2.props ∧
    (_default_visual_bake dtype_size v2).returned =
      (_default_visual_bake dtype_size v1).returned ∧
    (_default_visual_bake dtype_size v2).state.vertex_count =
      (_default_visual_bake dtype_size v1).state.vertex_count ∧
    (_default_visual_bake dtype_size v2).state.index_count =
      (_default_visual_bake dtype_size v1).state.index_count ∧
    (_default_visual_bake dtype_size v2).state.sources =
      (_default_visual_bake dtype_size v1).state.sources ∧
    (run_callback dtype_size user v1.callback_transform v1 = .ok v2 →
      v1.callback_bake = .default_bake →
      (vkl_visual_update dtype_size user v1).returned =
        (_default_visual_bake dtype_size v1).returned ∧
      ∀ u, vkl_visual_update dtype_size user v1 = .ok u →
        ∃ x, _default_visual_bake dtype_size v1 = .ok x ∧
          u.uploads = upload_loop x.sources ∧ u.visual.sources = x.sources ∧
          u.visual.vertex_count = x.vertex_count ∧ u.visual.index_count = x.index_count) := by
  have heq : _default_visual_bake dtype_size v2 =
      (_default_visual_bake dtype_size v1).with_props v2.props := by
    have := default_bake_with_props dtype_size v1 v2.props h.2
    rw [← h.1] at this
    exact this
  obtain ⟨r1, r2, r3, r4⟩ := with_props_returned (_default_visual_bake dtype_size v1) v2.props
  refine ⟨heq, by rw [heq, r1], by rw [heq, r2], by rw [heq, r3], by rw [heq, r4], ?_⟩
  intro htr hbake
  have hb2 : v2.callback_bake = .default_bake := by
    rw [h.1]
    exact hbake
  have hu := update_default_eq dtype_size user v1 v2 htr hb2
  rw [hu, heq]
  cases _default_visual_bake dtype_size v1 with
  | abort f x =>
    refine ⟨rfl, ?_⟩
    intro u hu'
    cases hu'
  | ok x =>
    refine ⟨rfl, ?_⟩
    intro u hu'
    simp only [Res.with_props, Res.bind, Res.ok.injEq] at hu'
    subst hu'
    exact ⟨x, rfl, rfl, rfl, rfl, rfl⟩

theorem bake_ignores_transformed_witness :
    transform_only scatter_with_transform scatter_transformed ∧
    scatter_with_transform.props.map (fun p => p.arr_trans.item_count) = [0, 0] ∧
    scatter_transformed.props.map (fun p => p.arr_trans.item_count) = [2, 2] ∧
    (_default_visual_bake example_dtype_size scatter_transformed).state.sources =
      (_default_visual_bake example_dtype_size scatter_with_transform).state.sources ∧
    ∃ u, vkl_visual_update example_dtype_size stage_to_trans_user scatter_with_transform =
        .ok u ∧
      u.visual.vertex_count = 2 ∧
      ∃ x, _default_visual_bake example_dtype_size scatter_with_transform = .ok x ∧
        u.uploads = upload_loop x.sources ∧ u.visual.sources = x.sources ∧
        u.visual.vertex_count = x.vertex_count ∧ u.visual.index_count = x.index_count :=
  have ht : transform_only scatter_with_transform scatter_transformed := ⟨rfl, by decide⟩
  have h := bake_ignores_transformed example_dtype_size stage_to_trans_user
    scatter_with_transform scatter_transformed ht
  ⟨ht, by decide, by decide, h.2.2.2.2.1, _, rfl, by decide, (h.2.2.2.2.2 rfl rfl).2 _ rfl⟩

/-! ## The staged size is computed in 32 bits -/

theorem array_data_outside (a : VklArray) (f n dn : Nat) (data : List Item)
    (h : a.item_count ≤ f) : (vkl_array_data a f n dn data).data = a.data := by
  apply List.ext_getElem?
  intro k
  rw [array_data_getElem?]
  by_cases hk : k < a.item_count
  · rw [if_neg (by omega)]
  · have : a.data[k]? = none := List.getElem?_eq_none (by
      simp only [VklArray.item_count] at hk
      omega)
    rw [this]
    split_ifs <;> rfl

/-- C27. The staged size is computed in 32 bits: on a declared Prop whose
Source is declared `vkl_visual_data_partial` returns, and the staged array it
leaves is the item-range write into the array resized to
`(first_item + item_count) mod 2 ^ 32`. When `first_item + item_count` is
below `2 ^ 32` that size is `first_item + item_count`, the staged array holds
at least that many items and every slot of the written range holds its item.
When `first_item` and `item_count` are below `2 ^ 32` and their sum is not,
the size asked for is `first_item + item_count - 2 ^ 32`, which is below
`first_item`; on a staged array that held at most `first_item` items the array
still ends at or before `first_item`, and the write changes no item of it. -/
theorem staged_size_wraps (v : VklVisual) (type : VklPropType) (idx : Nat)
    (f n dn : Nat) (data : List Item) (pi : Nat) (prop : VklProp) (si : Nat) (source : VklSource)
    (hp : vkl_bake_prop v type idx = some (pi, prop))
    (hs : vkl_bake_source v prop.source_type prop.source_idx = some (si, source)) :
    ∃ v' p', vkl_visual_data_partial v type idx f n dn data = .ok v' ∧
      vkl_bake_prop v' type idx = some (pi, p') ∧
      p'.arr_orig =
        vkl_array_data (vkl_array_resize prop.arr_orig ((f + n) % 2 ^ 32)) f n dn data ∧
      (f + n < 2 ^ 32 →
        (f + n) % 2 ^ 32 = f + n ∧ f + n ≤ p'.arr_orig.item_count ∧
        ∀ k, k < n → p'.arr_orig.data[f + k]? = some (item_at data dn k)) ∧
      (f < 2 ^ 32 → n < 2 ^ 32 → 2 ^ 32 ≤ f + n →
        (f + n) % 2 ^ 32 = f + n - 2 ^ 32 ∧ (f + n) % 2 ^ 32 < f ∧
        (prop.arr_orig.item_count ≤ f →
          p'.arr_orig.item_count = max prop.arr_orig.item_count (f + n - 2 ^ 32) ∧
          p'.arr_orig.item_count ≤ f ∧
          (∀ k, f ≤ k → p'.arr_orig.data[k]? = none) ∧
          p'.arr_orig.data = (vkl_array_resize prop.arr_orig ((f + n) % 2 ^ 32)).data)) := by
  have hbp := bake_prop_set v type idx pi prop
    (vkl_array_data (vkl_array_resize prop.arr_orig ((f + n) % 2 ^ 32)) f n dn data) hp
  obtain ⟨v', p', h1, h2, -, -, -, -, -, h3⟩ :=
    data_partial_spec v type idx f n dn data pi prop si source hp hs
  have h1' := data_partial_eq v type idx f n dn data pi prop si source hp hs
  rw [h1'] at h1
  have hv' := Res.ok.inj h1
  subst hv'
  have h2' : vkl_bake_prop
      ((v.set_prop pi { prop with
          arr_orig := vkl_array_data (vkl_array_resize prop.arr_orig ((f + n) % 2 ^ 32))
            f n dn data }).set_source si { source with origin := .LIB }) type idx =
      some (pi, { prop with
          arr_orig := vkl_array_data (vkl_array_resize prop.arr_orig ((f + n) % 2 ^ 32))
            f n dn data }) := by
    simpa [vkl_bake_prop, VklVisual.set_source, VklVisual.set_prop] using hbp
  rw [h2'] at h2
  have hp' := (Prod.mk.inj (Option.some.inj h2)).2
  subst hp'
  refine ⟨_, _, h1', h2', rfl, ?_, ?_⟩
  · intro hlt
    obtain ⟨hc, hd⟩ := h3 hlt
    refine ⟨Nat.mod_eq_of_lt hlt, ?_, hd⟩
    rw [hc]
    exact Nat.le_max_right _ _
  · intro hf hn hge
    have hmod : (f + n) % 2 ^ 32 = f + n - 2 ^ 32 := by
      rw [Nat.mod_eq_sub_mod hge]
      exact Nat.mod_eq_of_lt (by omega)
    refine ⟨hmod, by omega, ?_⟩
    intro hold
    have hcnt : (vkl_array_resize prop.arr_orig ((f + n) % 2 ^ 32)).item_count =
        max prop.arr_orig.item_count (f + n - 2 ^ 32) := by
      rw [resize_item_count, hmod]
    have hle : (vkl_array_resize prop.arr_orig ((f + n) % 2 ^ 32)).item_count ≤ f := by
      rw [hcnt]
      exact Nat.max_le.mpr ⟨hold, by omega⟩
    refine ⟨?_, ?_, ?_, array_data_outside _ f n dn data hle⟩
    · show (vkl_array_data _ f n dn data).item_count = _
      rw [array_data_item_count, hcnt]
    · show (vkl_array_data _ f n dn data).item_count ≤ f
      rw [array_data_item_count]
      exact hle
    · intro k hk
      show (vkl_array_data (vkl_array_resize prop.arr_orig ((f + n) % 2 ^ 32))
          f n dn data).data[k]? = none
      apply List.getElem?_eq_none
      have : (vkl_array_data (vkl_array_resize prop.arr_orig ((f + n) % 2 ^ 32))
          f n dn data).item_count ≤ f := by
        rw [array_data_item_count]
        exact hle
      simp only [VklArray.item_count] at this
      omega

theorem staged_size_wraps_witness :
    vkl_bake_prop scatter_declared .POS 0 =
      some (0, { prop_type := .POS, prop_idx := 0, source_type := .VERTEX, source_idx := 0,
                 field_idx := 0, dtype := 12, offset := 0,
                 arr_orig := VklArray.zero, arr_trans := VklArray.zero }) ∧
    (4294967295 + 2) % 2 ^ 32 = 1 ∧
    ∃ v' p',  vkl_visual_data_partial scatter_declared .POS 0 4294967295 2 2 [[1], [2]] = .ok v' ∧
      vkl_bake_prop v' .POS 0 = some (0, p') ∧
      p'.arr_orig.item_count = 1 ∧
      p'.arr_orig.data = [[]] ∧
      (∀ k, 4294967295 ≤ k → p'.arr_orig.data[k]? = none) :=
  have h := staged_size_wraps scatter_declared .POS 0 4294967295 2 2 [[1], [2]] 0
    { prop_type := .POS, prop_idx := 0, source_type := .VERTEX, source_idx := 0,
      field_idx := 0, dtype := 12, offset := 0,
      arr_orig := VklArray.zero, arr_trans := VklArray.zero }
    0
    { pipeline := .GRAPHICS, pipeline_idx := 0, source_type := .VERTEX, source_idx := 0,
      slot_idx := 0, arr := vkl_array_struct 0 16, origin := .NONE, u := .zero }
    (by decide) (by decide)
  ⟨by decide, by decide,
   h.elim fun v' hv => hv.elim fun p' hp =>
     ⟨v', p', hp.1, hp.2.1,
      ((hp.2.2.2.2 (by decide) (by decide) (by decide)).2.2 (by decide)).1,
      ((hp.2.2.2.2 (by decide) (by decide) (by decide)).2.2 (by decide)).2.2.2,
      ((hp.2.2.2.2 (by decide) (by decide) (by decide)).2.2 (by decide)).2.2.1⟩⟩

/-! ## The assertions of the default bake -/

theorem bake_item_count_no_vertex :
    ∀ (ps : List VklProp) (c : Nat), (∀ p ∈ ps, p.source_type ≠ .VERTEX) →
      bake_item_count ps c = some c
  | [], _, _ => rfl
  | q :: ps, c, h => by
    unfold bake_item_count
    rw [if_neg (h q (List.mem_cons_self _ _))]
    exact bake_item_count_no_vertex ps c fun p hp => h p (List.mem_cons_of_mem _ hp)

/-- C28 (amended). Assertion validity of the default bake: when the Source
(VERTEX, 0) is declared with a created array and origin `LIB`, and every Prop
of source kind VERTEX has source index 0, staged data, the same non-zero
staged item count `N` and a positive element size, the default bake returns.
The array of the vertex Source then holds the larger of `N` and the number of
items it held (so `N` items when it held at most `N`), at least `N` when a
Prop of source kind VERTEX exists. At every call of `vkl_bake_prop_copy` of
the copy loop, that is for every Prop of source kind VERTEX with the Props
`pre` before it in the table, the copies for `pre` have returned, the lookup
of the Source of the Prop finds the vertex Source, the element size is
positive, the staged item count of the Prop is at most the item count of the
array of the Source, and the call returns. On a visual with no Source
(VERTEX, 0) the default bake does not return: the result of the lookup is
dereferenced without a check. -/
theorem default_bake_asserts_hold (dtype_size : VklDataType → Nat) (w : VklVisual) (si : Nat)
    (src : VklSource) (N : Nat)
    (hsrc : vkl_bake_source w .VERTEX 0 = some (si, src)) (ho : src.origin = .LIB)
    (hcr : src.arr.created = true) (hN : 0 < N)
    (hall : ∀ p ∈ w.props, p.source_type = .VERTEX →
      p.source_idx = 0 ∧ p.arr_orig.data ≠ [] ∧ p.arr_orig.item_count = N)
    (hsize : ∀ p ∈ w.props, p.source_type = .VERTEX → 0 < dtype_size p.dtype) :
    (∃ w' s', _default_visual_bake dtype_size w = .ok w' ∧
      vkl_bake_source w' .VERTEX 0 = some (si, s') ∧
      s'.arr.item_count = max src.arr.item_count w'.vertex_count ∧
      ((∃ p ∈ w.props, p.source_type = .VERTEX) →
        w'.vertex_count = N ∧ N ≤ s'.arr.item_count ∧
        (src.arr.item_count ≤ N → s'.arr.item_count = N))) ∧
    (∀ (pre post : List VklProp) (p : VklProp), w.props = pre ++ p :: post →
      p.source_type = .VERTEX →
      ∃ x sx x',
        bake_copy_loop dtype_size pre
          (VklVisual.set_source { w with vertex_count := N, index_count := 0 } si
            { src with arr := vkl_array_resize src.arr N }) = .ok x ∧
        vkl_bake_source x p.source_type p.source_idx = some (si, sx) ∧
        0 < dtype_size p.dtype ∧
        sx.arr.item_count = max src.arr.item_count N ∧
        p.arr_orig.item_count ≤ sx.arr.item_count ∧
        vkl_bake_prop_copy dtype_size x p 1 = .ok x') ∧
    (∀ x : VklVisual, vkl_bake_source x .VERTEX 0 = none →
      _default_visual_bake dtype_size x = .abort .null_deref x) := by
  refine ⟨?_, ?_, ?_⟩
  · by_cases hex : ∃ p ∈ w.props, p.source_type = .VERTEX
    · have hb := default_bake_ok dtype_size w si src N hsrc ho hcr hN hex
        (fun p hp hv => (hall p hp hv).2.2) (fun p hp hv _ => hsize p hp hv)
      obtain ⟨h1, -, -⟩ := copy_columns_item_count dtype_size w.props (vkl_array_resize src.arr N)
      have hcount : (copy_columns dtype_size w.props (vkl_array_resize src.arr N)).item_count =
          max src.arr.item_count N := by
        rw [h1, resize_item_count]
      refine ⟨_, { src with arr := copy_columns dtype_size w.props (vkl_array_resize src.arr N) },
        hb, ?_, hcount, ?_⟩
      · exact bake_source_set { w with vertex_count := N, index_count := 0 } .VERTEX 0 si src _
          hsrc
      · intro _
        refine ⟨rfl, ?_, ?_⟩
        · show N ≤ (copy_columns dtype_size w.props (vkl_array_resize src.arr N)).item_count
          rw [hcount]
          exact Nat.le_max_right _ _
        · intro hle
          show (copy_columns dtype_size w.props (vkl_array_resize src.arr N)).item_count = N
          rw [hcount]
          exact Nat.max_eq_right hle
    · have hnv : ∀ p ∈ w.props, p.source_type ≠ .VERTEX := fun p hp hv => hex ⟨p, hp, hv⟩
      have hb := (default_bake_iff dtype_size w
        (VklVisual.set_source { w with vertex_count := 0, index_count := 0 } si
          { src with arr := copy_columns dtype_size w.props (vkl_array_resize src.arr 0) })
        si src hsrc ho).mpr
        ⟨0, bake_item_count_no_vertex w.props 0 hnv, hcr,
          fun p hp hv _ => absurd hv (hnv p hp), rfl⟩
      obtain ⟨h1, -, -⟩ := copy_columns_item_count dtype_size w.props (vkl_array_resize src.arr 0)
      refine ⟨_, { src with arr := copy_columns dtype_size w.props (vkl_array_resize src.arr 0) },
        hb, ?_, ?_, fun h => absurd h hex⟩
      · exact bake_source_set { w with vertex_count := 0, index_count := 0 } .VERTEX 0 si src _
          hsrc
      · show (copy_columns dtype_size w.props (vkl_array_resize src.arr 0)).item_count = _
        rw [h1, resize_item_count]
        rfl
  · intro pre post p hsplit hv
    have hpm : p ∈ w.props := by
      rw [hsplit]
      exact List.mem_append_right _ (List.mem_cons_self _ _)
    obtain ⟨hidx, hdata, hcnt⟩ := hall p hpm hv
    have hfound := bake_source_set { w with vertex_count := N, index_count := 0 } .VERTEX 0 si
      src (vkl_array_resize src.arr N) hsrc
    have hrc : (vkl_array_resize src.arr N).item_count = max src.arr.item_count N :=
      resize_item_count src.arr N
    have hpre := (bake_copy_loop_iff dtype_size pre
      (VklVisual.set_source { w with vertex_count := N, index_count := 0 } si
        { src with arr := vkl_array_resize src.arr N })
      (VklVisual.set_source
        (VklVisual.set_source { w with vertex_count := N, index_count := 0 } si
          { src with arr := vkl_array_resize src.arr N }) si
        { src with arr := copy_columns dtype_size pre (vkl_array_resize src.arr N) })
      si _ hfound).mpr ⟨?_, rfl⟩
    · have hfx := bake_source_set _ .VERTEX 0 si _
        (copy_columns dtype_size pre (vkl_array_resize src.arr N)) hfound
      have hfx' : vkl_bake_source
          (VklVisual.set_source
            (VklVisual.set_source { w with vertex_count := N, index_count := 0 } si
              { src with arr := vkl_array_resize src.arr N }) si
            { src with arr := copy_columns dtype_size pre (vkl_array_resize src.arr N) })
          p.source_type p.source_idx =
          some (si, { src with
            arr := copy_columns dtype_size pre (vkl_array_resize src.arr N) }) := by
        rw [hv, hidx]
        exact hfx
      have hcc : (copy_columns dtype_size pre (vkl_array_resize src.arr N)).item_count =
          max src.arr.item_count N := by
        rw [(copy_columns_item_count dtype_size pre _).1, hrc]
      have hle : p.arr_orig.item_count ≤
          (copy_columns dtype_size pre (vkl_array_resize src.arr N)).item_count := by
        rw [hcc, hcnt]
        exact Nat.le_max_right _ _
      have hcopy := (bake_prop_copy_iff dtype_size _ _ p 1 si _ hfx').mpr
        ⟨⟨hsize p hpm hv, by rw [hcnt]; exact hN, hle⟩, rfl⟩
      exact ⟨_, _, _, hpre, hfx', hsize p hpm hv, hcc, hle, hcopy⟩
    · intro q hq hqv _
      have hqm : q ∈ w.props := by
        rw [hsplit]
        exact List.mem_append_left _ hq
      obtain ⟨-, -, hqc⟩ := hall q hqm hqv
      refine ⟨hsize q hqm hqv, by rw [hqc]; exact hN, ?_⟩
      show q.arr_orig.item_count ≤ (vkl_array_resize src.arr N).item_count
      rw [hrc, hqc]
      exact Nat.le_max_right _ _
  · intro x hx
    unfold _default_visual_bake
    simp only [hx]

theorem default_bake_asserts_hold_witness :
    (∃ w' s', _default_visual_bake example_dtype_size scatter_staged = .ok w' ∧
      vkl_bake_source w' .VERTEX 0 = some (0, s') ∧
      w'.vertex_count = 2 ∧ s'.arr.item_count = 2) ∧
    _default_visual_bake example_dtype_size vkl_visual = .abort .null_deref vkl_visual :=
  have h := default_bake_asserts_hold example_dtype_size scatter_staged 0
    { pipeline := .GRAPHICS, pipeline_idx := 0, source_type := .VERTEX, source_idx := 0,
      slot_idx := 0, arr := vkl_array_struct 0 16, origin := .LIB, u := .zero }
    2 (by decide) rfl rfl (by decide) (by decide) (by decide)
  ⟨h.1.elim fun w' hw => hw.elim fun s' hs =>
     ⟨w', s', hs.1, hs.2.1, (hs.2.2.2 (by decide)).1,
      (hs.2.2.2 (by decide)).2.2 (by decide)⟩,
   h.2.2 vkl_visual (by decide)⟩

/-- C28, as stated, fails. In the visual `scatter_zero_size` the Source
(VERTEX, 0) has a created array and origin `LIB` and both Props have source
kind VERTEX, source index 0 and two staged items, yet the default bake stops
on the `ASSERT(col_size > 0)` of line 523, because the element type of the
first Prop has size 0 in the size table. In the visual `scatter_preallocated`,
where both Props hold two staged items and the array of the vertex Source
already holds three, the default bake returns and the array of the Source
holds three items after the resize, not two. -/
theorem default_bake_asserts_counterexample :
    ((vkl_bake_source scatter_zero_size .VERTEX 0).map
        (fun e => (e.2.origin, e.2.arr.created)) = some (.LIB, true) ∧
      scatter_zero_size.props.map
        (fun p => (p.source_type, p.source_idx, decide (p.arr_orig.data ≠ []),
          p.arr_orig.item_count, example_dtype_size p.dtype)) =
        [(.VERTEX, 0, true, 2, 0), (.VERTEX, 0, true, 2, 12)] ∧
      ∃ x, _default_visual_bake example_dtype_size scatter_zero_size =
        .abort (.assert_failed 523) x) ∧
    ((vkl_bake_source scatter_preallocated .VERTEX 0).map
        (fun e => (e.2.origin, e.2.arr.created, e.2.arr.item_count)) = some (.LIB, true, 3) ∧
      scatter_preallocated.props.map
        (fun p => (p.source_type, p.source_idx, decide (p.arr_orig.data ≠ []),
          p.arr_orig.item_count, example_dtype_size p.dtype)) =
        [(.VERTEX, 0, true, 2, 12), (.VERTEX, 0, true, 2, 4)] ∧
      ∃ w', _default_visual_bake example_dtype_size scatter_preallocated = .ok w' ∧
        w'.vertex_count = 2 ∧
        w'.sources.map (fun s => s.arr.item_count) = [3]) :=
  ⟨⟨by decide, by decide, _, rfl⟩, ⟨by decide, by decide, _, rfl, by decide, by decide⟩⟩


end Visky
